import Mathlib

/-!
A shallow embedding of the cel-go static type checker (`checker/checker.go`)
together with the collaborating components it uses (the `checker/types`
package, the declaration environment, the diagnostics sink and the
qualified-name reader), which are specified but whose sources are not part
of this tree; those are modelled from the specification and are marked as
such.  Go pointer types (`*checked.Type`, `*checked.Reference`) are
rendered as `Option`; Go map mutation as explicit state passing on a
`Checker` record; the Go `panic` in `setType`/`setReference` (and the nil
dereference reachable through a malformed map literal) as a `panicked`
flag that the theorems show stays clear on well-formed input.
-/

namespace cel

mutual
/-- Modelled from the spec (§3 Data model, the `checker/types` package is
not in the tree): the algebraic type representation.  Function argument
lists are a mutual inductive so that structural equality is decidable;
`TyList` is isomorphic to `List Ty`.  The spec leaves the well-known
wrapper kinds unenumerated, so they are carried as an inert index. -/
inductive Ty where
  | error
  | dyn
  | null
  | bool
  | int64
  | uint64
  | double
  | string
  | bytes
  | list (elemType : Ty)
  | map (keyType : Ty) (valueType : Ty)
  | object (messageType : String)
  | type (inner : Ty)
  | typeParam (name : String)
  | function (resultType : Ty) (argTypes : TyList)
  | wellKnown (kind : Nat)
deriving DecidableEq

inductive TyList where
  | nil
  | cons (head : Ty) (tail : TyList)
deriving DecidableEq
end

def TyList.toList : TyList → List Ty
  | .nil => []
  | .cons h t => h :: t.toList

def TyList.ofList : List Ty → TyList
  | [] => .nil
  | h :: t => .cons h (TyList.ofList t)

/-- The Go pointer `*checked.Type`: `none` is the nil pointer. -/
abbrev TyP := Option Ty

/-- Modelled from the spec (§3): the outer tag of a type. -/
inductive Kind where
  | kindError | kindDyn | kindNull | kindBool | kindInt64 | kindUint64
  | kindDouble | kindString | kindBytes | kindList | kindMap | kindObject
  | kindType | kindTypeParam | kindFunction | kindWellKnown
  /-- The kind the proto getter pattern yields for a nil type pointer;
  matched by no branch of the walker. -/
  | kindUnknown
deriving DecidableEq

/-- Modelled from the spec (§3): `KindOf(t)` yields the outer tag. -/
def KindOf : Ty → Kind
  | .error => .kindError
  | .dyn => .kindDyn
  | .null => .kindNull
  | .bool => .kindBool
  | .int64 => .kindInt64
  | .uint64 => .kindUint64
  | .double => .kindDouble
  | .string => .kindString
  | .bytes => .kindBytes
  | .list _ => .kindList
  | .map _ _ => .kindMap
  | .object _ => .kindObject
  | .type _ => .kindType
  | .typeParam _ => .kindTypeParam
  | .function _ _ => .kindFunction
  | .wellKnown _ => .kindWellKnown

/-- `KindOf` through a possibly-nil type pointer.  The Go code can hand the
types package a nil pointer (a node the walker left untyped); the proto
getter pattern then falls through every case, which we render as the
`kindUnknown` tag. -/
def KindOfP : TyP → Kind
  | none => .kindUnknown
  | some t => KindOf t

/-- Modelled from the spec (§3, §4.2): the substitution store, a mapping
from type-parameter name to bound type, extended on the right. -/
abbrev Mapping := List (String × Ty)

/-- First binding of a type-parameter name in the store. -/
def mappingFind : Mapping → String → Option Ty
  | [], _ => none
  | (k, v) :: rest, p => if k = p then some v else mappingFind rest p

/-- Drop the first binding of a name (used to express the transitive
application of an acyclic store as a terminating recursion). -/
def mappingEraseFirst : Mapping → String → Mapping
  | [], _ => []
  | (k, v) :: rest, p => if k = p then rest else (k, v) :: mappingEraseFirst rest p

theorem mappingEraseFirst_length_lt {m : Mapping} {p : String} {t : Ty}
    (h : mappingFind m p = some t) :
    (mappingEraseFirst m p).length < m.length := by
  induction m with
  | nil => simp [mappingFind] at h
  | cons kv rest ih =>
    by_cases hk : kv.1 = p
    · simp [mappingEraseFirst, hk]
    · simp only [mappingFind, hk, if_false] at h
      have := ih (by simpa [mappingFind, hk] using h)
      simp [mappingEraseFirst, hk]
      omega

mutual
/-- Modelled from the spec (§3, §4.2): `Substitute(subst, t, collapse)`
recursively replaces type-parameter leaves by their bound values,
transitively applied; when `collapse` is true a still-unbound parameter
becomes `Dyn`.  On the acyclic stores the occurs check maintains, chasing
a binding never meets the same name again, so consuming the binding while
chasing it computes the same result and terminates. -/
def Substitute (m : Mapping) (t : Ty) (collapse : Bool) : Ty :=
  match t with
  | .typeParam p =>
    match h : mappingFind m p with
    | some t' =>
      have := mappingEraseFirst_length_lt h
      Substitute (mappingEraseFirst m p) t' collapse
    | none => if collapse then .dyn else .typeParam p
  | .list e => .list (Substitute m e collapse)
  | .map k v => .map (Substitute m k collapse) (Substitute m v collapse)
  | .type inner => .type (Substitute m inner collapse)
  | .function r args => .function (Substitute m r collapse) (SubstituteL m args collapse)
  | t => t
termination_by (m.length, sizeOf t)

def SubstituteL (m : Mapping) (ts : TyList) (collapse : Bool) : TyList :=
  match ts with
  | .nil => .nil
  | .cons h rest => .cons (Substitute m h collapse) (SubstituteL m rest collapse)
termination_by (m.length, sizeOf ts)
end

/-- `Substitute` through a possibly-nil type pointer. -/
def SubstituteP (m : Mapping) (t : TyP) (collapse : Bool) : TyP :=
  t.map (fun t => Substitute m t collapse)

mutual
/-- Does the parameter name occur in the type (the occurs check)? -/
def occurs (p : String) : Ty → Bool
  | .typeParam q => q = p
  | .list e => occurs p e
  | .map k v => occurs p k || occurs p v
  | .type inner => occurs p inner
  | .function r args => occurs p r || occursL p args
  | _ => false

def occursL (p : String) : TyList → Bool
  | .nil => false
  | .cons h rest => occurs p h || occursL p rest
end

/-- Is the type one of the primitive kinds (spec §4.2 "both primitives of
the same kind: succeed")? -/
def isPrimitiveKind : Kind → Bool
  | .kindNull | .kindBool | .kindInt64 | .kindUint64
  | .kindDouble | .kindString | .kindBytes => true
  | _ => false

mutual
/-- An executable structural size for types (the derived `sizeOf` of the
mutual inductive has no executable code). -/
def Ty.size : Ty → Nat
  | .list e => e.size + 1
  | .map k v => k.size + v.size + 1
  | .type inner => inner.size + 1
  | .function r args => r.size + args.size + 1
  | _ => 1

def TyList.size : TyList → Nat
  | .nil => 1
  | .cons h t => h.size + t.size + 1
end

mutual
/-- Modelled from the spec (§4.2): `IsAssignable(store, src, dst)` returns
an extended store iff `src` is assignable to `dst`.  The recursion chases
bindings of the evolving store, which terminates on the acyclic stores the
occurs check maintains; the model makes this a fuel-indexed recursion and
feeds it fuel that is ample for every store the checker builds.  The
well-known-wrapper rule of §4.1 is rendered as equal wrapper kinds being
mutually assignable (the spec leaves the underlying-primitive table
unenumerated). -/
def internalIsAssignable (fuel : Nat) (m : Mapping) (t1 t2 : Ty) : Option Mapping :=
  match fuel with
  | 0 => none
  | fuel + 1 =>
    if KindOf t1 = .kindDyn ∨ KindOf t1 = .kindError
        ∨ KindOf t2 = .kindDyn ∨ KindOf t2 = .kindError then
      some m
    else
      match t1, t2 with
      | .typeParam p, _ =>
        match mappingFind m p with
        | some b => internalIsAssignable fuel m b t2
        | none =>
          if occurs p (Substitute m t2 false) then none
          else some (m ++ [(p, t2)])
      | _, .typeParam p =>
        match mappingFind m p with
        | some b => internalIsAssignable fuel m t1 b
        | none =>
          if occurs p (Substitute m t1 false) then none
          else some (m ++ [(p, t1)])
      | .list e1, .list e2 => internalIsAssignable fuel m e1 e2
      | .map k1 v1, .map k2 v2 =>
        match internalIsAssignable fuel m k1 k2 with
        | some m' => internalIsAssignable fuel m' v1 v2
        | none => none
      | .object n1, .object n2 => if n1 = n2 then some m else none
      | .type a, .type b => internalIsAssignable fuel m a b
      | .function r1 a1, .function r2 a2 =>
        match internalIsAssignable fuel m r1 r2 with
        | some m' => internalIsAssignableList fuel m' a1.toList a2.toList
        | none => none
      | .wellKnown w1, .wellKnown w2 => if w1 = w2 then some m else none
      | t1, t2 => if KindOf t1 = KindOf t2 ∧ isPrimitiveKind (KindOf t1) then some m else none
termination_by (fuel, 0)

/-- Modelled from the spec (§4.2): pairwise assignability threading the
store; a length mismatch fails. -/
def internalIsAssignableList (fuel : Nat) (m : Mapping) : List Ty → List Ty → Option Mapping
  | [], [] => some m
  | x :: xs, y :: ys =>
    match internalIsAssignable fuel m x y with
    | some m' => internalIsAssignableList fuel m' xs ys
    | none => none
  | _, _ => none
termination_by xs ys => (fuel, xs.length + 1)
end

/-- Fuel that is ample for the stores the checker builds: the chase
shortens the unexplored structure or consumes one binding per step. -/
def assignFuel (m : Mapping) (t1 t2 : Ty) : Nat :=
  m.length + t1.size + t2.size + (m.map (fun kv => kv.2.size)).sum + 100

def IsAssignable (m : Mapping) (t1 t2 : Ty) : Option Mapping :=
  internalIsAssignable (assignFuel m t1 t2) m t1 t2

/-- `IsAssignable` through possibly-nil type pointers: a nil pointer
reaches the types package only on ASTs the walker left partially untyped,
where the Go original dereferences nil; the model makes such a flow fail. -/
def IsAssignableP (m : Mapping) : TyP → TyP → Option Mapping
  | some t1, some t2 => IsAssignable m t1 t2
  | _, _ => none

def IsAssignableListP (m : Mapping) : List TyP → List TyP → Option Mapping
  | [], [] => some m
  | x :: xs, y :: ys =>
    match IsAssignableP m x y with
    | some m' => IsAssignableListP m' xs ys
    | none => none
  | _, _ => none

/-- Modelled from the spec (§4.2): the join of two mutually assignable
types: `Dyn` when either side is `Dyn`, otherwise the first. -/
def MostGeneral (t1 t2 : Ty) : Ty :=
  if KindOf t1 = .kindDyn ∨ KindOf t2 = .kindDyn then .dyn else t1

def MostGeneralP : TyP → TyP → TyP
  | some t1, some t2 => some (MostGeneral t1 t2)
  | _, _ => none

/-- Constant payloads (`expr.Constant`).  The checker dispatches on the
constant's kind only and never reads the payload, so the double payload is
an inert bit index. -/
inductive Const where
  | boolValue (b : Bool)
  | bytesValue (bs : List Nat)
  | doubleValue (bits : Nat)
  | int64Value (i : Int)
  | nullValue
  | stringValue (s : String)
  | uint64Value (u : Nat)
deriving DecidableEq

mutual
/-- The expression AST (`expr.Expr`): each node carries its numeric id.
The call target is the one child pointer the checker branches on being
nil, hence the `Option`. -/
inductive Expr where
  | constE (id : Nat) (constant : Const)
  | identE (id : Nat) (name : String)
  | selectE (id : Nat) (operand : Expr) (field : String) (testOnly : Bool)
  | callE (id : Nat) (target : Option Expr) (function : String) (args : List Expr)
  | listE (id : Nat) (elements : List Expr)
  | structE (id : Nat) (messageName : String) (entries : List Entry)
  | comprehensionE (id : Nat) (iterVar : String) (iterRange : Expr)
      (accuVar : String) (accuInit : Expr)
      (loopCondition : Expr) (loopStep : Expr) (result : Expr)

/-- A struct-literal entry (`Expr_CreateStruct_Entry`): a field key or a
map key, paired with a value. -/
inductive Entry where
  | fieldEntry (id : Nat) (fieldKey : String) (value : Expr)
  | mapEntry (id : Nat) (mapKey : Expr) (value : Expr)
end

def Expr.exprId : Expr → Nat
  | .constE i _ => i
  | .identE i _ => i
  | .selectE i _ _ _ => i
  | .callE i _ _ _ => i
  | .listE i _ => i
  | .structE i _ _ => i
  | .comprehensionE i _ _ _ _ _ _ _ => i

def Entry.entryId : Entry → Nat
  | .fieldEntry i _ _ => i
  | .mapEntry i _ _ => i

/-- `ent.GetFieldKey()`: the proto getter yields `""` on a map entry. -/
def Entry.getFieldKey : Entry → String
  | .fieldEntry _ fk _ => fk
  | .mapEntry _ _ _ => ""

/-- `ent.GetMapKey()`: the proto getter yields nil on a field entry. -/
def Entry.getMapKey : Entry → Option Expr
  | .fieldEntry _ _ _ => none
  | .mapEntry _ k _ => some k

def Entry.value : Entry → Expr
  | .fieldEntry _ _ v => v
  | .mapEntry _ _ v => v

mutual
/-- All node ids of an expression, the root first (entry ids included:
they key the positions map like node ids do). -/
def Expr.idList : Expr → List Nat
  | .constE i _ => [i]
  | .identE i _ => [i]
  | .selectE i op _ _ => i :: op.idList
  | .callE i t _ args =>
    i :: (match t with | some t => t.idList | none => []) ++ Expr.idListL args
  | .listE i es => i :: Expr.idListL es
  | .structE i _ ents => i :: Entry.idListL ents
  | .comprehensionE i _ range _ accu cond step res =>
    i :: range.idList ++ accu.idList ++ cond.idList ++ step.idList ++ res.idList

def Expr.idListL : List Expr → List Nat
  | [] => []
  | e :: rest => e.idList ++ Expr.idListL rest

def Entry.idListL : List Entry → List Nat
  | [] => []
  | .fieldEntry i _ v :: rest => i :: v.idList ++ Entry.idListL rest
  | .mapEntry i k v :: rest => i :: k.idList ++ v.idList ++ Entry.idListL rest
end

/-- Modelled from the spec (§4.5 Selection, the helper is not in the
tree): read a selection chain as a qualified name by concatenating
identifier segments. -/
def asQualifiedName : Expr → Option String
  | .identE _ name => some name
  | .selectE _ op field _ => (asQualifiedName op).map (fun q => q ++ "." ++ field)
  | _ => none

/-- A resolved reference (`checked.Reference`). -/
structure Reference where
  name : String := ""
  overloadId : List String := []
  value : Option Const := none
deriving DecidableEq

def newIdentReference (name : String) (value : Option Const) : Reference :=
  { name := name, value := value }

def newFunctionReference (overloads : List String) : Reference :=
  { overloadId := overloads }

/-- A source location (`common.Location`). -/
inductive Loc where
  | noLocation
  | location (line : Nat) (col : Int)
deriving DecidableEq

/-- Modelled from the spec (§6 Diagnostic kinds): the structured
diagnostics of the sink, each with its location and payload. -/
inductive Diag where
  | undeclaredReference (l : Loc) (container : String) (name : String)
  | expressionDoesNotSelectField (l : Loc)
  | fieldDoesNotSupportPresenceCheck (l : Loc) (field : String)
  | typeDoesNotSupportFieldSelection (l : Loc) (t : TyP)
  | noMatchingOverload (l : Loc) (name : String) (args : List TyP) (isInstance : Bool)
  | notAType (l : Loc) (t : TyP)
  | notAMessageType (l : Loc) (t : TyP)
  | fieldTypeMismatch (l : Loc) (name : String) (field : TyP) (value : TyP)
  | undefinedField (l : Loc) (field : String)
  | unexpectedFailedResolution (l : Loc) (typeName : String)
  | aggregateTypeMismatch (l : Loc) (aggregate : TyP) (member : TyP)
  | notAComprehensionRange (l : Loc) (t : TyP)
  | typeMismatch (l : Loc) (expected : TyP) (actual : TyP)
deriving DecidableEq

/-- An identifier declaration (spec §3 Declaration); the type is a Go
pointer and can be nil (the walker itself installs a nil-typed iteration
variable on a comprehension whose range is not iterable). -/
structure IdentDecl where
  name : String
  type : TyP
  value : Option Const
deriving DecidableEq

/-- One overload of a function declaration (spec §3 Declaration). -/
structure Overload where
  overloadId : String
  typeParams : List String
  params : List Ty
  resultType : Ty
  isInstanceFunction : Bool
deriving DecidableEq

structure FuncDecl where
  name : String
  overloads : List Overload
deriving DecidableEq

/-- One scope of the declaration environment. -/
structure Scope where
  idents : List IdentDecl := []
  functions : List FuncDecl := []
deriving DecidableEq

/-- The external type provider (spec §6): `lookupType` is used by the
checker only as a resolution test, `lookupFieldType` yields field type and
presence support. -/
structure FieldType where
  type : TyP
  supportsPresence : Bool
deriving DecidableEq

structure TypeProvider where
  lookupType : String → Bool
  lookupFieldType : TyP → String → Option FieldType

/-- Modelled from the spec (§3, §4.3, the `Env` source is not in the
tree): a stack of scopes, innermost first, plus the error sink and the
type provider the checker reaches through it. -/
structure Env where
  typeProvider : TypeProvider
  scopes : List Scope
  errors : List Diag := []

/-- The qualified-name candidates for container `a.b.c` and name `N`:
`a.b.c.N`, `a.b.N`, `a.N`, `N`, in that order (spec §3 Environment). -/
def containerCandidates (container name : String) : List String :=
  let parts := if container = "" then [] else container.splitOn "."
  ((List.range (parts.length + 1)).reverse).map
    (fun k => String.intercalate "." (parts.take k ++ [name]))

/-- Modelled from the spec (§4.3): find the first candidate resolving to
an identifier declaration, searching scopes innermost first. -/
def lookupIdent (scopes : List Scope) (container name : String) : Option IdentDecl :=
  (containerCandidates container name).findSome?
    (fun cand => scopes.findSome? (fun sc => sc.idents.find? (fun d => d.name == cand)))

/-- Modelled from the spec (§4.3): the identical search on the function
table. -/
def lookupFunction (scopes : List Scope) (container name : String) : Option FuncDecl :=
  (containerCandidates container name).findSome?
    (fun cand => scopes.findSome? (fun sc => sc.functions.find? (fun d => d.name == cand)))

/-- Source metadata (`expr.SourceInfo`): line start offsets and per-node
byte offsets. -/
structure SourceInfo where
  lineOffsets : List Int := []
  positions : List (Nat × Int) := []

structure ParsedExpr where
  expr : Option Expr
  sourceInfo : SourceInfo

/-- The annotated output (`checked.CheckedExpr`). -/
structure CheckedExpr where
  expr : Option Expr
  sourceInfo : SourceInfo
  typeMap : List (Nat × TyP)
  referenceMap : List (Nat × Reference)

/-- First value stored under an id in an id-keyed association list. -/
def findId {α : Type} : List (Nat × α) → Nat → Option α
  | [], _ => none
  | (k, v) :: rest, i => if k = i then some v else findId rest i

/-- The checker state (`type checker struct`), plus a `panicked` flag
standing for the Go panics (`setType`/`setReference` conflicts and the nil
dereference a malformed map literal reaches). -/
structure Checker where
  env : Env
  container : String
  mappings : Mapping
  freeTypeVarCounter : Nat
  sourceInfo : SourceInfo
  types : List (Nat × TyP)
  references : List (Nat × Reference)
  panicked : Bool := false

namespace Checker

def addError (c : Checker) (d : Diag) : Checker :=
  { c with env := { c.env with errors := c.env.errors ++ [d] } }

def enterScope (c : Checker) : Checker :=
  { c with env := { c.env with scopes := {} :: c.env.scopes } }

def exitScope (c : Checker) : Checker :=
  { c with env := { c.env with scopes := c.env.scopes.tail } }

/-- `env.Add`: install a declaration into the innermost scope. -/
def addIdent (c : Checker) (d : IdentDecl) : Checker :=
  { c with env := { c.env with scopes :=
      match c.env.scopes with
      | [] => [{ idents := [d] }]
      | sc :: rest => { sc with idents := d :: sc.idents } :: rest } }

/-- `locationById` (checker.go): scan `lineOffsets` in order while the
line offset is below the node's offset, breaking at the first that is not. -/
def lineColScan (offsets : List Int) (offset : Int) (line : Nat) (col : Int) : Nat × Int :=
  match offsets with
  | [] => (line, col)
  | lo :: rest =>
    if lo < offset then lineColScan rest offset (line + 1) (offset - lo)
    else (line, col)

def locationById (c : Checker) (id : Nat) : Loc :=
  match findId c.sourceInfo.positions id with
  | some offset =>
    let lc := lineColScan c.sourceInfo.lineOffsets offset 1 offset
    .location lc.1 lc.2
  | none => .noLocation

def location (c : Checker) (e : Expr) : Loc :=
  c.locationById e.exprId

/-- `setType` (checker.go): a write to an id already holding a
structurally different value is a checker bug and panics; an equal
rewrite is accepted. -/
def setType (c : Checker) (e : Expr) (t : TyP) : Checker :=
  match findId c.types e.exprId with
  | some old => if old = t then c else { c with panicked := true }
  | none => { c with types := (e.exprId, t) :: c.types }

def getType (c : Checker) (e : Expr) : TyP :=
  (findId c.types e.exprId).getD none

def setReference (c : Checker) (e : Expr) (r : Reference) : Checker :=
  match findId c.references e.exprId with
  | some old => if old = r then c else { c with panicked := true }
  | none => { c with references := (e.exprId, r) :: c.references }

def newTypeVar (c : Checker) : Ty × Checker :=
  (Ty.typeParam ("_var" ++ toString c.freeTypeVarCounter),
   { c with freeTypeVarCounter := c.freeTypeVarCounter + 1 })

def isAssignable (c : Checker) (t1 t2 : TyP) : Bool × Checker :=
  match IsAssignableP c.mappings t1 t2 with
  | some subs => (true, { c with mappings := subs })
  | none => (false, c)

def isAssignableList (c : Checker) (l1 l2 : List TyP) : Bool × Checker :=
  match IsAssignableListP c.mappings l1 l2 with
  | some subs => (true, { c with mappings := subs })
  | none => (false, c)

/-- `joinTypes` (checker.go): the nil pointer is the unset sentinel. -/
def joinTypes (c : Checker) (loc : Loc) (previous current : TyP) : TyP × Checker :=
  match previous with
  | none => (current, c)
  | some _ =>
    let (ok, c) := c.isAssignable previous current
    if ok then (MostGeneralP previous current, c)
    else (previous, c.addError (.aggregateTypeMismatch loc previous current))

def assertType (c : Checker) (e : Expr) (t : TyP) : Checker :=
  let (ok, c') := c.isAssignable t (c.getType e)
  if ok then c'
  else c'.addError (.typeMismatch (c'.location e) t (c'.getType e))

/-- `messageType.GetMessageType()`: the object name, `""` through any
other variant or the nil pointer. -/
def getMessageTypeName : TyP → String
  | some (.object n) => n
  | _ => ""

/-- `lookupFieldType` (checker.go). -/
def lookupFieldType (c : Checker) (l : Loc) (messageType : TyP) (fieldName : String) :
    Option FieldType × Checker :=
  if c.env.typeProvider.lookupType (getMessageTypeName messageType) = false then
    (none, c.addError (.unexpectedFailedResolution l (getMessageTypeName messageType)))
  else
    match c.env.typeProvider.lookupFieldType messageType fieldName with
    | some ft => (some ft, c)
    | none => (none, c.addError (.undefinedField l fieldName))

end Checker

structure OverloadResolution where
  reference : Reference
  type : TyP
deriving DecidableEq

def newResolution (ref : Reference) (t : TyP) : OverloadResolution :=
  { reference := ref, type := t }

namespace Checker

/-- Instantiate an overload's type parameters with fresh type variables
(`substitutions` in `resolveOverload`), in declaration order. -/
def instantiateSubs (c : Checker) (typeParams : List String) : Mapping × Checker :=
  match typeParams with
  | [] => ([], c)
  | tp :: rest =>
    let nv := c.newTypeVar
    let sc := nv.2.instantiateSubs rest
    ((tp, nv.1) :: sc.1, sc.2)

/-- Instantiate an overload's declared function type
(`types.NewFunction(overload.ResultType, overload.Params...)`), fresh
type variables substituted for its type parameters when it has any. -/
def instantiateOverload (c : Checker) (o : Overload) : Ty × Checker :=
  let overloadType0 := Ty.function o.resultType (TyList.ofList o.params)
  if o.typeParams.length > 0 then
    let sc := c.instantiateSubs o.typeParams
    (Substitute sc.1 overloadType0 false, sc.2)
  else (overloadType0, c)

/-- `overloadType.GetFunction().ArgTypes` as pointers. -/
def candidateArgs (overloadType : Ty) : List TyP :=
  match overloadType with
  | .function _ args => args.toList.map some
  | _ => []

/-- `overloadType.GetFunction().ResultType` (nil through a non-function). -/
def overloadResultType (overloadType : Ty) : TyP :=
  match overloadType with
  | .function r _ => some r
  | _ => none

/-- The overload loop of `resolveOverload`: skip overloads of the wrong
call style, instantiate type parameters freshly, and on an argument-list
match record the overload id; the first match fixes the tentative result
type (the current store applied to the instantiated result, without
collapsing), any further match narrows it to `Dyn`. -/
def overloadLoop (argTypes : List TyP) (hasTarget : Bool) (c : Checker)
    (resultType : Option TyP) (ref : Option Reference) :
    List Overload → Checker × Option TyP × Option Reference
  | [] => (c, resultType, ref)
  | o :: rest =>
    if (!hasTarget && o.isInstanceFunction) || (hasTarget && !o.isInstanceFunction) then
      -- not a compatible call style.
      overloadLoop argTypes hasTarget c resultType ref rest
    else
      let ic := c.instantiateOverload o
      let ac := ic.2.isAssignableList argTypes (candidateArgs ic.1)
      if ac.1 then
        overloadLoop argTypes hasTarget ac.2
          (some (match resultType with
            | none =>
              -- First matching overload, determines result type.
              SubstituteP ac.2.mappings (overloadResultType ic.1) false
            | some _ =>
              -- More than one matching overload, narrow result type to DYN.
              some .dyn))
          (some (match ref with
            | none => newFunctionReference [o.overloadId]
            | some r => { r with overloadId := r.overloadId ++ [o.overloadId] }))
          rest
      else
        overloadLoop argTypes hasTarget ac.2 resultType ref rest

/-- `resolveOverload` (checker.go): assemble the argument types (receiver
first), run the overload loop, and either return a resolution or emit
`no-matching-overload` and return none. -/
def resolveOverload (c : Checker) (loc : Loc) (fn : FuncDecl) (target : Option Expr)
    (args : List Expr) : Option OverloadResolution × Checker :=
  let argTypes : List TyP :=
    (match target with | some t => [c.getType t] | none => [])
      ++ args.map (fun a => c.getType a)
  let out := overloadLoop argTypes target.isSome c none none fn.overloads
  let c := out.1
  match out.2.1 with
  | none => (none, c.addError (.noMatchingOverload loc fn.name argTypes target.isSome))
  | some rt =>
    -- A result type is only ever set alongside a reference, so the
    -- default in the second component is dead.
    (some (newResolution (out.2.2.getD (newFunctionReference [])) rt), c)

def checkInt64Constant (c : Checker) (e : Expr) : Checker :=
  c.setType e (some .int64)

def checkUint64Constant (c : Checker) (e : Expr) : Checker :=
  c.setType e (some .uint64)

def checkStringConstant (c : Checker) (e : Expr) : Checker :=
  c.setType e (some .string)

def checkBytesConstant (c : Checker) (e : Expr) : Checker :=
  c.setType e (some .bytes)

def checkDoubleConstant (c : Checker) (e : Expr) : Checker :=
  c.setType e (some .double)

def checkBoolConstant (c : Checker) (e : Expr) : Checker :=
  c.setType e (some .bool)

def checkNullConstant (c : Checker) (e : Expr) : Checker :=
  c.setType e (some .null)

/-- `checkIdent` (checker.go). -/
def checkIdent (c : Checker) (e : Expr) : Checker :=
  match e with
  | .identE _ name =>
    match lookupIdent c.env.scopes c.container name with
    | some ident =>
      (c.setType e ident.type).setReference e (newIdentReference ident.name ident.value)
    | none =>
      (c.setType e (some .error)).addError
        (.undeclaredReference (c.location e) c.container name)
  | _ => c

mutual

/-- `check` (checker.go): dispatch on the expression kind. -/
def check (c : Checker) (e : Expr) : Checker :=
  match e with
  | .constE i con =>
    match con with
    | .boolValue b => c.checkBoolConstant (.constE i (.boolValue b))
    | .bytesValue bs => c.checkBytesConstant (.constE i (.bytesValue bs))
    | .doubleValue d => c.checkDoubleConstant (.constE i (.doubleValue d))
    | .int64Value v => c.checkInt64Constant (.constE i (.int64Value v))
    | .nullValue => c.checkNullConstant (.constE i .nullValue)
    | .stringValue s => c.checkStringConstant (.constE i (.stringValue s))
    | .uint64Value u => c.checkUint64Constant (.constE i (.uint64Value u))
  | .identE i n => c.checkIdent (.identE i n)
  | .selectE i op f t => c.checkSelect (.selectE i op f t)
  | .callE i tgt f args => c.checkCall (.callE i tgt f args)
  | .listE i es => c.checkCreateList (.listE i es)
  | .structE i n ents => c.checkCreateStruct (.structE i n ents)
  | .comprehensionE i iv ir av ai lc ls r =>
    c.checkComprehension (.comprehensionE i iv ir av ai lc ls r)
termination_by 3 * sizeOf e + 2

/-- `checkSelect` (checker.go). -/
def checkSelect (c : Checker) (e : Expr) : Checker :=
  match e with
  | .selectE _ op field testOnly =>
    -- Before traversing down the tree, try to interpret as qualified name.
    let resolved : Option IdentDecl :=
      match asQualifiedName e with
      | some qname => lookupIdent c.env.scopes c.container qname
      | none => none
    match resolved with
    | some ident =>
      if testOnly then
        (c.addError (.expressionDoesNotSelectField (c.location e))).setType e (some .bool)
      else
        (c.setType e ident.type).setReference e (newIdentReference ident.name ident.value)
    | none =>
      -- Interpret as field selection, first traversing down the operand.
      let c := c.check op
      let targetType := c.getType op
      let rc : TyP × Checker :=
        match KindOfP targetType with
        | .kindError | .kindDyn => (some .dyn, c)
        | .kindObject =>
          let (ft?, c) := c.lookupFieldType (c.location e) targetType field
          match ft? with
          | some fieldType =>
            if testOnly && !fieldType.supportsPresence then
              (fieldType.type,
               c.addError (.fieldDoesNotSupportPresenceCheck (c.location e) field))
            else (fieldType.type, c)
          | none => (some .error, c)
        | .kindMap =>
          ((match targetType with | some (.map _ v) => some v | _ => none), c)
        | _ =>
          (some .error,
           c.addError (.typeDoesNotSupportFieldSelection (c.location e) targetType))
      let c := rc.2
      let resultType := if testOnly then some Ty.bool else rc.1
      c.setType e resultType
  | _ => c
termination_by 3 * sizeOf e + 1

/-- `checkCall` (checker.go): arguments first; a receiver readable as a
qualified static-function name is tried first, and only a successful
resolution suppresses the instance-call path. -/
def checkCall (c : Checker) (e : Expr) : Checker :=
  match e with
  | .callE _ target fnName args =>
    -- Traverse arguments.
    let c := c.checkArgs args
    let rc : Option OverloadResolution × Checker :=
      match target with
      | none =>
        -- Regular static call with simple name.
        match lookupFunction c.env.scopes c.container fnName with
        | some fn => c.resolveOverload (c.location e) fn none args
        | none => (none, c.addError (.undeclaredReference (c.location e) c.container fnName))
      | some tgt =>
        -- Check whether the target is actually a qualified name for a
        -- static function.
        let rc1 : Option OverloadResolution × Checker :=
          match asQualifiedName tgt with
          | some qname =>
            match lookupFunction c.env.scopes c.container (qname ++ "." ++ fnName) with
            | some fn => c.resolveOverload (c.location e) fn none args
            | none => (none, c)
          | none => (none, c)
        match rc1 with
        | (some res, c) => (some res, c)
        | (none, c) =>
          -- Regular instance call.
          let c := c.check tgt
          match lookupFunction c.env.scopes c.container fnName with
          | some fn => c.resolveOverload (c.location e) fn (some tgt) args
          | none => (none, c.addError (.undeclaredReference (c.location e) c.container fnName))
    match rc with
    | (some res, c) => (c.setType e res.type).setReference e res.reference
    | (none, c) => c.setType e (some .error)
  | _ => c
termination_by 3 * sizeOf e + 1

/-- `checkCreateList` (checker.go). -/
def checkCreateList (c : Checker) (e : Expr) : Checker :=
  match e with
  | .listE _ elements =>
    let out := c.checkElements elements none
    let c := out.1
    match out.2 with
    | none =>
      -- If the list is empty, assign free type var to elem type.
      let (v, c) := c.newTypeVar
      c.setType e (some (.list v))
    | some t => c.setType e (some (.list t))
  | _ => c
termination_by 3 * sizeOf e + 1

/-- `checkCreateStruct` (checker.go). -/
def checkCreateStruct (c : Checker) (e : Expr) : Checker :=
  match e with
  | .structE i messageName ents =>
    if messageName ≠ "" then c.checkCreateMessage (.structE i messageName ents)
    else c.checkCreateMap (.structE i messageName ents)
  | _ => c
termination_by 3 * sizeOf e + 1

/-- `checkCreateMap` (checker.go). -/
def checkCreateMap (c : Checker) (e : Expr) : Checker :=
  match e with
  | .structE _ _ entries =>
    let out := c.checkMapEntries entries none none
    let c := out.1
    match out.2.1 with
    | none =>
      -- If the map is empty, assign free type variables to typeKey and
      -- value type.
      let (kv, c) := c.newTypeVar
      let (vv, c) := c.newTypeVar
      c.setType e (some (.map kv vv))
    | some kt =>
      -- `NewMap` around a nil value pointer (all values untyped) is
      -- rendered as the nil type.
      c.setType e (match out.2.2 with | some vt => some (.map kt vt) | none => none)
  | _ => c
termination_by 3 * sizeOf e

/-- `checkCreateMessage` (checker.go): an unresolved message name emits
`undeclared-reference` and returns before any type is set and before any
entry is visited. -/
def checkCreateMessage (c : Checker) (e : Expr) : Checker :=
  match e with
  | .structE _ messageName entries =>
    match lookupIdent c.env.scopes c.container messageName with
    | none => c.addError (.undeclaredReference (c.location e) c.container messageName)
    | some decl =>
      let c := c.setReference e (newIdentReference decl.name none)
      let identKind := KindOfP decl.type
      let mc : TyP × Checker :=
        if identKind ≠ .kindError then
          if identKind ≠ .kindType then
            (some .error, c.addError (.notAType (c.location e) decl.type))
          else
            let mt : TyP := match decl.type with | some (.type inner) => some inner | _ => none
            if KindOfP mt ≠ .kindObject then
              (some .error, c.addError (.notAMessageType (c.location e) mt))
            else (mt, c)
        else (some .error, c)
      let messageType := mc.1
      let c := mc.2
      let c := c.setType e messageType
      c.checkMessageEntries entries messageType
  | _ => c
termination_by 3 * sizeOf e

/-- `checkComprehension` (checker.go): an unsupported range kind emits
`not-a-comprehension-range` and leaves the iteration-variable type nil,
but the scopes are entered and the body checked regardless. -/
def checkComprehension (c : Checker) (e : Expr) : Checker :=
  match e with
  | .comprehensionE _ iterVar iterRange accuVar accuInit cond step res =>
    let c := c.check iterRange
    let c := c.check accuInit
    let accuType := c.getType accuInit
    let rangeType := c.getType iterRange
    let vc : TyP × Checker :=
      match KindOfP rangeType with
      | .kindList =>
        ((match rangeType with | some (.list et) => some et | _ => none), c)
      | .kindMap =>
        -- Ranges over the keys.
        ((match rangeType with | some (.map kt _) => some kt | _ => none), c)
      | .kindDyn | .kindError => (some .dyn, c)
      | _ =>
        (none, c.addError (.notAComprehensionRange (c.locationById iterRange.exprId) rangeType))
    let varType := vc.1
    let c := vc.2
    let c := c.enterScope
    let c := c.addIdent { name := accuVar, type := accuType, value := none }
    -- Declare iteration variable on inner scope.
    let c := c.enterScope
    let c := c.addIdent { name := iterVar, type := varType, value := none }
    let c := c.check cond
    let c := c.assertType cond (some .bool)
    let c := c.check step
    let c := c.assertType step accuType
    -- Forget iteration variable, as result expression must only depend
    -- on accu.
    let c := c.exitScope
    let c := c.check res
    let c := c.exitScope
    c.setType e (c.getType res)
  | _ => c
termination_by 3 * sizeOf e + 1

/-- The argument traversal of `checkCall`. -/
def checkArgs (c : Checker) (args : List Expr) : Checker :=
  match args with
  | [] => c
  | a :: rest => (c.check a).checkArgs rest
termination_by 3 * sizeOf args + 2

/-- The element traversal of `checkCreateList`, threading the joined
element type. -/
def checkElements (c : Checker) (es : List Expr) (elemType : TyP) : Checker × TyP :=
  match es with
  | [] => (c, elemType)
  | el :: rest =>
    let c := c.check el
    let jc := c.joinTypes (c.location el) elemType (c.getType el)
    checkElements jc.2 rest jc.1
termination_by 3 * sizeOf es + 2

/-- The entry traversal of `checkCreateMap`, threading the joined key and
value types.  On a field-keyed entry the Go code calls `c.location` on the
nil map key and panics. -/
def checkMapEntries (c : Checker) (ents : List Entry) (keyType valueType : TyP) :
    Checker × TyP × TyP :=
  match ents with
  | [] => (c, keyType, valueType)
  | .fieldEntry _ _ _ :: _ => ({ c with panicked := true }, keyType, valueType)
  | .mapEntry _ key value :: rest =>
    let c := c.check key
    let kc := c.joinTypes (c.location key) keyType (c.getType key)
    let c := kc.2
    let c := c.check value
    let vc := c.joinTypes (c.location value) valueType (c.getType value)
    checkMapEntries vc.2 rest kc.1 vc.1
termination_by 3 * sizeOf ents + 2

/-- One field initializer of `checkCreateMessage`. -/
def checkMessageEntry (c : Checker) (entId : Nat) (field : String) (value : Expr)
    (messageType : TyP) : Checker :=
  let c := c.check value
  let fc := c.lookupFieldType (c.locationById entId) messageType field
  let c := fc.2
  let fieldType : TyP := match fc.1 with | some t => t.type | none => some .error
  let ac := c.isAssignable fieldType (c.getType value)
  let c := ac.2
  if ac.1 then c
  else c.addError (.fieldTypeMismatch (c.locationById entId) field fieldType (c.getType value))
termination_by 3 * sizeOf value + 3

/-- The field-initializer traversal of `checkCreateMessage`. -/
def checkMessageEntries (c : Checker) (ents : List Entry) (messageType : TyP) : Checker :=
  match ents with
  | [] => c
  | .fieldEntry eid fk v :: rest =>
    (c.checkMessageEntry eid fk v messageType).checkMessageEntries rest messageType
  | .mapEntry eid _ v :: rest =>
    -- `GetFieldKey` yields `""` on a map-keyed entry.
    (c.checkMessageEntry eid "" v messageType).checkMessageEntries rest messageType
termination_by 3 * sizeOf ents + 2

end

end Checker

/-- `Check` (checker.go): run the walker from the root (a nil root
returns immediately), then substitute the final type map with unresolved
type parameters collapsed to `Dyn`.  The final checker state is returned
alongside so the error sink, owned by the caller's environment in the Go
original, stays observable. -/
def Check (parsedExpr : ParsedExpr) (env : Env) (container : String) :
    CheckedExpr × Checker :=
  let c : Checker := {
    env := env, container := container, mappings := [],
    freeTypeVarCounter := 0, sourceInfo := parsedExpr.sourceInfo,
    types := [], references := [] }
  let c := match parsedExpr.expr with
    | some e => c.check e
    | none => c
  -- Walk over the final type map substituting any type parameters either
  -- by their bound value or by DYN.
  let m := c.types.map (fun kv => (kv.1, SubstituteP c.mappings kv.2 true))
  ({ expr := parsedExpr.expr, sourceInfo := parsedExpr.sourceInfo,
     typeMap := m, referenceMap := c.references }, c)

/-! ## General lemmas about the embedding -/

mutual
/-- Does an unresolved type parameter occur anywhere in the type? -/
def hasTypeParam : Ty → Bool
  | .typeParam _ => true
  | .list e => hasTypeParam e
  | .map k v => hasTypeParam k || hasTypeParam v
  | .type inner => hasTypeParam inner
  | .function r args => hasTypeParam r || hasTypeParamL args
  | _ => false

def hasTypeParamL : TyList → Bool
  | .nil => false
  | .cons h rest => hasTypeParam h || hasTypeParamL rest
end

mutual
/-- Collapsing substitution leaves no type parameter behind: a bound
parameter is chased into its binding, an unbound one becomes `Dyn`. -/
theorem substitute_collapse_no_param (m : Mapping) (t : Ty) :
    hasTypeParam (Substitute m t true) = false := by
  match t with
  | .typeParam p =>
    rw [Substitute]
    split
    · next t' heq =>
      have := mappingEraseFirst_length_lt heq
      simpa using substitute_collapse_no_param (mappingEraseFirst m p) t'
    · simp [hasTypeParam]
  | .list e =>
    rw [Substitute]
    simpa [hasTypeParam] using substitute_collapse_no_param m e
  | .map k v =>
    rw [Substitute]
    simp [hasTypeParam, substitute_collapse_no_param m k, substitute_collapse_no_param m v]
  | .type inner =>
    rw [Substitute]
    simpa [hasTypeParam] using substitute_collapse_no_param m inner
  | .function r args =>
    rw [Substitute]
    simp [hasTypeParam, substitute_collapse_no_param m r, substituteL_collapse_no_param m args]
  | .error => rw [Substitute] <;> simp [hasTypeParam]
  | .dyn => rw [Substitute] <;> simp [hasTypeParam]
  | .null => rw [Substitute] <;> simp [hasTypeParam]
  | .bool => rw [Substitute] <;> simp [hasTypeParam]
  | .int64 => rw [Substitute] <;> simp [hasTypeParam]
  | .uint64 => rw [Substitute] <;> simp [hasTypeParam]
  | .double => rw [Substitute] <;> simp [hasTypeParam]
  | .string => rw [Substitute] <;> simp [hasTypeParam]
  | .bytes => rw [Substitute] <;> simp [hasTypeParam]
  | .object n => rw [Substitute] <;> simp [hasTypeParam]
  | .wellKnown w => rw [Substitute] <;> simp [hasTypeParam]
termination_by (m.length, sizeOf t)

theorem substituteL_collapse_no_param (m : Mapping) (ts : TyList) :
    hasTypeParamL (SubstituteL m ts true) = false := by
  match ts with
  | .nil => rw [SubstituteL]; simp [hasTypeParamL]
  | .cons h rest =>
    rw [SubstituteL]
    simp [hasTypeParamL, substitute_collapse_no_param m h,
      substituteL_collapse_no_param m rest]
termination_by (m.length, sizeOf ts)
end

theorem findId_map {α β : Type} (f : α → β) (l : List (Nat × α)) (i : Nat) :
    findId (l.map (fun kv => (kv.1, f kv.2))) i = (findId l i).map f := by
  induction l with
  | nil => rfl
  | cons kv rest ih =>
    by_cases h : kv.1 = i <;> simp [findId, h, ih]

/-- A step of the checker that leaves the type map, the reference map,
the scope stack and the panic flag untouched (it may extend the
substitution store, the counter and the error sink). -/
def Quiet (c c' : Checker) : Prop :=
  c'.types = c.types ∧ c'.references = c.references ∧
  c'.env.scopes = c.env.scopes ∧ c'.panicked = c.panicked ∧
  (∀ d, d ∈ c.env.errors → d ∈ c'.env.errors)

/-- A step of the checker that only writes type/reference entries at ids
drawn from `ids`, never rewrites an existing entry, and only raises the
panic flag. -/
def StepOK (ids : List Nat) (c c' : Checker) : Prop :=
  (∀ i v, findId c.types i = some v → findId c'.types i = some v) ∧
  (∀ i r, findId c.references i = some r → findId c'.references i = some r) ∧
  (∀ i, i ∉ ids → findId c.types i = none → findId c'.types i = none) ∧
  (∀ i, i ∉ ids → findId c.references i = none → findId c'.references i = none) ∧
  (c.panicked = true → c'.panicked = true) ∧
  (∀ d, d ∈ c.env.errors → d ∈ c'.env.errors)

def Quiet.refl (c : Checker) : Quiet c c := ⟨rfl, rfl, rfl, rfl, fun _ h => h⟩

def Quiet.trans {c1 c2 c3 : Checker} (h1 : Quiet c1 c2) (h2 : Quiet c2 c3) :
    Quiet c1 c3 := by
  obtain ⟨a1, b1, s1, p1, e1⟩ := h1
  obtain ⟨a2, b2, s2, p2, e2⟩ := h2
  exact ⟨a2.trans a1, b2.trans b1, s2.trans s1, p2.trans p1, fun d h => e2 d (e1 d h)⟩

def StepOK.refl (ids : List Nat) (c : Checker) : StepOK ids c c :=
  ⟨fun _ _ h => h, fun _ _ h => h, fun _ _ h => h, fun _ _ h => h, fun h => h,
   fun _ h => h⟩

def StepOK.trans {ids : List Nat} {c1 c2 c3 : Checker}
    (h1 : StepOK ids c1 c2) (h2 : StepOK ids c2 c3) : StepOK ids c1 c3 := by
  obtain ⟨a1, b1, n1, m1, p1, e1⟩ := h1
  obtain ⟨a2, b2, n2, m2, p2, e2⟩ := h2
  exact ⟨fun i v h => a2 i v (a1 i v h), fun i r h => b2 i r (b1 i r h),
    fun i hm h => n2 i hm (n1 i hm h), fun i hm h => m2 i hm (m1 i hm h),
    fun h => p2 (p1 h), fun d h => e2 d (e1 d h)⟩

def StepOK.mono {ids ids' : List Nat} {c c' : Checker}
    (hsub : ∀ i, i ∈ ids → i ∈ ids') (h : StepOK ids c c') : StepOK ids' c c' := by
  obtain ⟨a, b, n, m, p, er⟩ := h
  exact ⟨a, b, fun i hm h => n i (fun hc => hm (hsub i hc)) h,
    fun i hm h => m i (fun hc => hm (hsub i hc)) h, p, er⟩

theorem Quiet.stepOK {c c' : Checker} (h : Quiet c c') (ids : List Nat) :
    StepOK ids c c' := by
  obtain ⟨a, b, s, p, er⟩ := h
  exact ⟨fun i v hv => a ▸ hv, fun i r hr => b ▸ hr, fun i _ hv => a ▸ hv,
    fun i _ hr => b ▸ hr, fun hp => p.trans hp, er⟩

theorem StepOK.quiet_left {ids : List Nat} {c c1 c2 : Checker}
    (h1 : Quiet c c1) (h2 : StepOK ids c1 c2) : StepOK ids c c2 :=
  (h1.stepOK ids).trans h2

theorem StepOK.quiet_right {ids : List Nat} {c c1 c2 : Checker}
    (h1 : StepOK ids c c1) (h2 : Quiet c1 c2) : StepOK ids c c2 :=
  h1.trans (h2.stepOK ids)

namespace Checker

theorem addError_quiet (c : Checker) (d : Diag) : Quiet c (c.addError d) :=
  ⟨rfl, rfl, rfl, rfl, fun d' h => List.mem_append_left _ h⟩

theorem newTypeVar_quiet (c : Checker) : Quiet c c.newTypeVar.2 :=
  ⟨rfl, rfl, rfl, rfl, fun _ h => h⟩

theorem isAssignable_quiet (c : Checker) (t1 t2 : TyP) :
    Quiet c (c.isAssignable t1 t2).2 := by
  rw [isAssignable]
  cases IsAssignableP c.mappings t1 t2 <;> exact ⟨rfl, rfl, rfl, rfl, fun _ h => h⟩

theorem isAssignableList_quiet (c : Checker) (l1 l2 : List TyP) :
    Quiet c (c.isAssignableList l1 l2).2 := by
  rw [isAssignableList]
  cases IsAssignableListP c.mappings l1 l2 <;>
    exact ⟨rfl, rfl, rfl, rfl, fun _ h => h⟩

theorem joinTypes_quiet (c : Checker) (l : Loc) (p cur : TyP) :
    Quiet c (c.joinTypes l p cur).2 := by
  rw [joinTypes.eq_def]
  cases p with
  | none => exact Quiet.refl c
  | some t =>
    cases h : c.isAssignable (some t) cur with
    | mk ok c' =>
      have hq : Quiet c c' := by
        have := c.isAssignable_quiet (some t) cur
        rw [h] at this
        exact this
      cases ok
      · exact hq.trans (c'.addError_quiet _)
      · exact hq

theorem assertType_quiet (c : Checker) (e : Expr) (t : TyP) :
    Quiet c (c.assertType e t) := by
  rw [assertType]
  cases h : c.isAssignable t (c.getType e) with
  | mk ok c' =>
    have hq : Quiet c c' := by
      have := c.isAssignable_quiet t (c.getType e)
      rw [h] at this
      exact this
    cases ok
    · exact hq.trans (c'.addError_quiet _)
    · exact hq

theorem lookupFieldType_quiet (c : Checker) (l : Loc) (mt : TyP) (f : String) :
    Quiet c (c.lookupFieldType l mt f).2 := by
  rw [lookupFieldType]
  by_cases h : c.env.typeProvider.lookupType (getMessageTypeName mt) = false
  · simp only [h, if_true]
    exact c.addError_quiet _
  · simp only [h, if_false]
    cases c.env.typeProvider.lookupFieldType mt f
    · exact c.addError_quiet _
    · exact Quiet.refl c

theorem instantiateSubs_quiet (c : Checker) (tps : List String) :
    Quiet c (c.instantiateSubs tps).2 := by
  induction tps generalizing c with
  | nil => exact Quiet.refl c
  | cons tp rest ih =>
    simp only [instantiateSubs]
    exact (c.newTypeVar_quiet).trans (ih c.newTypeVar.2)

theorem instantiateOverload_quiet (c : Checker) (o : Overload) :
    Quiet c (c.instantiateOverload o).2 := by
  rw [instantiateOverload]
  by_cases h : o.typeParams.length > 0
  · simp only [h, if_true]
    exact c.instantiateSubs_quiet o.typeParams
  · simp only [h, if_false]
    exact Quiet.refl c

theorem overloadLoop_quiet (argTypes : List TyP) (hasTarget : Bool)
    (os : List Overload) : ∀ (c : Checker) (rT : Option TyP) (ref : Option Reference),
    Quiet c (overloadLoop argTypes hasTarget c rT ref os).1 := by
  induction os with
  | nil => intro c rT ref; exact Quiet.refl c
  | cons o rest ih =>
    intro c rT ref
    rw [overloadLoop.eq_def]
    by_cases hstyle :
        ((!hasTarget && o.isInstanceFunction) || (hasTarget && !o.isInstanceFunction)) = true
    · simp only [hstyle, if_true]
      exact ih c rT ref
    · simp only [hstyle, if_false]
      have hq : Quiet c
          ((c.instantiateOverload o).2.isAssignableList argTypes
            (candidateArgs (c.instantiateOverload o).1)).2 :=
        (c.instantiateOverload_quiet o).trans ((c.instantiateOverload o).2.isAssignableList_quiet _ _)
      by_cases hok : ((c.instantiateOverload o).2.isAssignableList argTypes
          (candidateArgs (c.instantiateOverload o).1)).1 = true
      · simp only [hok, if_true]
        exact hq.trans (ih _ _ _)
      · rw [Bool.not_eq_true] at hok
        simp only [hok, if_false]
        exact hq.trans (ih _ _ _)

theorem resolveOverload_quiet (c : Checker) (l : Loc) (fn : FuncDecl)
    (target : Option Expr) (args : List Expr) :
    Quiet c (c.resolveOverload l fn target args).2 := by
  rw [resolveOverload.eq_def]
  dsimp only
  cases h : (overloadLoop
      ((match target with | some t => [c.getType t] | none => [])
        ++ args.map (fun a => c.getType a)) target.isSome c none none fn.overloads).2.1 with
  | none =>
    exact (overloadLoop_quiet _ target.isSome fn.overloads c none none).trans
      (Checker.addError_quiet _ _)
  | some rt =>
    exact overloadLoop_quiet _ target.isSome fn.overloads c none none

theorem setType_stepOK (c : Checker) (e : Expr) (t : TyP) :
    StepOK [e.exprId] c (c.setType e t) ∧
      (c.setType e t).env.scopes = c.env.scopes := by
  rw [setType]
  cases h : findId c.types e.exprId with
  | some old =>
    by_cases heq : old = t
    · simp only [heq, if_true]
      exact ⟨StepOK.refl _ c, trivial⟩
    · simp only [heq, if_false]
      exact ⟨⟨fun _ _ h => h, fun _ _ h => h, fun _ _ h => h, fun _ _ h => h,
        fun _ => rfl, fun _ h => h⟩, trivial⟩
  | none =>
    refine ⟨⟨?_, fun _ _ h => h, ?_, fun _ _ h => h, fun h => h, fun _ h => h⟩, rfl⟩
    · intro i v hv
      simp only [findId]
      by_cases hk : e.exprId = i
      · rw [hk] at h; rw [h] at hv; cases hv
      · simp [hk, hv]
    · intro i hm hv
      simp only [findId]
      have hk : e.exprId ≠ i := by
        intro hk
        exact hm (by simp [hk])
      simp [hk, hv]

theorem stepOK_of_tr_eq {c c' : Checker} (ids : List Nat)
    (ht : c'.types = c.types) (hr : c'.references = c.references)
    (hp : c.panicked = true → c'.panicked = true)
    (he : ∀ d, d ∈ c.env.errors → d ∈ c'.env.errors) : StepOK ids c c' :=
  ⟨fun _ _ h => ht ▸ h, fun _ _ h => hr ▸ h, fun _ _ h => ht ▸ h,
   fun _ _ h => hr ▸ h, hp, he⟩

theorem enterScope_stepOK (c : Checker) (ids : List Nat) : StepOK ids c c.enterScope :=
  stepOK_of_tr_eq ids rfl rfl (fun h => h) (fun _ h => h)

theorem exitScope_stepOK (c : Checker) (ids : List Nat) : StepOK ids c c.exitScope :=
  stepOK_of_tr_eq ids rfl rfl (fun h => h) (fun _ h => h)

theorem addIdent_stepOK (c : Checker) (d : IdentDecl) (ids : List Nat) :
    StepOK ids c (c.addIdent d) :=
  stepOK_of_tr_eq ids rfl rfl (fun h => h) (fun _ h => h)

theorem addIdent_scopes (c : Checker) (d : IdentDecl) (sc : Scope) (rest : List Scope)
    (h : c.env.scopes = sc :: rest) :
    (c.addIdent d).env.scopes = { sc with idents := d :: sc.idents } :: rest := by
  simp [addIdent, h]

theorem setReference_stepOK (c : Checker) (e : Expr) (r : Reference) :
    StepOK [e.exprId] c (c.setReference e r) ∧
      (c.setReference e r).env.scopes = c.env.scopes := by
  rw [setReference]
  cases h : findId c.references e.exprId with
  | some old =>
    by_cases heq : old = r
    · simp only [heq, if_true]
      exact ⟨StepOK.refl _ c, trivial⟩
    · simp only [heq, if_false]
      exact ⟨⟨fun _ _ h => h, fun _ _ h => h, fun _ _ h => h, fun _ _ h => h,
        fun _ => rfl, fun _ h => h⟩, trivial⟩
  | none =>
    refine ⟨⟨fun _ _ h => h, ?_, fun _ _ h => h, ?_, fun h => h, fun _ h => h⟩, rfl⟩
    · intro i v hv
      simp only [findId]
      by_cases hk : e.exprId = i
      · rw [hk] at h; rw [h] at hv; cases hv
      · simp [hk, hv]
    · intro i hm hv
      simp only [findId]
      have hk : e.exprId ≠ i := by
        intro hk
        exact hm (by simp [hk])
      simp [hk, hv]

end Checker

/-! ## C9: a nil root expression -/

/-- C9: if the parsed expression's root is absent, `Check` returns
normally (no panic) with empty type and reference maps and with the error
sink untouched. -/
theorem c9_nil_root (si : SourceInfo) (env : Env) (container : String) :
    (Check ⟨none, si⟩ env container).1.typeMap = [] ∧
    (Check ⟨none, si⟩ env container).1.referenceMap = [] ∧
    (Check ⟨none, si⟩ env container).2.env.errors = env.errors ∧
    (Check ⟨none, si⟩ env container).2.panicked = false :=
  ⟨rfl, rfl, rfl, rfl⟩

/-! ## C8: the location resolver -/

/-- A checker whose line-offset table is not sorted: the scan-with-break
of `locationById` then disagrees with the count-based formula of the
claim. -/
def c8Checker : Checker := {
  env := { typeProvider := ⟨fun _ => true, fun _ _ => none⟩, scopes := [] },
  container := "", mappings := [], freeTypeVarCounter := 0,
  sourceInfo := { lineOffsets := [5, 1], positions := [(7, 3)] },
  types := [], references := [] }

/-- C8 counterexample: node 7 has offset 3 and `line_offsets = [5, 1]`.
One entry (the 1) is strictly below the offset, so the claim predicts
line `1 + 1 = 2` and column `3 - 1 = 2`; the scan breaks at the leading 5
and returns line 1, column 3. -/
theorem c8_counterexample :
    c8Checker.locationById 7 = .location 1 3 ∧
    c8Checker.locationById 7 ≠
      .location
        (1 + c8Checker.sourceInfo.lineOffsets.countP (fun lo => decide (lo < 3)))
        (3 - 1) := by
  decide

/-- The scan of `locationById` on a sorted offset table: the accumulated
line is bumped once per entry strictly below the offset, and the column
tracks the last such entry. -/
theorem lineColScan_sorted (offsets : List Int) (off : Int) (line : Nat) (col : Int)
    (h : offsets.Pairwise (· ≤ ·)) :
    Checker.lineColScan offsets off line col =
      (line + offsets.countP (fun lo => decide (lo < off)),
       ((offsets.filter (fun lo => decide (lo < off))).getLast?).elim col
         (fun lo => off - lo)) := by
  induction offsets generalizing line col with
  | nil => simp [Checker.lineColScan]
  | cons lo rest ih =>
    rcases List.pairwise_cons.mp h with ⟨hlo, hrest⟩
    by_cases hcmp : lo < off
    · rw [Checker.lineColScan]
      simp only [hcmp, if_true]
      rw [ih _ _ hrest]
      simp only [Prod.mk.injEq]
      constructor
      · simp [List.countP_cons, hcmp]
        omega
      · simp only [List.filter_cons, hcmp, decide_True, if_true]
        cases hfr : rest.filter (fun lo => decide (lo < off)) with
        | nil => simp [hfr]
        | cons x xs =>
          simp only [hfr, List.getLast?_cons_cons]
          cases hgl : (x :: xs).getLast? with
          | none => simp at hgl
          | some y => rfl
    · rw [Checker.lineColScan]
      simp only [hcmp, if_false]
      have hall : ∀ x ∈ rest, ¬(x < off) := by
        intro x hx
        have := hlo x hx
        omega
      have hcount : (lo :: rest).countP (fun lo => decide (lo < off)) = 0 := by
        rw [List.countP_eq_zero]
        intro a ha
        rcases List.mem_cons.mp ha with rfl | ha'
        · simpa using hcmp
        · simpa using hall a ha'
      have hfilter : (lo :: rest).filter (fun lo => decide (lo < off)) = [] := by
        rw [List.filter_eq_nil_iff]
        intro a ha
        rcases List.mem_cons.mp ha with rfl | ha'
        · simpa using hcmp
        · simpa using hall a ha'
      simp [hcount, hfilter]

/-- C8 amended: *provided the line-offset table is sorted* (which the
scan-with-break of the code silently assumes), a node with a recorded
offset resolves to line `1 + #(line_offsets < offset)` and column
`offset - last line offset strictly before it` (the offset itself on the
first line), and a node with no recorded offset resolves to
`NoLocation`. -/
theorem c8_amended (c : Checker) (id : Nat) (off : Int)
    (hsorted : c.sourceInfo.lineOffsets.Pairwise (· ≤ ·)) :
    (findId c.sourceInfo.positions id = some off →
      c.locationById id =
        .location
          (1 + c.sourceInfo.lineOffsets.countP (fun lo => decide (lo < off)))
          (((c.sourceInfo.lineOffsets.filter (fun lo => decide (lo < off))).getLast?).elim
            off (fun lo => off - lo))) ∧
    (findId c.sourceInfo.positions id = none → c.locationById id = .noLocation) := by
  constructor
  · intro hpos
    rw [Checker.locationById, hpos]
    dsimp only
    rw [lineColScan_sorted _ _ _ _ hsorted]
  · intro hpos
    rw [Checker.locationById, hpos]

/-- A checker with a sorted offset table for the amended C8 theorem:
lines start at offsets 0 and 10, node 1 sits at offset 12 (line 3 in the
1-based count: the formula gives `1 + 2`), node 9 is unknown. -/
def c8SortedChecker : Checker := {
  env := { typeProvider := ⟨fun _ => true, fun _ _ => none⟩, scopes := [] },
  container := "", mappings := [], freeTypeVarCounter := 0,
  sourceInfo := { lineOffsets := [0, 10], positions := [(1, 12)] },
  types := [], references := [] }

/-! ## The traversal writes each node's annotations only at ids of its
own subtree, never rewrites an existing entry, and restores the scope
stack.  Proved by one induction over the checker's own termination
measure. -/

/-- One checker step that writes only within `ids` and restores the
scope stack. -/
def SP (ids : List Nat) (c c' : Checker) : Prop :=
  StepOK ids c c' ∧ c'.env.scopes = c.env.scopes

def CheckP (e : Expr) : Prop :=
  ∀ c : Checker, SP e.idList c (c.check e)

def SelectP (e : Expr) : Prop :=
  ∀ c : Checker, SP e.idList c (c.checkSelect e)

def CallP (e : Expr) : Prop :=
  ∀ c : Checker, SP e.idList c (c.checkCall e)

def CreateListP (e : Expr) : Prop :=
  ∀ c : Checker, SP e.idList c (c.checkCreateList e)

def CreateStructP (e : Expr) : Prop :=
  ∀ c : Checker, SP e.idList c (c.checkCreateStruct e)

def CreateMapP (e : Expr) : Prop :=
  ∀ c : Checker, SP e.idList c (c.checkCreateMap e)

def CreateMessageP (e : Expr) : Prop :=
  ∀ c : Checker, SP e.idList c (c.checkCreateMessage e)

def ComprehensionP (e : Expr) : Prop :=
  ∀ c : Checker, SP e.idList c (c.checkComprehension e)

def ArgsP (args : List Expr) : Prop :=
  ∀ c : Checker, SP (Expr.idListL args) c (c.checkArgs args)

def ElemsP (es : List Expr) : Prop :=
  ∀ (c : Checker) (t : TyP), SP (Expr.idListL es) c (c.checkElements es t).1

def MapEntsP (ents : List Entry) : Prop :=
  ∀ (c : Checker) (kT vT : TyP), SP (Entry.idListL ents) c (c.checkMapEntries ents kT vT).1

def MsgEntryP (v : Expr) : Prop :=
  ∀ (c : Checker) (entId : Nat) (field : String) (mt : TyP),
    SP v.idList c (c.checkMessageEntry entId field v mt)

def MsgEntsP (ents : List Entry) : Prop :=
  ∀ (c : Checker) (mt : TyP), SP (Entry.idListL ents) c (c.checkMessageEntries ents mt)

/-- All the above, bounded by the checker's own termination measure. -/
def MasterP (n : Nat) : Prop :=
  (∀ e : Expr, 3 * sizeOf e + 2 ≤ n → CheckP e) ∧
  (∀ e : Expr, 3 * sizeOf e + 1 ≤ n → SelectP e) ∧
  (∀ e : Expr, 3 * sizeOf e + 1 ≤ n → CallP e) ∧
  (∀ e : Expr, 3 * sizeOf e + 1 ≤ n → CreateListP e) ∧
  (∀ e : Expr, 3 * sizeOf e + 1 ≤ n → CreateStructP e) ∧
  (∀ e : Expr, 3 * sizeOf e ≤ n → CreateMapP e) ∧
  (∀ e : Expr, 3 * sizeOf e ≤ n → CreateMessageP e) ∧
  (∀ e : Expr, 3 * sizeOf e + 1 ≤ n → ComprehensionP e) ∧
  (∀ args : List Expr, 3 * sizeOf args + 2 ≤ n → ArgsP args) ∧
  (∀ es : List Expr, 3 * sizeOf es + 2 ≤ n → ElemsP es) ∧
  (∀ ents : List Entry, 3 * sizeOf ents + 2 ≤ n → MapEntsP ents) ∧
  (∀ v : Expr, 3 * sizeOf v + 3 ≤ n → MsgEntryP v) ∧
  (∀ ents : List Entry, 3 * sizeOf ents + 2 ≤ n → MsgEntsP ents)

def SP.trans {ids : List Nat} {c1 c2 c3 : Checker}
    (h1 : SP ids c1 c2) (h2 : SP ids c2 c3) : SP ids c1 c3 :=
  ⟨h1.1.trans h2.1, h2.2.trans h1.2⟩

def SP.refl (ids : List Nat) (c : Checker) : SP ids c c :=
  ⟨StepOK.refl ids c, rfl⟩

theorem Quiet.sp {c c' : Checker} (h : Quiet c c') (ids : List Nat) : SP ids c c' :=
  ⟨h.stepOK ids, h.2.2.1⟩

def SP.mono {ids ids' : List Nat} {c c' : Checker}
    (hsub : ∀ i, i ∈ ids → i ∈ ids') (h : SP ids c c') : SP ids' c c' :=
  ⟨h.1.mono hsub, h.2⟩

theorem Checker.setType_sp (c : Checker) (e : Expr) (t : TyP) {ids : List Nat}
    (hmem : e.exprId ∈ ids) : SP ids c (c.setType e t) :=
  ⟨(c.setType_stepOK e t).1.mono (by intro i hi; simp at hi; subst hi; exact hmem),
   (c.setType_stepOK e t).2⟩

theorem Checker.setReference_sp (c : Checker) (e : Expr) (r : Reference) {ids : List Nat}
    (hmem : e.exprId ∈ ids) : SP ids c (c.setReference e r) :=
  ⟨(c.setReference_stepOK e r).1.mono (by intro i hi; simp at hi; subst hi; exact hmem),
   (c.setReference_stepOK e r).2⟩

theorem masterP_zero : MasterP 0 := by
  refine ⟨?_, ?_, ?_, ?_, ?_, ?_, ?_, ?_, ?_, ?_, ?_, ?_, ?_⟩ <;>
    (intro x h; exfalso; cases x <;> simp_arith at h)

theorem master_check (n : Nat) (ih : MasterP n) :
    ∀ e : Expr, 3 * sizeOf e + 2 ≤ n + 1 → CheckP e := by
  obtain ⟨ihCheck, ihSel, ihCall, ihCList, ihCStruct, ihCMap, ihCMsg, ihComp,
    ihArgs, ihElems, ihMapE, ihMsgE1, ihMsgE⟩ := ih
  intro e hm c
  match e with
  | .constE i con =>
    cases con <;>
      (simp only [Checker.check, Checker.checkBoolConstant, Checker.checkBytesConstant,
        Checker.checkDoubleConstant, Checker.checkInt64Constant, Checker.checkNullConstant,
        Checker.checkStringConstant, Checker.checkUint64Constant]
       exact c.setType_sp _ _ (by simp [Expr.idList, Expr.exprId]))
  | .identE i name =>
    simp only [Checker.check, Checker.checkIdent]
    cases hk : lookupIdent c.env.scopes c.container name with
    | some ident =>
      exact (c.setType_sp _ _ (by simp [Expr.idList, Expr.exprId])).trans
        (Checker.setReference_sp _ _ _ (by simp [Expr.idList, Expr.exprId]))
    | none =>
      exact (c.setType_sp _ _ (by simp [Expr.idList, Expr.exprId])).trans
        ((Checker.addError_quiet _ _).sp _)
  | .selectE i op f tb =>
    simp only [Checker.check]
    exact ihSel (.selectE i op f tb) (by simp_arith at hm ⊢; omega) c
  | .callE i tgt f args =>
    simp only [Checker.check]
    exact ihCall (.callE i tgt f args) (by simp_arith at hm ⊢; omega) c
  | .listE i es =>
    simp only [Checker.check]
    exact ihCList (.listE i es) (by simp_arith at hm ⊢; omega) c
  | .structE i mn ents =>
    simp only [Checker.check]
    exact ihCStruct (.structE i mn ents) (by simp_arith at hm ⊢; omega) c
  | .comprehensionE i iv ir av ai lc ls r =>
    simp only [Checker.check]
    exact ihComp (.comprehensionE i iv ir av ai lc ls r) (by simp_arith at hm ⊢; omega) c

theorem master_select (n : Nat) (ih : MasterP n) :
    ∀ e : Expr, 3 * sizeOf e + 1 ≤ n + 1 → SelectP e := by
  obtain ⟨ihCheck, ihSel, ihCall, ihCList, ihCStruct, ihCMap, ihCMsg, ihComp,
    ihArgs, ihElems, ihMapE, ihMsgE1, ihMsgE⟩ := ih
  intro e hm c
  match e with
  | .constE i con => simp only [Checker.checkSelect]; exact SP.refl _ c
  | .identE i nm => simp only [Checker.checkSelect]; exact SP.refl _ c
  | .callE i tgt f args => simp only [Checker.checkSelect]; exact SP.refl _ c
  | .listE i es => simp only [Checker.checkSelect]; exact SP.refl _ c
  | .structE i mn ents => simp only [Checker.checkSelect]; exact SP.refl _ c
  | .comprehensionE i iv ir av ai lc ls r =>
    simp only [Checker.checkSelect]; exact SP.refl _ c
  | .selectE i op f tb =>
    have hsub : ∀ j, j ∈ Expr.idList op → j ∈ Expr.idList (.selectE i op f tb) := by
      intro j hj
      simp [Expr.idList]
      exact Or.inr hj
    have hmem : Expr.exprId (.selectE i op f tb) ∈ Expr.idList (.selectE i op f tb) := by
      simp [Expr.idList, Expr.exprId]
    simp only [Checker.checkSelect]
    cases hres : (match asQualifiedName (.selectE i op f tb) with
      | some qname => lookupIdent c.env.scopes c.container qname
      | none => none : Option IdentDecl) with
    | some ident =>
      cases tb with
      | true =>
        exact ((c.addError_quiet _).sp _).trans (Checker.setType_sp _ _ _ hmem)
      | false =>
        exact (c.setType_sp _ _ hmem).trans (Checker.setReference_sp _ _ _ hmem)
    | none =>
      have hop : SP (Expr.idList (.selectE i op f tb)) c (c.check op) :=
        SP.mono hsub (ihCheck op (by simp_arith at hm ⊢; omega) c)
      cases hk : KindOfP ((c.check op).getType op) with
      | kindError => exact hop.trans (Checker.setType_sp _ _ _ hmem)
      | kindDyn => exact hop.trans (Checker.setType_sp _ _ _ hmem)
      | kindMap => exact hop.trans (Checker.setType_sp _ _ _ hmem)
      | kindObject =>
        cases hft : (c.check op).lookupFieldType
            ((c.check op).location (.selectE i op f tb)) ((c.check op).getType op) f with
        | mk ft? c2 =>
          have hq : Quiet (c.check op) c2 := by
            have := (c.check op).lookupFieldType_quiet
              ((c.check op).location (.selectE i op f tb)) ((c.check op).getType op) f
            rw [hft] at this
            exact this
          cases ft? with
          | some ft =>
            by_cases hp : (tb && !ft.supportsPresence) = true
            · simp only [hp, if_true]
              exact hop.trans (((hq.trans (Checker.addError_quiet _ _)).sp _).trans
                (Checker.setType_sp _ _ _ hmem))
            · rw [Bool.not_eq_true] at hp
              simp only [hp, if_false]
              exact hop.trans ((hq.sp _).trans (Checker.setType_sp _ _ _ hmem))
          | none =>
            exact hop.trans ((hq.sp _).trans (Checker.setType_sp _ _ _ hmem))
      | kindNull =>
        exact hop.trans (((Checker.addError_quiet _ _).sp _).trans (Checker.setType_sp _ _ _ hmem))
      | kindBool =>
        exact hop.trans (((Checker.addError_quiet _ _).sp _).trans (Checker.setType_sp _ _ _ hmem))
      | kindInt64 =>
        exact hop.trans (((Checker.addError_quiet _ _).sp _).trans (Checker.setType_sp _ _ _ hmem))
      | kindUint64 =>
        exact hop.trans (((Checker.addError_quiet _ _).sp _).trans (Checker.setType_sp _ _ _ hmem))
      | kindDouble =>
        exact hop.trans (((Checker.addError_quiet _ _).sp _).trans (Checker.setType_sp _ _ _ hmem))
      | kindString =>
        exact hop.trans (((Checker.addError_quiet _ _).sp _).trans (Checker.setType_sp _ _ _ hmem))
      | kindBytes =>
        exact hop.trans (((Checker.addError_quiet _ _).sp _).trans (Checker.setType_sp _ _ _ hmem))
      | kindList =>
        exact hop.trans (((Checker.addError_quiet _ _).sp _).trans (Checker.setType_sp _ _ _ hmem))
      | kindType =>
        exact hop.trans (((Checker.addError_quiet _ _).sp _).trans (Checker.setType_sp _ _ _ hmem))
      | kindTypeParam =>
        exact hop.trans (((Checker.addError_quiet _ _).sp _).trans (Checker.setType_sp _ _ _ hmem))
      | kindFunction =>
        exact hop.trans (((Checker.addError_quiet _ _).sp _).trans (Checker.setType_sp _ _ _ hmem))
      | kindWellKnown =>
        exact hop.trans (((Checker.addError_quiet _ _).sp _).trans (Checker.setType_sp _ _ _ hmem))
      | kindUnknown =>
        exact hop.trans (((Checker.addError_quiet _ _).sp _).trans (Checker.setType_sp _ _ _ hmem))

theorem master_args (n : Nat) (ih : MasterP n) :
    ∀ args : List Expr, 3 * sizeOf args + 2 ≤ n + 1 → ArgsP args := by
  obtain ⟨ihCheck, ihSel, ihCall, ihCList, ihCStruct, ihCMap, ihCMsg, ihComp,
    ihArgs, ihElems, ihMapE, ihMsgE1, ihMsgE⟩ := ih
  intro args hm c
  match args with
  | [] => simp only [Checker.checkArgs]; exact SP.refl _ c
  | a :: rest =>
    simp only [Checker.checkArgs]
    have h1 : SP (Expr.idListL (a :: rest)) c (c.check a) :=
      SP.mono (by intro j hj; simp [Expr.idListL]; exact Or.inl hj)
        (ihCheck a (by simp_arith at hm ⊢; omega) c)
    have h2 : SP (Expr.idListL (a :: rest)) (c.check a) ((c.check a).checkArgs rest) :=
      SP.mono (by intro j hj; simp [Expr.idListL]; exact Or.inr hj)
        (ihArgs rest (by simp_arith at hm ⊢; omega) (c.check a))
    exact h1.trans h2

theorem master_elems (n : Nat) (ih : MasterP n) :
    ∀ es : List Expr, 3 * sizeOf es + 2 ≤ n + 1 → ElemsP es := by
  obtain ⟨ihCheck, ihSel, ihCall, ihCList, ihCStruct, ihCMap, ihCMsg, ihComp,
    ihArgs, ihElems, ihMapE, ihMsgE1, ihMsgE⟩ := ih
  intro es hm c t
  match es with
  | [] => simp only [Checker.checkElements]; exact SP.refl _ c
  | el :: rest =>
    simp only [Checker.checkElements]
    have h1 : SP (Expr.idListL (el :: rest)) c (c.check el) :=
      SP.mono (by intro j hj; simp [Expr.idListL]; exact Or.inl hj)
        (ihCheck el (by simp_arith at hm ⊢; omega) c)
    have h2 := ((c.check el).joinTypes_quiet ((c.check el).location el) t
      ((c.check el).getType el)).sp (Expr.idListL (el :: rest))
    have h3 : SP (Expr.idListL (el :: rest)) _ _ :=
      SP.mono (by intro j hj; simp [Expr.idListL]; exact Or.inr hj)
        (ihElems rest (by simp_arith at hm ⊢; omega)
          ((c.check el).joinTypes ((c.check el).location el) t ((c.check el).getType el)).2
          ((c.check el).joinTypes ((c.check el).location el) t ((c.check el).getType el)).1)
    exact (h1.trans h2).trans h3

theorem master_mapents (n : Nat) (ih : MasterP n) :
    ∀ ents : List Entry, 3 * sizeOf ents + 2 ≤ n + 1 → MapEntsP ents := by
  obtain ⟨ihCheck, ihSel, ihCall, ihCList, ihCStruct, ihCMap, ihCMsg, ihComp,
    ihArgs, ihElems, ihMapE, ihMsgE1, ihMsgE⟩ := ih
  intro ents hm c kT vT
  match ents with
  | [] => simp only [Checker.checkMapEntries]; exact SP.refl _ c
  | .fieldEntry eid fk v :: rest =>
    simp only [Checker.checkMapEntries]
    exact ⟨Checker.stepOK_of_tr_eq _ rfl rfl (fun _ => rfl) (fun _ h => h), rfl⟩
  | .mapEntry eid k v :: rest =>
    simp only [Checker.checkMapEntries]
    have hsubk : ∀ j, j ∈ Expr.idList k → j ∈ Entry.idListL (.mapEntry eid k v :: rest) := by
      intro j hj; simp [Entry.idListL]; tauto
    have hsubv : ∀ j, j ∈ Expr.idList v → j ∈ Entry.idListL (.mapEntry eid k v :: rest) := by
      intro j hj; simp [Entry.idListL]; tauto
    have hsubr : ∀ j, j ∈ Entry.idListL rest →
        j ∈ Entry.idListL (.mapEntry eid k v :: rest) := by
      intro j hj; simp [Entry.idListL]; tauto
    have h1 : SP (Entry.idListL (.mapEntry eid k v :: rest)) c (c.check k) :=
      SP.mono hsubk (ihCheck k (by simp_arith at hm ⊢; omega) c)
    have h2 := ((c.check k).joinTypes_quiet ((c.check k).location k) kT
      ((c.check k).getType k)).sp (Entry.idListL (.mapEntry eid k v :: rest))
    set c2 := ((c.check k).joinTypes ((c.check k).location k) kT ((c.check k).getType k)).2 with hc2
    have h3 : SP (Entry.idListL (.mapEntry eid k v :: rest)) c2 (c2.check v) :=
      SP.mono hsubv (ihCheck v (by simp_arith at hm ⊢; omega) c2)
    have h4 := ((c2.check v).joinTypes_quiet ((c2.check v).location v) vT
      ((c2.check v).getType v)).sp (Entry.idListL (.mapEntry eid k v :: rest))
    have h5 : SP (Entry.idListL (.mapEntry eid k v :: rest)) _ _ :=
      SP.mono hsubr (ihMapE rest (by simp_arith at hm ⊢; omega)
        ((c2.check v).joinTypes ((c2.check v).location v) vT ((c2.check v).getType v)).2
        ((c.check k).joinTypes ((c.check k).location k) kT ((c.check k).getType k)).1
        ((c2.check v).joinTypes ((c2.check v).location v) vT ((c2.check v).getType v)).1)
    exact (((h1.trans h2).trans h3).trans h4).trans h5

theorem master_msgentry (n : Nat) (ih : MasterP n) :
    ∀ v : Expr, 3 * sizeOf v + 3 ≤ n + 1 → MsgEntryP v := by
  obtain ⟨ihCheck, ihSel, ihCall, ihCList, ihCStruct, ihCMap, ihCMsg, ihComp,
    ihArgs, ihElems, ihMapE, ihMsgE1, ihMsgE⟩ := ih
  intro v hm c entId field mt
  simp only [Checker.checkMessageEntry]
  have h1 : SP (Expr.idList v) c (c.check v) :=
    ihCheck v (by omega) c
  set c1 := c.check v with hc1
  have h2 := (c1.lookupFieldType_quiet (c1.locationById entId) mt field).sp (Expr.idList v)
  set c2 := (c1.lookupFieldType (c1.locationById entId) mt field).2 with hc2
  set ft := (match (c1.lookupFieldType (c1.locationById entId) mt field).1 with
    | some t => t.type
    | none => some Ty.error : TyP) with hft
  have h3 := (c2.isAssignable_quiet ft (c2.getType v)).sp (Expr.idList v)
  set c3 := (c2.isAssignable ft (c2.getType v)).2 with hc3
  by_cases hok : (c2.isAssignable ft (c2.getType v)).1 = true
  · simp only [hok, if_true]
    exact (h1.trans h2).trans h3
  · rw [Bool.not_eq_true] at hok
    simp only [hok, if_false]
    exact ((h1.trans h2).trans h3).trans ((c3.addError_quiet _).sp _)

theorem master_msgents (n : Nat) (ih : MasterP n) :
    ∀ ents : List Entry, 3 * sizeOf ents + 2 ≤ n + 1 → MsgEntsP ents := by
  obtain ⟨ihCheck, ihSel, ihCall, ihCList, ihCStruct, ihCMap, ihCMsg, ihComp,
    ihArgs, ihElems, ihMapE, ihMsgE1, ihMsgE⟩ := ih
  intro ents hm c mt
  match ents with
  | [] => simp only [Checker.checkMessageEntries]; exact SP.refl _ c
  | .fieldEntry eid fk v :: rest =>
    simp only [Checker.checkMessageEntries]
    have h1 : SP (Entry.idListL (.fieldEntry eid fk v :: rest)) c
        (c.checkMessageEntry eid fk v mt) :=
      SP.mono (by intro j hj; simp [Entry.idListL]; tauto)
        (ihMsgE1 v (by simp_arith at hm ⊢; omega) c eid fk mt)
    have h2 : SP (Entry.idListL (.fieldEntry eid fk v :: rest)) _ _ :=
      SP.mono (by intro j hj; simp [Entry.idListL]; tauto)
        (ihMsgE rest (by simp_arith at hm ⊢; omega) (c.checkMessageEntry eid fk v mt) mt)
    exact h1.trans h2
  | .mapEntry eid mk v :: rest =>
    simp only [Checker.checkMessageEntries]
    have h1 : SP (Entry.idListL (.mapEntry eid mk v :: rest)) c
        (c.checkMessageEntry eid "" v mt) :=
      SP.mono (by intro j hj; simp [Entry.idListL]; tauto)
        (ihMsgE1 v (by simp_arith at hm ⊢; omega) c eid "" mt)
    have h2 : SP (Entry.idListL (.mapEntry eid mk v :: rest)) _ _ :=
      SP.mono (by intro j hj; simp [Entry.idListL]; tauto)
        (ihMsgE rest (by simp_arith at hm ⊢; omega) (c.checkMessageEntry eid "" v mt) mt)
    exact h1.trans h2

theorem master_clist (n : Nat) (ih : MasterP n) :
    ∀ e : Expr, 3 * sizeOf e + 1 ≤ n + 1 → CreateListP e := by
  obtain ⟨ihCheck, ihSel, ihCall, ihCList, ihCStruct, ihCMap, ihCMsg, ihComp,
    ihArgs, ihElems, ihMapE, ihMsgE1, ihMsgE⟩ := ih
  intro e hm c
  match e with
  | .constE i con => simp only [Checker.checkCreateList]; exact SP.refl _ c
  | .identE i nm => simp only [Checker.checkCreateList]; exact SP.refl _ c
  | .callE i tgt f args => simp only [Checker.checkCreateList]; exact SP.refl _ c
  | .selectE i op f tb => simp only [Checker.checkCreateList]; exact SP.refl _ c
  | .structE i mn ents => simp only [Checker.checkCreateList]; exact SP.refl _ c
  | .comprehensionE i iv ir av ai lc ls r =>
    simp only [Checker.checkCreateList]; exact SP.refl _ c
  | .listE i es =>
    have hmem : Expr.exprId (.listE i es) ∈ Expr.idList (.listE i es) := by
      simp [Expr.idList, Expr.exprId]
    simp only [Checker.checkCreateList]
    have h1 : SP (Expr.idList (.listE i es)) c (c.checkElements es none).1 :=
      SP.mono (by intro j hj; simp [Expr.idList]; exact Or.inr hj)
        (ihElems es (by simp_arith at hm ⊢; omega) c none)
    cases ht : (c.checkElements es none).2 with
    | none =>
      exact h1.trans ((((c.checkElements es none).1.newTypeVar_quiet).sp _).trans
        (Checker.setType_sp _ _ _ hmem))
    | some t0 =>
      exact h1.trans (Checker.setType_sp _ _ _ hmem)

theorem master_cmap (n : Nat) (ih : MasterP n) :
    ∀ e : Expr, 3 * sizeOf e ≤ n + 1 → CreateMapP e := by
  obtain ⟨ihCheck, ihSel, ihCall, ihCList, ihCStruct, ihCMap, ihCMsg, ihComp,
    ihArgs, ihElems, ihMapE, ihMsgE1, ihMsgE⟩ := ih
  intro e hm c
  match e with
  | .constE i con => simp only [Checker.checkCreateMap]; exact SP.refl _ c
  | .identE i nm => simp only [Checker.checkCreateMap]; exact SP.refl _ c
  | .callE i tgt f args => simp only [Checker.checkCreateMap]; exact SP.refl _ c
  | .selectE i op f tb => simp only [Checker.checkCreateMap]; exact SP.refl _ c
  | .listE i es => simp only [Checker.checkCreateMap]; exact SP.refl _ c
  | .comprehensionE i iv ir av ai lc ls r =>
    simp only [Checker.checkCreateMap]; exact SP.refl _ c
  | .structE i mn ents =>
    have hmem : Expr.exprId (.structE i mn ents) ∈ Expr.idList (.structE i mn ents) := by
      simp [Expr.idList, Expr.exprId]
    simp only [Checker.checkCreateMap]
    have h1 : SP (Expr.idList (.structE i mn ents)) c (c.checkMapEntries ents none none).1 :=
      SP.mono (by intro j hj; simp [Expr.idList]; exact Or.inr hj)
        (ihMapE ents (by simp_arith at hm ⊢; omega) c none none)
    cases ht : (c.checkMapEntries ents none none).2.1 with
    | none =>
      exact h1.trans (((((c.checkMapEntries ents none none).1.newTypeVar_quiet).trans
        ((c.checkMapEntries ents none none).1.newTypeVar.2.newTypeVar_quiet)).sp _).trans
        (Checker.setType_sp _ _ _ hmem))
    | some kt =>
      exact h1.trans (Checker.setType_sp _ _ _ hmem)

theorem master_cmsg (n : Nat) (ih : MasterP n) :
    ∀ e : Expr, 3 * sizeOf e ≤ n + 1 → CreateMessageP e := by
  obtain ⟨ihCheck, ihSel, ihCall, ihCList, ihCStruct, ihCMap, ihCMsg, ihComp,
    ihArgs, ihElems, ihMapE, ihMsgE1, ihMsgE⟩ := ih
  intro e hm c
  match e with
  | .constE i con => simp only [Checker.checkCreateMessage]; exact SP.refl _ c
  | .identE i nm => simp only [Checker.checkCreateMessage]; exact SP.refl _ c
  | .callE i tgt f args => simp only [Checker.checkCreateMessage]; exact SP.refl _ c
  | .selectE i op f tb => simp only [Checker.checkCreateMessage]; exact SP.refl _ c
  | .listE i es => simp only [Checker.checkCreateMessage]; exact SP.refl _ c
  | .comprehensionE i iv ir av ai lc ls r =>
    simp only [Checker.checkCreateMessage]; exact SP.refl _ c
  | .structE i mn ents =>
    have hmem : Expr.exprId (.structE i mn ents) ∈ Expr.idList (.structE i mn ents) := by
      simp [Expr.idList, Expr.exprId]
    cases hd : lookupIdent c.env.scopes c.container mn with
    | none =>
      simp only [Checker.checkCreateMessage, hd]
      exact (c.addError_quiet _).sp _
    | some decl =>
      simp only [Checker.checkCreateMessage, hd]
      have h1 : SP (Expr.idList (.structE i mn ents)) c
          (c.setReference (.structE i mn ents) (newIdentReference decl.name none)) :=
        Checker.setReference_sp _ _ _ hmem
      set c1 := c.setReference (.structE i mn ents) (newIdentReference decl.name none)
        with hc1
      have hq : ∀ c2 : Checker, Quiet c1 c2 →
          SP (Expr.idList (.structE i mn ents)) c
            (((c2.setType (.structE i mn ents)
              (some Ty.error)).checkMessageEntries ents (some Ty.error))) ∧
          SP (Expr.idList (.structE i mn ents)) c
            (Checker.checkMessageEntries
              (c2.setType (.structE i mn ents)
                (match decl.type with | some (.type inner) => some inner | _ => none))
              ents
              (match decl.type with | some (.type inner) => some inner | _ => none)) := by
        intro c2 hq2
        constructor
        · exact ((h1.trans (hq2.sp _)).trans (Checker.setType_sp _ _ _ hmem)).trans
            (SP.mono (by intro j hj; simp [Expr.idList]; exact Or.inr hj)
              (ihMsgE ents (by simp_arith at hm ⊢; omega) _ _))
        · exact ((h1.trans (hq2.sp _)).trans (Checker.setType_sp _ _ _ hmem)).trans
            (SP.mono (by intro j hj; simp [Expr.idList]; exact Or.inr hj)
              (ihMsgE ents (by simp_arith at hm ⊢; omega) _ _))
      by_cases hk1 : KindOfP decl.type ≠ Kind.kindError
      · rw [if_pos hk1]
        by_cases hk2 : KindOfP decl.type ≠ Kind.kindType
        · rw [if_pos hk2]
          exact (hq _ (c1.addError_quiet _)).1
        · rw [if_neg hk2]
          by_cases hk3 : KindOfP (match decl.type with
            | some (.type inner) => some inner
            | _ => none : TyP) ≠ Kind.kindObject
          · rw [if_pos hk3]
            exact (hq _ (c1.addError_quiet _)).1
          · rw [if_neg hk3]
            exact (hq _ (Quiet.refl c1)).2
      · rw [if_neg hk1]
        exact (hq _ (Quiet.refl c1)).1

theorem master_cstruct (n : Nat) (ih : MasterP n) :
    ∀ e : Expr, 3 * sizeOf e + 1 ≤ n + 1 → CreateStructP e := by
  have ihCMap := ih.2.2.2.2.2.1
  have ihCMsg := ih.2.2.2.2.2.2.1
  intro e hm c
  match e with
  | .constE i con => simp only [Checker.checkCreateStruct]; exact SP.refl _ c
  | .identE i nm => simp only [Checker.checkCreateStruct]; exact SP.refl _ c
  | .callE i tgt f args => simp only [Checker.checkCreateStruct]; exact SP.refl _ c
  | .selectE i op f tb => simp only [Checker.checkCreateStruct]; exact SP.refl _ c
  | .listE i es => simp only [Checker.checkCreateStruct]; exact SP.refl _ c
  | .comprehensionE i iv ir av ai lc ls r =>
    simp only [Checker.checkCreateStruct]; exact SP.refl _ c
  | .structE i mn ents =>
    simp only [Checker.checkCreateStruct]
    by_cases hmn : mn ≠ ""
    · rw [if_pos hmn]
      exact ihCMsg (.structE i mn ents) (by omega) c
    · rw [if_neg hmn]
      exact ihCMap (.structE i mn ents) (by omega) c

theorem master_call (n : Nat) (ih : MasterP n) :
    ∀ e : Expr, 3 * sizeOf e + 1 ≤ n + 1 → CallP e := by
  obtain ⟨ihCheck, ihSel, ihCall, ihCList, ihCStruct, ihCMap, ihCMsg, ihComp,
    ihArgs, ihElems, ihMapE, ihMsgE1, ihMsgE⟩ := ih
  intro e hm c
  match e with
  | .constE i con => simp only [Checker.checkCall]; exact SP.refl _ c
  | .identE i nm => simp only [Checker.checkCall]; exact SP.refl _ c
  | .selectE i op f tb => simp only [Checker.checkCall]; exact SP.refl _ c
  | .listE i es => simp only [Checker.checkCall]; exact SP.refl _ c
  | .structE i mn ents => simp only [Checker.checkCall]; exact SP.refl _ c
  | .comprehensionE i iv ir av ai lc ls r =>
    simp only [Checker.checkCall]; exact SP.refl _ c
  | .callE i tgt f args =>
    have hmem : Expr.exprId (.callE i tgt f args) ∈ Expr.idList (.callE i tgt f args) := by
      cases tgt <;> simp [Expr.idList, Expr.exprId]
    have hargs : SP (Expr.idList (.callE i tgt f args)) c (c.checkArgs args) := by
      refine SP.mono ?_ (ihArgs args (by simp_arith at hm ⊢; omega) c)
      intro j hj
      cases tgt <;> simp [Expr.idList] <;> tauto
    cases tgt with
    | none =>
      cases hlf : lookupFunction (c.checkArgs args).env.scopes
          (c.checkArgs args).container f with
      | some fn =>
        cases hro : (c.checkArgs args).resolveOverload
            ((c.checkArgs args).location (.callE i none f args)) fn none args with
        | mk res? c2 =>
          have hq : Quiet (c.checkArgs args) c2 := by
            have := (c.checkArgs args).resolveOverload_quiet
              ((c.checkArgs args).location (.callE i none f args)) fn none args
            rw [hro] at this
            exact this
          cases res? with
          | some res =>
            simp only [Checker.checkCall, hlf, hro]
            exact ((hargs.trans (hq.sp _)).trans
              (Checker.setType_sp _ _ _ hmem)).trans (Checker.setReference_sp _ _ _ hmem)
          | none =>
            simp only [Checker.checkCall, hlf, hro]
            exact (hargs.trans (hq.sp _)).trans (Checker.setType_sp _ _ _ hmem)
      | none =>
        simp only [Checker.checkCall, hlf]
        exact (hargs.trans (((c.checkArgs args).addError_quiet _).sp _)).trans
          (Checker.setType_sp _ _ _ hmem)
    | some tgt =>
      have hsubt : ∀ j, j ∈ Expr.idList tgt →
          j ∈ Expr.idList (.callE i (some tgt) f args) := by
        intro j hj
        simp [Expr.idList]
        tauto
      have htm : 3 * sizeOf tgt + 2 ≤ n := by simp_arith at hm ⊢; omega
      cases hqn : asQualifiedName tgt with
      | none =>
        have htgt : SP (Expr.idList (.callE i (some tgt) f args)) _
            ((c.checkArgs args).check tgt) :=
          SP.mono hsubt (ihCheck tgt htm (c.checkArgs args))
        cases hlf : lookupFunction ((c.checkArgs args).check tgt).env.scopes
            ((c.checkArgs args).check tgt).container f with
        | some fn =>
          cases hro : ((c.checkArgs args).check tgt).resolveOverload
              (((c.checkArgs args).check tgt).location (.callE i (some tgt) f args))
              fn (some tgt) args with
          | mk res? c3 =>
            have hq : Quiet ((c.checkArgs args).check tgt) c3 := by
              have := ((c.checkArgs args).check tgt).resolveOverload_quiet
                (((c.checkArgs args).check tgt).location (.callE i (some tgt) f args))
                fn (some tgt) args
              rw [hro] at this
              exact this
            cases res? with
            | some res =>
              simp only [Checker.checkCall, hqn, hlf, hro]
              exact (((hargs.trans htgt).trans (hq.sp _)).trans
                (Checker.setType_sp _ _ _ hmem)).trans (Checker.setReference_sp _ _ _ hmem)
            | none =>
              simp only [Checker.checkCall, hqn, hlf, hro]
              exact ((hargs.trans htgt).trans (hq.sp _)).trans (Checker.setType_sp _ _ _ hmem)
        | none =>
          simp only [Checker.checkCall, hqn, hlf]
          exact ((hargs.trans htgt).trans
            ((Checker.addError_quiet _ _).sp _)).trans (Checker.setType_sp _ _ _ hmem)
      | some q =>
        cases hlf1 : lookupFunction (c.checkArgs args).env.scopes
            (c.checkArgs args).container (q ++ "." ++ f) with
        | some fn =>
          cases hro1 : (c.checkArgs args).resolveOverload
              ((c.checkArgs args).location (.callE i (some tgt) f args)) fn none args with
          | mk res1? c2 =>
            have hq1 : Quiet (c.checkArgs args) c2 := by
              have := (c.checkArgs args).resolveOverload_quiet
                ((c.checkArgs args).location (.callE i (some tgt) f args)) fn none args
              rw [hro1] at this
              exact this
            cases res1? with
            | some res =>
              simp only [Checker.checkCall, hqn, hlf1, hro1]
              exact ((hargs.trans (hq1.sp _)).trans
                (Checker.setType_sp _ _ _ hmem)).trans (Checker.setReference_sp _ _ _ hmem)
            | none =>
              have htgt : SP (Expr.idList (.callE i (some tgt) f args)) _ (c2.check tgt) :=
                SP.mono hsubt (ihCheck tgt htm c2)
              cases hlf2 : lookupFunction (c2.check tgt).env.scopes
                  (c2.check tgt).container f with
              | some fn2 =>
                cases hro2 : (c2.check tgt).resolveOverload
                    ((c2.check tgt).location (.callE i (some tgt) f args))
                    fn2 (some tgt) args with
                | mk res2? c3 =>
                  have hq2 : Quiet (c2.check tgt) c3 := by
                    have := (c2.check tgt).resolveOverload_quiet
                      ((c2.check tgt).location (.callE i (some tgt) f args))
                      fn2 (some tgt) args
                    rw [hro2] at this
                    exact this
                  cases res2? with
                  | some res =>
                    simp only [Checker.checkCall, hqn, hlf1, hro1, hlf2, hro2]
                    exact ((((hargs.trans (hq1.sp _)).trans htgt).trans (hq2.sp _)).trans
                      (Checker.setType_sp _ _ _ hmem)).trans
                      (Checker.setReference_sp _ _ _ hmem)
                  | none =>
                    simp only [Checker.checkCall, hqn, hlf1, hro1, hlf2, hro2]
                    exact (((hargs.trans (hq1.sp _)).trans htgt).trans (hq2.sp _)).trans
                      (Checker.setType_sp _ _ _ hmem)
              | none =>
                simp only [Checker.checkCall, hqn, hlf1, hro1, hlf2]
                exact (((hargs.trans (hq1.sp _)).trans htgt).trans
                  ((Checker.addError_quiet _ _).sp _)).trans (Checker.setType_sp _ _ _ hmem)
        | none =>
          have htgt : SP (Expr.idList (.callE i (some tgt) f args)) _
              ((c.checkArgs args).check tgt) :=
            SP.mono hsubt (ihCheck tgt htm (c.checkArgs args))
          cases hlf2 : lookupFunction ((c.checkArgs args).check tgt).env.scopes
              ((c.checkArgs args).check tgt).container f with
          | some fn2 =>
            cases hro2 : ((c.checkArgs args).check tgt).resolveOverload
                (((c.checkArgs args).check tgt).location (.callE i (some tgt) f args))
                fn2 (some tgt) args with
            | mk res2? c3 =>
              have hq2 : Quiet ((c.checkArgs args).check tgt) c3 := by
                have := ((c.checkArgs args).check tgt).resolveOverload_quiet
                  (((c.checkArgs args).check tgt).location (.callE i (some tgt) f args))
                  fn2 (some tgt) args
                rw [hro2] at this
                exact this
              cases res2? with
              | some res =>
                simp only [Checker.checkCall, hqn, hlf1, hlf2, hro2]
                exact (((hargs.trans htgt).trans (hq2.sp _)).trans
                  (Checker.setType_sp _ _ _ hmem)).trans (Checker.setReference_sp _ _ _ hmem)
              | none =>
                simp only [Checker.checkCall, hqn, hlf1, hlf2, hro2]
                exact ((hargs.trans htgt).trans (hq2.sp _)).trans
                  (Checker.setType_sp _ _ _ hmem)
          | none =>
            simp only [Checker.checkCall, hqn, hlf1, hlf2]
            exact ((hargs.trans htgt).trans
              ((Checker.addError_quiet _ _).sp _)).trans (Checker.setType_sp _ _ _ hmem)

/-- The part of `checkComprehension` from scope entry to the final scope
exit, abstracted over the state after the range/accumulator checks and
the derived iteration-variable type. -/
def compBody (c2 : Checker) (iv av : String) (accuType vT : TyP)
    (cond step res : Expr) : Checker :=
  let c := c2.enterScope
  let c := c.addIdent { name := av, type := accuType, value := none }
  let c := c.enterScope
  let c := c.addIdent { name := iv, type := vT, value := none }
  let c := c.check cond
  let c := c.assertType cond (some Ty.bool)
  let c := c.check step
  let c := c.assertType step accuType
  let c := c.exitScope
  let c := c.check res
  c.exitScope

theorem master_comp (n : Nat) (ih : MasterP n) :
    ∀ e : Expr, 3 * sizeOf e + 1 ≤ n + 1 → ComprehensionP e := by
  obtain ⟨ihCheck, ihSel, ihCall, ihCList, ihCStruct, ihCMap, ihCMsg, ihComp,
    ihArgs, ihElems, ihMapE, ihMsgE1, ihMsgE⟩ := ih
  intro e hm c
  match e with
  | .constE i con => simp only [Checker.checkComprehension]; exact SP.refl _ c
  | .identE i nm => simp only [Checker.checkComprehension]; exact SP.refl _ c
  | .selectE i op f tb => simp only [Checker.checkComprehension]; exact SP.refl _ c
  | .listE i es => simp only [Checker.checkComprehension]; exact SP.refl _ c
  | .structE i mn ents => simp only [Checker.checkComprehension]; exact SP.refl _ c
  | .callE i tgt f args => simp only [Checker.checkComprehension]; exact SP.refl _ c
  | .comprehensionE i iv ir av ai cond step res =>
    have hmem : Expr.exprId (.comprehensionE i iv ir av ai cond step res) ∈
        Expr.idList (.comprehensionE i iv ir av ai cond step res) := by
      simp [Expr.idList, Expr.exprId]
    have hsub : ∀ x : Expr, (x = ir ∨ x = ai ∨ x = cond ∨ x = step ∨ x = res) →
        ∀ j, j ∈ Expr.idList x →
          j ∈ Expr.idList (.comprehensionE i iv ir av ai cond step res) := by
      intro x hx j hj
      simp only [Expr.idList, List.mem_cons, List.mem_append]
      rcases hx with rfl | rfl | rfl | rfl | rfl <;> tauto
    have hmain : ∀ (c2 : Checker) (vT : TyP),
        Quiet ((c.check ir).check ai) c2 →
        SP (Expr.idList (.comprehensionE i iv ir av ai cond step res)) c
          (Checker.setType
            (compBody c2 iv av (((c.check ir).check ai).getType ai) vT cond step res)
            (.comprehensionE i iv ir av ai cond step res)
            (Checker.getType
              (compBody c2 iv av (((c.check ir).check ai).getType ai) vT cond step res)
              res)) := by
      intro c2 vT hq2
      have hir : SP (Expr.idList (.comprehensionE i iv ir av ai cond step res)) c
          (c.check ir) :=
        SP.mono (hsub ir (by tauto)) (ihCheck ir (by simp_arith at hm ⊢; omega) c)
      have hai : SP (Expr.idList (.comprehensionE i iv ir av ai cond step res))
          (c.check ir) ((c.check ir).check ai) :=
        SP.mono (hsub ai (by tauto)) (ihCheck ai (by simp_arith at hm ⊢; omega) (c.check ir))
      have s2 : SP (Expr.idList (.comprehensionE i iv ir av ai cond step res)) c c2 :=
        (hir.trans hai).trans (hq2.sp _)
      have hcond := ihCheck cond (by simp_arith at hm ⊢; omega)
      have hstep := ihCheck step (by simp_arith at hm ⊢; omega)
      have hres := ihCheck res (by simp_arith at hm ⊢; omega)
      simp only [compBody]
      set A : IdentDecl :=
        { name := av, type := ((c.check ir).check ai).getType ai, value := none } with hA
      set B : IdentDecl := { name := iv, type := vT, value := none } with hB
      set c4 := c2.enterScope with hc4
      set c5 := c4.addIdent A with hc5
      set c6 := c5.enterScope with hc6
      set c7 := c6.addIdent B with hc7
      set c8 := c7.check cond with hc8
      set c9 := c8.assertType cond (some Ty.bool) with hc9
      set c10 := c9.check step with hc10
      set c11 := c10.assertType step (((c.check ir).check ai).getType ai) with hc11
      set c12 := c11.exitScope with hc12
      set c13 := c12.check res with hc13
      set c14 := c13.exitScope with hc14
      have k14 : StepOK (Expr.idList (.comprehensionE i iv ir av ai cond step res)) c c14 := by
        rw [hc14, hc13, hc12, hc11, hc10, hc9, hc8, hc7, hc6, hc5, hc4]
        have t1 := s2.1.trans (c2.enterScope_stepOK _)
        have t2 := t1.trans (Checker.addIdent_stepOK c2.enterScope A _)
        have t3 := t2.trans (Checker.enterScope_stepOK (c2.enterScope.addIdent A) _)
        have t4 := t3.trans
          (Checker.addIdent_stepOK (c2.enterScope.addIdent A).enterScope B _)
        have t5 := t4.trans
          ((hcond ((c2.enterScope.addIdent A).enterScope.addIdent B)).1.mono
            (hsub cond (by tauto)))
        have t6 := t5.trans
          ((Checker.assertType_quiet
            (Checker.check ((c2.enterScope.addIdent A).enterScope.addIdent B) cond)
            cond (some Ty.bool)).stepOK _)
        have t7 := t6.trans
          ((hstep (Checker.assertType
            (Checker.check ((c2.enterScope.addIdent A).enterScope.addIdent B) cond)
            cond (some Ty.bool))).1.mono (hsub step (by tauto)))
        have t8 := t7.trans
          ((Checker.assertType_quiet
            (Checker.check (Checker.assertType
              (Checker.check ((c2.enterScope.addIdent A).enterScope.addIdent B) cond)
              cond (some Ty.bool)) step)
            step (((c.check ir).check ai).getType ai)).stepOK _)
        have t9 := t8.trans
          (Checker.exitScope_stepOK
            (Checker.assertType (Checker.check (Checker.assertType
              (Checker.check ((c2.enterScope.addIdent A).enterScope.addIdent B) cond)
              cond (some Ty.bool)) step) step (((c.check ir).check ai).getType ai)) _)
        have t10 := t9.trans
          ((hres (Checker.exitScope
            (Checker.assertType (Checker.check (Checker.assertType
              (Checker.check ((c2.enterScope.addIdent A).enterScope.addIdent B) cond)
              cond (some Ty.bool)) step) step
              (((c.check ir).check ai).getType ai)))).1.mono
            (hsub res (by tauto)))
        exact t10.trans (Checker.exitScope_stepOK _ _)
      have hsc7 : c7.env.scopes =
          { idents := [B], functions := [] } :: { idents := [A], functions := [] }
            :: c2.env.scopes := by
        rw [hc7, hc6, hc5, hc4]
        rfl
      have hsc11 : c11.env.scopes = c7.env.scopes := by
        rw [hc11, hc10, hc9, hc8]
        rw [(Checker.assertType_quiet _ step _).2.2.1, (hstep c9).2,
          (Checker.assertType_quiet _ cond _).2.2.1, (hcond c7).2]
      have hsc14 : c14.env.scopes = c.env.scopes := by
        rw [hc14, hc13, hc12]
        show ((c11.exitScope.check res).env.scopes).tail = c.env.scopes
        rw [(hres c11.exitScope).2]
        show (c11.env.scopes.tail).tail = c.env.scopes
        rw [hsc11, hsc7]
        simp
        exact s2.2
      exact ⟨k14.trans (c14.setType_sp _ _ hmem).1, (c14.setType_sp _ _ hmem).2.trans hsc14⟩
    cases hk : KindOfP (((c.check ir).check ai).getType ir) with
    | kindList =>
      simp only [Checker.checkComprehension, hk]
      exact hmain _ _ (Quiet.refl _)
    | kindMap =>
      simp only [Checker.checkComprehension, hk]
      exact hmain _ _ (Quiet.refl _)
    | kindDyn =>
      simp only [Checker.checkComprehension, hk]
      exact hmain _ _ (Quiet.refl _)
    | kindError =>
      simp only [Checker.checkComprehension, hk]
      exact hmain _ _ (Quiet.refl _)
    | kindNull =>
      simp only [Checker.checkComprehension, hk]
      exact hmain _ _ (Checker.addError_quiet _ _)
    | kindBool =>
      simp only [Checker.checkComprehension, hk]
      exact hmain _ _ (Checker.addError_quiet _ _)
    | kindInt64 =>
      simp only [Checker.checkComprehension, hk]
      exact hmain _ _ (Checker.addError_quiet _ _)
    | kindUint64 =>
      simp only [Checker.checkComprehension, hk]
      exact hmain _ _ (Checker.addError_quiet _ _)
    | kindDouble =>
      simp only [Checker.checkComprehension, hk]
      exact hmain _ _ (Checker.addError_quiet _ _)
    | kindString =>
      simp only [Checker.checkComprehension, hk]
      exact hmain _ _ (Checker.addError_quiet _ _)
    | kindBytes =>
      simp only [Checker.checkComprehension, hk]
      exact hmain _ _ (Checker.addError_quiet _ _)
    | kindObject =>
      simp only [Checker.checkComprehension, hk]
      exact hmain _ _ (Checker.addError_quiet _ _)
    | kindType =>
      simp only [Checker.checkComprehension, hk]
      exact hmain _ _ (Checker.addError_quiet _ _)
    | kindTypeParam =>
      simp only [Checker.checkComprehension, hk]
      exact hmain _ _ (Checker.addError_quiet _ _)
    | kindFunction =>
      simp only [Checker.checkComprehension, hk]
      exact hmain _ _ (Checker.addError_quiet _ _)
    | kindWellKnown =>
      simp only [Checker.checkComprehension, hk]
      exact hmain _ _ (Checker.addError_quiet _ _)
    | kindUnknown =>
      simp only [Checker.checkComprehension, hk]
      exact hmain _ _ (Checker.addError_quiet _ _)

theorem masterP_succ (n : Nat) (ih : MasterP n) : MasterP (n + 1) :=
  ⟨master_check n ih, master_select n ih, master_call n ih, master_clist n ih,
   master_cstruct n ih, master_cmap n ih, master_cmsg n ih, master_comp n ih,
   master_args n ih, master_elems n ih, master_mapents n ih, master_msgentry n ih,
   master_msgents n ih⟩

theorem masterP (n : Nat) : MasterP n := by
  induction n with
  | zero => exact masterP_zero
  | succ n ih => exact masterP_succ n ih

theorem check_stepOK (e : Expr) (c : Checker) : StepOK e.idList c (c.check e) :=
  ((masterP (3 * sizeOf e + 2)).1 e le_rfl c).1

theorem check_scopes (e : Expr) (c : Checker) :
    (c.check e).env.scopes = c.env.scopes :=
  ((masterP (3 * sizeOf e + 2)).1 e le_rfl c).2

theorem checkArgs_stepOK (args : List Expr) (c : Checker) :
    StepOK (Expr.idListL args) c (c.checkArgs args) :=
  ((masterP (3 * sizeOf args + 2)).2.2.2.2.2.2.2.2.1 args le_rfl c).1

theorem checkMessageEntries_stepOK (ents : List Entry) (c : Checker) (mt : TyP) :
    StepOK (Entry.idListL ents) c (c.checkMessageEntries ents mt) :=
  ((masterP (3 * sizeOf ents + 2)).2.2.2.2.2.2.2.2.2.2.2.2 ents le_rfl c mt).1

/-- `setType` always leaves an entry under the node's id: a fresh id is
inserted, an existing entry is kept (equal rewrite or panic). -/
theorem setType_covers (c : Checker) (e : Expr) (t : TyP) :
    findId (c.setType e t).types e.exprId ≠ none := by
  rw [Checker.setType]
  cases h : findId c.types e.exprId with
  | some old =>
    by_cases heq : old = t
    · simp only [heq, if_true]
      simp [h, heq]
    · simp only [heq, if_false]
      simp [h]
  | none =>
    simp [findId]

theorem setReference_types (c : Checker) (e : Expr) (r : Reference) :
    (c.setReference e r).types = c.types := by
  rw [Checker.setReference]
  cases h : findId c.references e.exprId with
  | some old =>
    by_cases heq : old = r <;> simp [heq]
  | none => rfl

theorem addError_types (c : Checker) (d : Diag) : (c.addError d).types = c.types := rfl

theorem setType_errors (c : Checker) (e : Expr) (t : TyP) :
    (c.setType e t).env.errors = c.env.errors := by
  rw [Checker.setType]
  cases h : findId c.types e.exprId with
  | some old => by_cases heq : old = t <;> simp [heq]
  | none => rfl

theorem call_cover_close (p : Option OverloadResolution × Checker) (e : Expr) :
    findId (match p with
      | (some res, cx) => (cx.setType e res.type).setReference e res.reference
      | (none, cx) => cx.setType e (some Ty.error)).types e.exprId ≠ none := by
  match p with
  | (some res, cx) =>
    show findId ((cx.setType e res.type).setReference e res.reference).types e.exprId ≠ none
    rw [setReference_types]
    exact setType_covers cx e res.type
  | (none, cx) =>
    exact setType_covers cx e (some Ty.error)

theorem cover_setType_setReference (c0 : Checker) (E : Expr) (t : TyP) (r : Reference) :
    findId ((c0.setType E t).setReference E r).types E.exprId ≠ none := by
  rw [setReference_types]
  exact setType_covers _ _ _

theorem cover_setType_addError (c0 : Checker) (E : Expr) (t : TyP) (d : Diag) :
    findId ((c0.setType E t).addError d).types E.exprId ≠ none := by
  rw [addError_types]
  exact setType_covers _ _ _

theorem cover_after_msgEntries (c0 : Checker) (E : Expr) (t : TyP) (ents : List Entry) :
    findId ((Checker.checkMessageEntries (c0.setType E t) ents t).types) E.exprId ≠ none := by
  have hcov := setType_covers c0 E t
  cases hv : findId (c0.setType E t).types E.exprId with
  | none => exact absurd hv hcov
  | some v =>
    have hp := (checkMessageEntries_stepOK ents (c0.setType E t) t).1 E.exprId v hv
    simp [hp]

/-- Except for a struct literal whose message name fails to resolve, the
walker always records a type for the node it was given. -/
theorem check_covers_root (e : Expr) (c : Checker)
    (hexc : ¬∃ i mn ents, e = Expr.structE i mn ents ∧ mn ≠ "" ∧
        lookupIdent c.env.scopes c.container mn = none) :
    findId ((c.check e).types) e.exprId ≠ none := by
  match e with
  | .constE i con =>
    cases con <;>
      (simp only [Checker.check, Checker.checkBoolConstant, Checker.checkBytesConstant,
        Checker.checkDoubleConstant, Checker.checkInt64Constant, Checker.checkNullConstant,
        Checker.checkStringConstant, Checker.checkUint64Constant]
       exact setType_covers _ _ _)
  | .identE i name =>
    simp only [Checker.check, Checker.checkIdent]
    cases hk : lookupIdent c.env.scopes c.container name with
    | some ident => exact cover_setType_setReference _ _ _ _
    | none => exact cover_setType_addError _ _ _ _
  | .selectE i op f tb =>
    simp only [Checker.check, Checker.checkSelect]
    cases hres : (match asQualifiedName (.selectE i op f tb) with
      | some qname => lookupIdent c.env.scopes c.container qname
      | none => none : Option IdentDecl) with
    | some ident =>
      cases tb with
      | true => exact setType_covers _ _ _
      | false => exact cover_setType_setReference _ _ _ _
    | none => exact setType_covers _ _ _
  | .callE i tgt f args =>
    cases tgt with
    | none =>
      simp only [Checker.check, Checker.checkCall]
      exact call_cover_close _ _
    | some tgt =>
      simp only [Checker.check, Checker.checkCall]
      exact call_cover_close _ _
  | .listE i es =>
    simp only [Checker.check, Checker.checkCreateList]
    cases ht : (c.checkElements es none).2 with
    | none =>
      cases hnv : (c.checkElements es none).1.newTypeVar with
      | mk v cv => exact setType_covers _ _ _
    | some t0 => exact setType_covers _ _ _
  | .structE i mn ents =>
    simp only [Checker.check, Checker.checkCreateStruct]
    by_cases hmn : mn ≠ ""
    · rw [if_pos hmn]
      cases hd : lookupIdent c.env.scopes c.container mn with
      | none => exact absurd ⟨i, mn, ents, rfl, hmn, hd⟩ hexc
      | some decl =>
        simp only [Checker.checkCreateMessage, hd]
        exact cover_after_msgEntries _ _ _ _
    · rw [if_neg hmn]
      simp only [Checker.checkCreateMap]
      cases ht : (c.checkMapEntries ents none none).2.1 with
      | none =>
        cases h1 : (c.checkMapEntries ents none none).1.newTypeVar with
        | mk kv c1 =>
          cases h2 : c1.newTypeVar with
          | mk vv c2 => exact setType_covers _ _ _
      | some kt => exact setType_covers _ _ _
  | .comprehensionE i iv ir av ai cond step res =>
    simp only [Checker.check, Checker.checkComprehension]
    exact setType_covers _ _ _

/-! ## C1: coverage and the final substitution pass -/

theorem findId_substMap (l : List (Nat × TyP)) (m : Mapping) (i : Nat) :
    findId (l.map (fun kv => (kv.1, SubstituteP m kv.2 true))) i
      = (findId l i).map (fun v => SubstituteP m v true) := by
  induction l with
  | nil => rfl
  | cons kv rest ih =>
    by_cases h : kv.1 = i <;> simp [findId, h, ih]

/-- C1 amended: every entry of the returned type map is free of
unresolved type parameters (the final pass collapses them to `Dyn`), and
the root node's type is recorded whenever the root is not a struct
literal whose message name fails to resolve.  Coverage does **not**
extend to the nodes of such a literal nor to a receiver subtree consumed
as a qualified static-function name. -/
theorem c1_amended (p : ParsedExpr) (env : Env) (container : String) :
    (∀ (id : Nat) (t? : TyP) (t : Ty),
      findId (Check p env container).1.typeMap id = some t? → t? = some t →
      hasTypeParam t = false) ∧
    (∀ e : Expr, p.expr = some e →
      (¬∃ i mn ents, e = Expr.structE i mn ents ∧ mn ≠ "" ∧
          lookupIdent env.scopes container mn = none) →
      findId (Check p env container).1.typeMap e.exprId ≠ none) := by
  cases hpe : p.expr with
  | none =>
    constructor
    · intro id t? t hfind ht
      simp only [Check, hpe] at hfind
      cases hfind
    · intro e he
      cases he
  | some e0 =>
    constructor
    · intro id t? t hfind ht
      simp only [Check, hpe] at hfind
      rw [findId_substMap] at hfind
      cases hv : findId (Checker.check
          { env := env, container := container, mappings := [],
            freeTypeVarCounter := 0, sourceInfo := p.sourceInfo,
            types := [], references := [] } e0).types id with
      | none => rw [hv] at hfind; cases hfind
      | some v =>
        rw [hv] at hfind
        have hfind' : SubstituteP (Checker.check
            { env := env, container := container, mappings := [],
              freeTypeVarCounter := 0, sourceInfo := p.sourceInfo,
              types := [], references := [] } e0).mappings v true = t? :=
          Option.some.inj hfind
        cases v with
        | none =>
          rw [← hfind'] at ht
          cases ht
        | some t0 =>
          rw [← hfind'] at ht
          have h2 := Option.some.inj ht
          rw [← h2]
          exact substitute_collapse_no_param _ t0
    · intro e he hexc
      cases he
      simp only [Check, hpe]
      rw [findId_substMap]
      have hroot := check_covers_root e0
        { env := env, container := container, mappings := [],
          freeTypeVarCounter := 0, sourceInfo := p.sourceInfo,
          types := [], references := [] } hexc
      cases hv : findId (Checker.check
          { env := env, container := container, mappings := [],
            freeTypeVarCounter := 0, sourceInfo := p.sourceInfo,
            types := [], references := [] } e0).types e0.exprId with
      | none => exact absurd hv hroot
      | some v => simp

/-! ## C2: comprehensions over an unsupported range kind -/

theorem check_errors_mono (e : Expr) (c : Checker) (d : Diag)
    (h : d ∈ c.env.errors) : d ∈ (c.check e).env.errors :=
  (check_stepOK e c).2.2.2.2.2 d h

theorem compBody_errors_mono (c2 : Checker) (iv av : String) (aT vT : TyP)
    (cond step res : Expr) (d : Diag) (h : d ∈ c2.env.errors) :
    d ∈ (compBody c2 iv av aT vT cond step res).env.errors := by
  simp only [compBody]
  have h1 : d ∈ ((c2.enterScope.addIdent
      { name := av, type := aT, value := none }).enterScope.addIdent
      { name := iv, type := vT, value := none }).env.errors := h
  have h2 := check_errors_mono cond _ d h1
  have h3 := (Checker.assertType_quiet _ cond (some Ty.bool)).2.2.2.2 d h2
  have h4 := check_errors_mono step _ d h3
  have h5 := (Checker.assertType_quiet _ step aT).2.2.2.2 d h4
  exact check_errors_mono res _ d h5

/-- C2 amended: a comprehension whose iter-range types to a kind other
than List, Map, Dyn or Error emits `not-a-comprehension-range` and then
does **not** skip scope entry: the walker still enters both scopes,
binds the accumulator variable to the accu-init type and the iteration
variable with an absent (nil) type, and type-checks loop-condition,
loop-step and result against those declared variables. -/
theorem checkComprehension_range_error (c : Checker) (i : Nat) (iv av : String)
    (ir ai cond step res : Expr)
    (h1 : KindOfP (((c.check ir).check ai).getType ir) ≠ Kind.kindList)
    (h2 : KindOfP (((c.check ir).check ai).getType ir) ≠ Kind.kindMap)
    (h3 : KindOfP (((c.check ir).check ai).getType ir) ≠ Kind.kindDyn)
    (h4 : KindOfP (((c.check ir).check ai).getType ir) ≠ Kind.kindError) :
    c.checkComprehension (.comprehensionE i iv ir av ai cond step res) =
      Checker.setType
        (compBody
          (((c.check ir).check ai).addError
            (.notAComprehensionRange
              (((c.check ir).check ai).locationById ir.exprId)
              (((c.check ir).check ai).getType ir)))
          iv av (((c.check ir).check ai).getType ai) none cond step res)
        (.comprehensionE i iv ir av ai cond step res)
        (Checker.getType
          (compBody
            (((c.check ir).check ai).addError
              (.notAComprehensionRange
                (((c.check ir).check ai).locationById ir.exprId)
                (((c.check ir).check ai).getType ir)))
            iv av (((c.check ir).check ai).getType ai) none cond step res)
          res) := by
  cases hk : KindOfP (((c.check ir).check ai).getType ir) with
  | kindList => exact absurd hk h1
  | kindMap => exact absurd hk h2
  | kindDyn => exact absurd hk h3
  | kindError => exact absurd hk h4
  | kindNull => simp only [Checker.checkComprehension, hk]; rfl
  | kindBool => simp only [Checker.checkComprehension, hk]; rfl
  | kindInt64 => simp only [Checker.checkComprehension, hk]; rfl
  | kindUint64 => simp only [Checker.checkComprehension, hk]; rfl
  | kindDouble => simp only [Checker.checkComprehension, hk]; rfl
  | kindString => simp only [Checker.checkComprehension, hk]; rfl
  | kindBytes => simp only [Checker.checkComprehension, hk]; rfl
  | kindObject => simp only [Checker.checkComprehension, hk]; rfl
  | kindType => simp only [Checker.checkComprehension, hk]; rfl
  | kindTypeParam => simp only [Checker.checkComprehension, hk]; rfl
  | kindFunction => simp only [Checker.checkComprehension, hk]; rfl
  | kindWellKnown => simp only [Checker.checkComprehension, hk]; rfl
  | kindUnknown => simp only [Checker.checkComprehension, hk]; rfl

theorem c2_amended (c : Checker) (i : Nat) (iv av : String)
    (ir ai cond step res : Expr)
    (h1 : KindOfP (((c.check ir).check ai).getType ir) ≠ Kind.kindList)
    (h2 : KindOfP (((c.check ir).check ai).getType ir) ≠ Kind.kindMap)
    (h3 : KindOfP (((c.check ir).check ai).getType ir) ≠ Kind.kindDyn)
    (h4 : KindOfP (((c.check ir).check ai).getType ir) ≠ Kind.kindError) :
    c.checkComprehension (.comprehensionE i iv ir av ai cond step res) =
      Checker.setType
        (compBody
          (((c.check ir).check ai).addError
            (.notAComprehensionRange
              (((c.check ir).check ai).locationById ir.exprId)
              (((c.check ir).check ai).getType ir)))
          iv av (((c.check ir).check ai).getType ai) none cond step res)
        (.comprehensionE i iv ir av ai cond step res)
        (Checker.getType
          (compBody
            (((c.check ir).check ai).addError
              (.notAComprehensionRange
                (((c.check ir).check ai).locationById ir.exprId)
                (((c.check ir).check ai).getType ir)))
            iv av (((c.check ir).check ai).getType ai) none cond step res)
          res) ∧
    Diag.notAComprehensionRange (((c.check ir).check ai).locationById ir.exprId)
        (((c.check ir).check ai).getType ir)
      ∈ (c.checkComprehension (.comprehensionE i iv ir av ai cond step res)).env.errors := by
  have main := checkComprehension_range_error c i iv av ir ai cond step res h1 h2 h3 h4
  refine ⟨main, ?_⟩
  rw [main, setType_errors]
  apply compBody_errors_mono
  exact List.mem_append_right _ (by simp)

/-! ## C3: overload resolution -/

theorem overloadLoop_post (aT : List TyP) (hT : Bool) :
    ∀ (os : List Overload) (c : Checker) (rT : TyP) (refR : Reference),
    ∃ newIds,
      (Checker.overloadLoop aT hT c (some rT) (some refR) os).2.2 =
        some { refR with overloadId := refR.overloadId ++ newIds } ∧
      (newIds = [] → (Checker.overloadLoop aT hT c (some rT) (some refR) os).2.1 = some rT) ∧
      (newIds ≠ [] →
        (Checker.overloadLoop aT hT c (some rT) (some refR) os).2.1 = some (some Ty.dyn)) ∧
      List.Sublist newIds (os.map (fun o => o.overloadId)) := by
  intro os
  induction os with
  | nil =>
    intro c rT refR
    exact ⟨[], by simp [Checker.overloadLoop], fun _ => rfl,
      fun h => absurd rfl h, by simp⟩
  | cons o rest ih =>
    intro c rT refR
    rw [Checker.overloadLoop.eq_def]
    by_cases hstyle :
        ((!hT && o.isInstanceFunction) || (hT && !o.isInstanceFunction)) = true
    · simp only [hstyle, if_true]
      obtain ⟨newIds, h1, h2, h3, h4⟩ := ih c rT refR
      exact ⟨newIds, h1, h2, h3, h4.cons _⟩
    · rw [Bool.not_eq_true] at hstyle
      simp only [hstyle, Bool.false_eq_true, if_false]
      by_cases hok : ((c.instantiateOverload o).2.isAssignableList aT
          (Checker.candidateArgs (c.instantiateOverload o).1)).1 = true
      · simp only [hok, if_true]
        obtain ⟨newIds', h1, h2, h3, h4⟩ := ih
          ((c.instantiateOverload o).2.isAssignableList aT
            (Checker.candidateArgs (c.instantiateOverload o).1)).2
          (some Ty.dyn) { refR with overloadId := refR.overloadId ++ [o.overloadId] }
        refine ⟨o.overloadId :: newIds', ?_, ?_, ?_, h4.cons₂ _⟩
        · rw [h1]
          simp
        · intro h
          cases h
        · intro _
          by_cases hn : newIds' = []
          · exact h2 hn
          · exact h3 hn
      · rw [Bool.not_eq_true] at hok
        simp only [hok, Bool.false_eq_true, if_false]
        obtain ⟨newIds, h1, h2, h3, h4⟩ := ih
          ((c.instantiateOverload o).2.isAssignableList aT
            (Checker.candidateArgs (c.instantiateOverload o).1)).2 rT refR
        exact ⟨newIds, h1, h2, h3, h4.cons _⟩

theorem overloadLoop_pre (aT : List TyP) (hT : Bool) :
    ∀ (os : List Overload) (c : Checker),
      ((Checker.overloadLoop aT hT c none none os).2.1 = none ∧
       (Checker.overloadLoop aT hT c none none os).2.2 = none) ∨
      (∃ refR, (Checker.overloadLoop aT hT c none none os).2.2 = some refR ∧
        refR.name = "" ∧ refR.value = none ∧ refR.overloadId ≠ [] ∧
        List.Sublist refR.overloadId (os.map (fun o => o.overloadId)) ∧
        (2 ≤ refR.overloadId.length →
          (Checker.overloadLoop aT hT c none none os).2.1 = some (some Ty.dyn)) ∧
        (Checker.overloadLoop aT hT c none none os).2.1 ≠ none) := by
  intro os
  induction os with
  | nil => intro c; exact Or.inl ⟨rfl, rfl⟩
  | cons o rest ih =>
    intro c
    rw [Checker.overloadLoop.eq_def]
    by_cases hstyle :
        ((!hT && o.isInstanceFunction) || (hT && !o.isInstanceFunction)) = true
    · simp only [hstyle, if_true]
      rcases ih c with h | ⟨refR, h1, h2, h3, h4, h5, h6, h7⟩
      · exact Or.inl h
      · exact Or.inr ⟨refR, h1, h2, h3, h4, h5.cons _, h6, h7⟩
    · rw [Bool.not_eq_true] at hstyle
      simp only [hstyle, Bool.false_eq_true, if_false]
      by_cases hok : ((c.instantiateOverload o).2.isAssignableList aT
          (Checker.candidateArgs (c.instantiateOverload o).1)).1 = true
      · simp only [hok, if_true]
        obtain ⟨newIds', h1, h2, h3, h4⟩ := overloadLoop_post aT hT rest
          ((c.instantiateOverload o).2.isAssignableList aT
            (Checker.candidateArgs (c.instantiateOverload o).1)).2
          (SubstituteP ((c.instantiateOverload o).2.isAssignableList aT
            (Checker.candidateArgs (c.instantiateOverload o).1)).2.mappings
            (Checker.overloadResultType (c.instantiateOverload o).1) false)
          (newFunctionReference [o.overloadId])
        refine Or.inr ⟨{ newFunctionReference [o.overloadId] with
          overloadId := [o.overloadId] ++ newIds' }, h1, rfl, rfl, by simp, ?_, ?_, ?_⟩
        · exact List.Sublist.cons₂ _ h4
        · intro hlen
          have hn : newIds' ≠ [] := by
            intro hnil
            rw [hnil] at hlen
            simp at hlen
          exact h3 hn
        · by_cases hn : newIds' = []
          · rw [h2 hn]
            exact Option.some_ne_none _
          · rw [h3 hn]
            exact Option.some_ne_none _
      · rw [Bool.not_eq_true] at hok
        simp only [hok, Bool.false_eq_true, if_false]
        rcases ih ((c.instantiateOverload o).2.isAssignableList aT
            (Checker.candidateArgs (c.instantiateOverload o).1)).2 with
          h | ⟨refR, h1, h2, h3, h4, h5, h6, h7⟩
        · exact Or.inl h
        · exact Or.inr ⟨refR, h1, h2, h3, h4, h5.cons _, h6, h7⟩

theorem overloadLoop_resolved (aT : List TyP) (hT : Bool) (os : List Overload)
    (c : Checker) (rt : TyP)
    (h : (Checker.overloadLoop aT hT c none none os).2.1 = some rt) :
    ∃ refR, (Checker.overloadLoop aT hT c none none os).2.2 = some refR ∧
      refR.name = "" ∧ refR.value = none ∧ refR.overloadId ≠ [] ∧
      List.Sublist refR.overloadId (os.map (fun o => o.overloadId)) ∧
      (2 ≤ refR.overloadId.length → rt = some Ty.dyn) := by
  rcases overloadLoop_pre aT hT os c with ⟨ha, _⟩ | ⟨refR, h1, h2, h3, h4, h5, h6, _⟩
  · rw [h] at ha
    cases ha
  · refine ⟨refR, h1, h2, h3, h4, h5, ?_⟩
    intro hlen
    have := h6 hlen
    rw [h] at this
    cases this
    rfl

/-- C3: in overload resolution, the ids of all matching overloads are
kept in declaration order; a unique match leaves the tentative result
type fixed by the first (and only) match, while any further match
narrows the result type to `Dyn`.  The last two conjuncts characterize
the individual steps: the first successful overload sets the tentative
result type by applying the current substitution store (as extended by
that match) to the instantiated overload's declared result type without
collapsing, and every further successful overload replaces the result
type by `Dyn` while appending its overload id. -/
theorem c3_overload_resolution :
    (∀ (c : Checker) (loc : Loc) (fn : FuncDecl) (target : Option Expr)
        (args : List Expr) (res : OverloadResolution),
      (c.resolveOverload loc fn target args).1 = some res →
      res.reference.name = "" ∧ res.reference.value = none ∧
      res.reference.overloadId ≠ [] ∧
      List.Sublist res.reference.overloadId (fn.overloads.map (fun o => o.overloadId)) ∧
      (2 ≤ res.reference.overloadId.length → res.type = some Ty.dyn)) ∧
    (∀ (aT : List TyP) (hT : Bool) (o : Overload) (rest : List Overload) (c : Checker),
      ((!hT && o.isInstanceFunction) || (hT && !o.isInstanceFunction)) = false →
      ((c.instantiateOverload o).2.isAssignableList aT
        (Checker.candidateArgs (c.instantiateOverload o).1)).1 = true →
      Checker.overloadLoop aT hT c none none (o :: rest) =
        Checker.overloadLoop aT hT
          ((c.instantiateOverload o).2.isAssignableList aT
            (Checker.candidateArgs (c.instantiateOverload o).1)).2
          (some (SubstituteP ((c.instantiateOverload o).2.isAssignableList aT
              (Checker.candidateArgs (c.instantiateOverload o).1)).2.mappings
            (Checker.overloadResultType (c.instantiateOverload o).1) false))
          (some (newFunctionReference [o.overloadId])) rest) ∧
    (∀ (aT : List TyP) (hT : Bool) (o : Overload) (rest : List Overload) (c : Checker)
        (rT : TyP) (refR : Reference),
      ((!hT && o.isInstanceFunction) || (hT && !o.isInstanceFunction)) = false →
      ((c.instantiateOverload o).2.isAssignableList aT
        (Checker.candidateArgs (c.instantiateOverload o).1)).1 = true →
      Checker.overloadLoop aT hT c (some rT) (some refR) (o :: rest) =
        Checker.overloadLoop aT hT
          ((c.instantiateOverload o).2.isAssignableList aT
            (Checker.candidateArgs (c.instantiateOverload o).1)).2
          (some (some Ty.dyn))
          (some { refR with overloadId := refR.overloadId ++ [o.overloadId] }) rest) := by
  refine ⟨?_, ?_, ?_⟩
  · intro c loc fn target args res hres
    rw [Checker.resolveOverload.eq_def] at hres
    dsimp only at hres
    split at hres
    · cases hres
    · rename_i rt hout
      cases hres
      obtain ⟨refR, h1, h2, h3, h4, h5, h6⟩ := overloadLoop_resolved _ _ _ _ _ hout
      rw [h1]
      exact ⟨h2, h3, h4, h5, h6⟩
  · intro aT hT o rest c hstyle hok
    rw [Checker.overloadLoop.eq_def]
    simp only [hstyle, Bool.false_eq_true, if_false, hok, if_true]
  · intro aT hT o rest c rT refR hstyle hok
    rw [Checker.overloadLoop.eq_def]
    simp only [hstyle, Bool.false_eq_true, if_false, hok, if_true]

/-! ## C4: receiver calls -/

/-- The "regular instance call" tail of `checkCall` (checker.go lines
229-240 plus the final dispatch): check the receiver, look the function
up by its simple name, resolve instance-style, and set the node's type
(and reference on success). -/
def instanceCallPath (c : Checker) (e tgt : Expr) (fnName : String)
    (args : List Expr) : Checker :=
  let c := Checker.check c tgt
  let rc : Option OverloadResolution × Checker :=
    match lookupFunction c.env.scopes c.container fnName with
    | some fn => c.resolveOverload (c.location e) fn (some tgt) args
    | none => (none, c.addError (.undeclaredReference (c.location e) c.container fnName))
  match rc with
  | (some res, c) => (c.setType e res.type).setReference e res.reference
  | (none, c) => c.setType e (some .error)

/-- C4 amended: for a call with a receiver, the arguments are checked
first; if the receiver reads as a qualified name `q`, `q.fnName`
resolves in the function table **and overload resolution succeeds**,
the call is static: the node gets the resolution's type and reference,
and no (fresh) `types` or `references` entry is written outside the
call id and the argument subtrees — in particular none for the
receiver's nodes.  If the qualified lookup fails, or the receiver has
no qualified-name form, the instance path runs on the post-arguments
state; if the qualified lookup succeeds but **overload resolution
fails**, the checker does not stop at the static interpretation: it
falls through and runs the instance path (receiver checked, simple-name
lookup) on the state already carrying the failed resolution's
diagnostic. -/
theorem c4_amended :
    (∀ (c : Checker) (i : Nat) (tgt : Expr) (fnName : String) (args : List Expr)
        (qname : String) (fn : FuncDecl) (res : OverloadResolution),
      asQualifiedName tgt = some qname →
      lookupFunction (c.checkArgs args).env.scopes (c.checkArgs args).container
        (qname ++ "." ++ fnName) = some fn →
      ((c.checkArgs args).resolveOverload
        ((c.checkArgs args).location (.callE i (some tgt) fnName args)) fn none args).1
        = some res →
      Checker.checkCall c (.callE i (some tgt) fnName args) =
        (Checker.setType
          ((c.checkArgs args).resolveOverload
            ((c.checkArgs args).location (.callE i (some tgt) fnName args)) fn none args).2
          (.callE i (some tgt) fnName args) res.type).setReference
          (.callE i (some tgt) fnName args) res.reference) ∧
    (∀ (c : Checker) (i : Nat) (tgt : Expr) (fnName : String) (args : List Expr)
        (qname : String) (fn : FuncDecl) (res : OverloadResolution),
      asQualifiedName tgt = some qname →
      lookupFunction (c.checkArgs args).env.scopes (c.checkArgs args).container
        (qname ++ "." ++ fnName) = some fn →
      ((c.checkArgs args).resolveOverload
        ((c.checkArgs args).location (.callE i (some tgt) fnName args)) fn none args).1
        = some res →
      ∀ j, j ∉ i :: Expr.idListL args →
        findId ((Checker.checkCall c (.callE i (some tgt) fnName args)).types) j
          = findId c.types j) ∧
    (∀ (c : Checker) (i : Nat) (tgt : Expr) (fnName : String) (args : List Expr)
        (qname : String) (fn : FuncDecl),
      asQualifiedName tgt = some qname →
      lookupFunction (c.checkArgs args).env.scopes (c.checkArgs args).container
        (qname ++ "." ++ fnName) = some fn →
      ((c.checkArgs args).resolveOverload
        ((c.checkArgs args).location (.callE i (some tgt) fnName args)) fn none args).1
        = none →
      Checker.checkCall c (.callE i (some tgt) fnName args) =
        instanceCallPath
          ((c.checkArgs args).resolveOverload
            ((c.checkArgs args).location (.callE i (some tgt) fnName args)) fn none args).2
          (.callE i (some tgt) fnName args) tgt fnName args) ∧
    (∀ (c : Checker) (i : Nat) (tgt : Expr) (fnName : String) (args : List Expr),
      asQualifiedName tgt = none →
      Checker.checkCall c (.callE i (some tgt) fnName args) =
        instanceCallPath (c.checkArgs args) (.callE i (some tgt) fnName args)
          tgt fnName args) ∧
    (∀ (c : Checker) (i : Nat) (tgt : Expr) (fnName : String) (args : List Expr)
        (qname : String),
      asQualifiedName tgt = some qname →
      lookupFunction (c.checkArgs args).env.scopes (c.checkArgs args).container
        (qname ++ "." ++ fnName) = none →
      Checker.checkCall c (.callE i (some tgt) fnName args) =
        instanceCallPath (c.checkArgs args) (.callE i (some tgt) fnName args)
          tgt fnName args) := by
  refine ⟨?_, ?_, ?_, ?_, ?_⟩
  · intro c i tgt fnName args qname fn res hqn hlf hres
    simp only [Checker.checkCall, hqn, hlf]
    cases hpair : (c.checkArgs args).resolveOverload
        ((c.checkArgs args).location (.callE i (some tgt) fnName args)) fn none args with
    | mk o c2 =>
      rw [hpair] at hres
      dsimp only at hres
      subst hres
      rfl
  · intro c i tgt fnName args qname fn res hqn hlf hres j hj
    have heq : Checker.checkCall c (.callE i (some tgt) fnName args) =
        (Checker.setType
          ((c.checkArgs args).resolveOverload
            ((c.checkArgs args).location (.callE i (some tgt) fnName args)) fn none args).2
          (.callE i (some tgt) fnName args) res.type).setReference
          (.callE i (some tgt) fnName args) res.reference := by
      simp only [Checker.checkCall, hqn, hlf]
      cases hpair : (c.checkArgs args).resolveOverload
          ((c.checkArgs args).location (.callE i (some tgt) fnName args)) fn none args with
      | mk o c2 =>
        rw [hpair] at hres
        dsimp only at hres
        subst hres
        rfl
    rw [heq]
    have hsub1 : ∀ x, x ∈ Expr.idListL args → x ∈ i :: Expr.idListL args :=
      fun x hx => List.mem_cons_of_mem _ hx
    have hsub2 : ∀ x, x ∈ [i] → x ∈ i :: Expr.idListL args := by
      intro x hx
      rw [List.mem_singleton] at hx
      rw [hx]
      exact List.mem_cons_self _ _
    have st : StepOK (i :: Expr.idListL args) c
        ((Checker.setType
          ((c.checkArgs args).resolveOverload
            ((c.checkArgs args).location (.callE i (some tgt) fnName args)) fn none args).2
          (.callE i (some tgt) fnName args) res.type).setReference
          (.callE i (some tgt) fnName args) res.reference) := by
      refine StepOK.trans (StepOK.mono hsub1 (checkArgs_stepOK args c)) ?_
      refine StepOK.trans ((Checker.resolveOverload_quiet (c.checkArgs args)
        ((c.checkArgs args).location (.callE i (some tgt) fnName args)) fn none
        args).stepOK _) ?_
      refine StepOK.trans (StepOK.mono hsub2 (Checker.setType_stepOK _
        (.callE i (some tgt) fnName args) res.type).1) ?_
      exact StepOK.mono hsub2 (Checker.setReference_stepOK _
        (.callE i (some tgt) fnName args) res.reference).1
    cases hv : findId c.types j with
    | some v => exact st.1 j v hv
    | none => exact st.2.2.1 j hj hv
  · intro c i tgt fnName args qname fn hqn hlf hres
    simp only [Checker.checkCall, hqn, hlf]
    cases hpair : (c.checkArgs args).resolveOverload
        ((c.checkArgs args).location (.callE i (some tgt) fnName args)) fn none args with
    | mk o c2 =>
      rw [hpair] at hres
      dsimp only at hres
      subst hres
      rfl
  · intro c i tgt fnName args hqn
    simp only [Checker.checkCall, hqn]
    rfl
  · intro c i tgt fnName args qname hqn hlf
    simp only [Checker.checkCall, hqn, hlf]
    rfl

/-! ## Container invariance

The `container` field of the checker state is assigned once at
construction and never written by any checker operation; this layer
proves that across the thirteen mutually recursive walker functions,
with the same measure-indexed induction as the scope layer.  `CN`
carries a phantom id-list parameter so the proofs mirror the scope
layer's shape. -/

def CNQ (c c' : Checker) : Prop := c'.container = c.container

def CNQ.refl (c : Checker) : CNQ c c := rfl

def CNQ.trans {c1 c2 c3 : Checker} (h1 : CNQ c1 c2) (h2 : CNQ c2 c3) : CNQ c1 c3 :=
  Eq.trans h2 h1

def CN (ids : List Nat) (c c' : Checker) : Prop := c'.container = c.container

def CN.refl (ids : List Nat) (c : Checker) : CN ids c c := rfl

def CN.trans {ids : List Nat} {c1 c2 c3 : Checker} (h1 : CN ids c1 c2)
    (h2 : CN ids c2 c3) : CN ids c1 c3 := Eq.trans h2 h1

def CN.mono {ids ids' : List Nat} {c c' : Checker}
    (hsub : ∀ i, i ∈ ids → i ∈ ids') (h : CN ids c c') : CN ids' c c' := h

def CNQ.cn {c c' : Checker} (h : CNQ c c') (ids : List Nat) : CN ids c c' := h

namespace Checker

theorem setType_container (c : Checker) (e : Expr) (t : TyP) :
    (c.setType e t).container = c.container := by
  rw [setType]
  cases h : findId c.types e.exprId with
  | some old => by_cases heq : old = t <;> simp [heq]
  | none => rfl

theorem setReference_container (c : Checker) (e : Expr) (r : Reference) :
    (c.setReference e r).container = c.container := by
  rw [setReference]
  cases h : findId c.references e.exprId with
  | some old => by_cases heq : old = r <;> simp [heq]
  | none => rfl

theorem addError_container (c : Checker) (d : Diag) :
    (c.addError d).container = c.container := rfl

theorem enterScope_container (c : Checker) : c.enterScope.container = c.container := rfl

theorem exitScope_container (c : Checker) : c.exitScope.container = c.container := rfl

theorem addIdent_container (c : Checker) (d : IdentDecl) :
    (c.addIdent d).container = c.container := rfl

theorem setType_cnm (c : Checker) (e : Expr) (t : TyP) {ids : List Nat}
    (_hmem : e.exprId ∈ ids) : CN ids c (c.setType e t) :=
  c.setType_container e t

theorem setReference_cnm (c : Checker) (e : Expr) (r : Reference) {ids : List Nat}
    (_hmem : e.exprId ∈ ids) : CN ids c (c.setReference e r) :=
  c.setReference_container e r

theorem addError_cnq (c : Checker) (d : Diag) : CNQ c (c.addError d) := rfl

theorem newTypeVar_cnq (c : Checker) : CNQ c c.newTypeVar.2 := rfl

theorem isAssignable_cnq (c : Checker) (t1 t2 : TyP) :
    CNQ c (c.isAssignable t1 t2).2 := by
  rw [isAssignable]
  cases IsAssignableP c.mappings t1 t2 <;> rfl

theorem isAssignableList_cnq (c : Checker) (l1 l2 : List TyP) :
    CNQ c (c.isAssignableList l1 l2).2 := by
  rw [isAssignableList]
  cases IsAssignableListP c.mappings l1 l2 <;> rfl

theorem joinTypes_cnq (c : Checker) (l : Loc) (p cur : TyP) :
    CNQ c (c.joinTypes l p cur).2 := by
  rw [joinTypes.eq_def]
  cases p with
  | none => exact CNQ.refl c
  | some t =>
    cases h : c.isAssignable (some t) cur with
    | mk ok c' =>
      have hq : CNQ c c' := by
        have := c.isAssignable_cnq (some t) cur
        rw [h] at this
        exact this
      cases ok
      · exact hq.trans (c'.addError_cnq _)
      · exact hq

theorem assertType_cnq (c : Checker) (e : Expr) (t : TyP) :
    CNQ c (c.assertType e t) := by
  rw [assertType]
  cases h : c.isAssignable t (c.getType e) with
  | mk ok c' =>
    have hq : CNQ c c' := by
      have := c.isAssignable_cnq t (c.getType e)
      rw [h] at this
      exact this
    cases ok
    · exact hq.trans (c'.addError_cnq _)
    · exact hq

theorem assertType_container (c : Checker) (e : Expr) (t : TyP) :
    (c.assertType e t).container = c.container :=
  c.assertType_cnq e t

theorem lookupFieldType_cnq (c : Checker) (l : Loc) (mt : TyP) (f : String) :
    CNQ c (c.lookupFieldType l mt f).2 := by
  rw [lookupFieldType]
  by_cases h : c.env.typeProvider.lookupType (getMessageTypeName mt) = false
  · simp only [h, if_true]
    exact c.addError_cnq _
  · simp only [h, if_false]
    cases c.env.typeProvider.lookupFieldType mt f
    · exact c.addError_cnq _
    · exact CNQ.refl c

theorem instantiateSubs_cnq (c : Checker) (tps : List String) :
    CNQ c (c.instantiateSubs tps).2 := by
  induction tps generalizing c with
  | nil => exact CNQ.refl c
  | cons tp rest ih =>
    simp only [instantiateSubs]
    exact (c.newTypeVar_cnq).trans (ih c.newTypeVar.2)

theorem instantiateOverload_cnq (c : Checker) (o : Overload) :
    CNQ c (c.instantiateOverload o).2 := by
  rw [instantiateOverload]
  by_cases h : o.typeParams.length > 0
  · simp only [h, if_true]
    exact c.instantiateSubs_cnq o.typeParams
  · simp only [h, if_false]
    exact CNQ.refl c

theorem overloadLoop_cnq (argTypes : List TyP) (hasTarget : Bool)
    (os : List Overload) : ∀ (c : Checker) (rT : Option TyP) (ref : Option Reference),
    CNQ c (overloadLoop argTypes hasTarget c rT ref os).1 := by
  induction os with
  | nil => intro c rT ref; exact CNQ.refl c
  | cons o rest ih =>
    intro c rT ref
    rw [overloadLoop.eq_def]
    by_cases hstyle :
        ((!hasTarget && o.isInstanceFunction) || (hasTarget && !o.isInstanceFunction)) = true
    · simp only [hstyle, if_true]
      exact ih c rT ref
    · simp only [hstyle, if_false]
      have hq : CNQ c
          ((c.instantiateOverload o).2.isAssignableList argTypes
            (candidateArgs (c.instantiateOverload o).1)).2 :=
        (c.instantiateOverload_cnq o).trans
          ((c.instantiateOverload o).2.isAssignableList_cnq _ _)
      by_cases hok : ((c.instantiateOverload o).2.isAssignableList argTypes
          (candidateArgs (c.instantiateOverload o).1)).1 = true
      · simp only [hok, if_true]
        exact hq.trans (ih _ _ _)
      · rw [Bool.not_eq_true] at hok
        simp only [hok, if_false]
        exact hq.trans (ih _ _ _)

theorem resolveOverload_cnq (c : Checker) (l : Loc) (fn : FuncDecl)
    (target : Option Expr) (args : List Expr) :
    CNQ c (c.resolveOverload l fn target args).2 := by
  rw [resolveOverload.eq_def]
  dsimp only
  cases h : (overloadLoop
      ((match target with | some t => [c.getType t] | none => [])
        ++ args.map (fun a => c.getType a)) target.isSome c none none fn.overloads).2.1 with
  | none =>
    exact (overloadLoop_cnq _ target.isSome fn.overloads c none none).trans
      (Checker.addError_cnq _ _)
  | some rt =>
    exact overloadLoop_cnq _ target.isSome fn.overloads c none none

end Checker

theorem compBody_container (c2 : Checker) (iv av : String) (aT vT : TyP)
    (cond step res : Expr)
    (hcond : ∀ cx : Checker, (Checker.check cx cond).container = cx.container)
    (hstep : ∀ cx : Checker, (Checker.check cx step).container = cx.container)
    (hres : ∀ cx : Checker, (Checker.check cx res).container = cx.container) :
    (compBody c2 iv av aT vT cond step res).container = c2.container := by
  simp only [compBody]
  rw [Checker.exitScope_container, hres, Checker.exitScope_container,
    Checker.assertType_container, hstep, Checker.assertType_container, hcond,
    Checker.addIdent_container, Checker.enterScope_container,
    Checker.addIdent_container, Checker.enterScope_container]

def CheckCN (e : Expr) : Prop :=
  ∀ c : Checker, CN e.idList c (c.check e)

def SelectCN (e : Expr) : Prop :=
  ∀ c : Checker, CN e.idList c (c.checkSelect e)

def CallCN (e : Expr) : Prop :=
  ∀ c : Checker, CN e.idList c (c.checkCall e)

def CreateListCN (e : Expr) : Prop :=
  ∀ c : Checker, CN e.idList c (c.checkCreateList e)

def CreateStructCN (e : Expr) : Prop :=
  ∀ c : Checker, CN e.idList c (c.checkCreateStruct e)

def CreateMapCN (e : Expr) : Prop :=
  ∀ c : Checker, CN e.idList c (c.checkCreateMap e)

def CreateMessageCN (e : Expr) : Prop :=
  ∀ c : Checker, CN e.idList c (c.checkCreateMessage e)

def ComprehensionCN (e : Expr) : Prop :=
  ∀ c : Checker, CN e.idList c (c.checkComprehension e)

def ArgsCN (args : List Expr) : Prop :=
  ∀ c : Checker, CN (Expr.idListL args) c (c.checkArgs args)

def ElemsCN (es : List Expr) : Prop :=
  ∀ (c : Checker) (t : TyP), CN (Expr.idListL es) c (c.checkElements es t).1

def MapEntsCN (ents : List Entry) : Prop :=
  ∀ (c : Checker) (kT vT : TyP), CN (Entry.idListL ents) c (c.checkMapEntries ents kT vT).1

def MsgEntryCN (v : Expr) : Prop :=
  ∀ (c : Checker) (entId : Nat) (field : String) (mt : TyP),
    CN v.idList c (c.checkMessageEntry entId field v mt)

def MsgEntsCN (ents : List Entry) : Prop :=
  ∀ (c : Checker) (mt : TyP), CN (Entry.idListL ents) c (c.checkMessageEntries ents mt)

/-- All the container-invariance statements, bounded by the checker's own
termination measure. -/
def MasterCN (n : Nat) : Prop :=
  (∀ e : Expr, 3 * sizeOf e + 2 ≤ n → CheckCN e) ∧
  (∀ e : Expr, 3 * sizeOf e + 1 ≤ n → SelectCN e) ∧
  (∀ e : Expr, 3 * sizeOf e + 1 ≤ n → CallCN e) ∧
  (∀ e : Expr, 3 * sizeOf e + 1 ≤ n → CreateListCN e) ∧
  (∀ e : Expr, 3 * sizeOf e + 1 ≤ n → CreateStructCN e) ∧
  (∀ e : Expr, 3 * sizeOf e ≤ n → CreateMapCN e) ∧
  (∀ e : Expr, 3 * sizeOf e ≤ n → CreateMessageCN e) ∧
  (∀ e : Expr, 3 * sizeOf e + 1 ≤ n → ComprehensionCN e) ∧
  (∀ args : List Expr, 3 * sizeOf args + 2 ≤ n → ArgsCN args) ∧
  (∀ es : List Expr, 3 * sizeOf es + 2 ≤ n → ElemsCN es) ∧
  (∀ ents : List Entry, 3 * sizeOf ents + 2 ≤ n → MapEntsCN ents) ∧
  (∀ v : Expr, 3 * sizeOf v + 3 ≤ n → MsgEntryCN v) ∧
  (∀ ents : List Entry, 3 * sizeOf ents + 2 ≤ n → MsgEntsCN ents)

theorem mastercn_zero : MasterCN 0 := by
  refine ⟨?_, ?_, ?_, ?_, ?_, ?_, ?_, ?_, ?_, ?_, ?_, ?_, ?_⟩ <;>
    (intro x h; exfalso; cases x <;> simp_arith at h)

theorem mastercn_check (n : Nat) (ih : MasterCN n) :
    ∀ e : Expr, 3 * sizeOf e + 2 ≤ n + 1 → CheckCN e := by
  obtain ⟨ihCheck, ihSel, ihCall, ihCList, ihCStruct, ihCMap, ihCMsg, ihComp,
    ihArgs, ihElems, ihMapE, ihMsgE1, ihMsgE⟩ := ih
  intro e hm c
  match e with
  | .constE i con =>
    cases con <;>
      (simp only [Checker.check, Checker.checkBoolConstant, Checker.checkBytesConstant,
        Checker.checkDoubleConstant, Checker.checkInt64Constant, Checker.checkNullConstant,
        Checker.checkStringConstant, Checker.checkUint64Constant]
       exact c.setType_cnm _ _ (by simp [Expr.idList, Expr.exprId]))
  | .identE i name =>
    simp only [Checker.check, Checker.checkIdent]
    cases hk : lookupIdent c.env.scopes c.container name with
    | some ident =>
      exact (c.setType_cnm _ _ (by simp [Expr.idList, Expr.exprId])).trans
        (Checker.setReference_cnm _ _ _ (by simp [Expr.idList, Expr.exprId]))
    | none =>
      exact (c.setType_cnm _ _ (by simp [Expr.idList, Expr.exprId])).trans
        ((Checker.addError_cnq _ _).cn _)
  | .selectE i op f tb =>
    simp only [Checker.check]
    exact ihSel (.selectE i op f tb) (by simp_arith at hm ⊢; omega) c
  | .callE i tgt f args =>
    simp only [Checker.check]
    exact ihCall (.callE i tgt f args) (by simp_arith at hm ⊢; omega) c
  | .listE i es =>
    simp only [Checker.check]
    exact ihCList (.listE i es) (by simp_arith at hm ⊢; omega) c
  | .structE i mn ents =>
    simp only [Checker.check]
    exact ihCStruct (.structE i mn ents) (by simp_arith at hm ⊢; omega) c
  | .comprehensionE i iv ir av ai lc ls r =>
    simp only [Checker.check]
    exact ihComp (.comprehensionE i iv ir av ai lc ls r) (by simp_arith at hm ⊢; omega) c

theorem mastercn_select (n : Nat) (ih : MasterCN n) :
    ∀ e : Expr, 3 * sizeOf e + 1 ≤ n + 1 → SelectCN e := by
  obtain ⟨ihCheck, ihSel, ihCall, ihCList, ihCStruct, ihCMap, ihCMsg, ihComp,
    ihArgs, ihElems, ihMapE, ihMsgE1, ihMsgE⟩ := ih
  intro e hm c
  match e with
  | .constE i con => simp only [Checker.checkSelect]; exact CN.refl _ c
  | .identE i nm => simp only [Checker.checkSelect]; exact CN.refl _ c
  | .callE i tgt f args => simp only [Checker.checkSelect]; exact CN.refl _ c
  | .listE i es => simp only [Checker.checkSelect]; exact CN.refl _ c
  | .structE i mn ents => simp only [Checker.checkSelect]; exact CN.refl _ c
  | .comprehensionE i iv ir av ai lc ls r =>
    simp only [Checker.checkSelect]; exact CN.refl _ c
  | .selectE i op f tb =>
    have hsub : ∀ j, j ∈ Expr.idList op → j ∈ Expr.idList (.selectE i op f tb) := by
      intro j hj
      simp [Expr.idList]
      exact Or.inr hj
    have hmem : Expr.exprId (.selectE i op f tb) ∈ Expr.idList (.selectE i op f tb) := by
      simp [Expr.idList, Expr.exprId]
    simp only [Checker.checkSelect]
    cases hres : (match asQualifiedName (.selectE i op f tb) with
      | some qname => lookupIdent c.env.scopes c.container qname
      | none => none : Option IdentDecl) with
    | some ident =>
      cases tb with
      | true =>
        exact ((c.addError_cnq _).cn _).trans (Checker.setType_cnm _ _ _ hmem)
      | false =>
        exact (c.setType_cnm _ _ hmem).trans (Checker.setReference_cnm _ _ _ hmem)
    | none =>
      have hop : CN (Expr.idList (.selectE i op f tb)) c (c.check op) :=
        CN.mono hsub (ihCheck op (by simp_arith at hm ⊢; omega) c)
      cases hk : KindOfP ((c.check op).getType op) with
      | kindError => exact hop.trans (Checker.setType_cnm _ _ _ hmem)
      | kindDyn => exact hop.trans (Checker.setType_cnm _ _ _ hmem)
      | kindMap => exact hop.trans (Checker.setType_cnm _ _ _ hmem)
      | kindObject =>
        cases hft : (c.check op).lookupFieldType
            ((c.check op).location (.selectE i op f tb)) ((c.check op).getType op) f with
        | mk ft? c2 =>
          have hq : CNQ (c.check op) c2 := by
            have := (c.check op).lookupFieldType_cnq
              ((c.check op).location (.selectE i op f tb)) ((c.check op).getType op) f
            rw [hft] at this
            exact this
          cases ft? with
          | some ft =>
            by_cases hp : (tb && !ft.supportsPresence) = true
            · simp only [hp, if_true]
              exact hop.trans (((hq.trans (Checker.addError_cnq _ _)).cn _).trans
                (Checker.setType_cnm _ _ _ hmem))
            · rw [Bool.not_eq_true] at hp
              simp only [hp, if_false]
              exact hop.trans ((hq.cn _).trans (Checker.setType_cnm _ _ _ hmem))
          | none =>
            exact hop.trans ((hq.cn _).trans (Checker.setType_cnm _ _ _ hmem))
      | kindNull =>
        exact hop.trans (((Checker.addError_cnq _ _).cn _).trans (Checker.setType_cnm _ _ _ hmem))
      | kindBool =>
        exact hop.trans (((Checker.addError_cnq _ _).cn _).trans (Checker.setType_cnm _ _ _ hmem))
      | kindInt64 =>
        exact hop.trans (((Checker.addError_cnq _ _).cn _).trans (Checker.setType_cnm _ _ _ hmem))
      | kindUint64 =>
        exact hop.trans (((Checker.addError_cnq _ _).cn _).trans (Checker.setType_cnm _ _ _ hmem))
      | kindDouble =>
        exact hop.trans (((Checker.addError_cnq _ _).cn _).trans (Checker.setType_cnm _ _ _ hmem))
      | kindString =>
        exact hop.trans (((Checker.addError_cnq _ _).cn _).trans (Checker.setType_cnm _ _ _ hmem))
      | kindBytes =>
        exact hop.trans (((Checker.addError_cnq _ _).cn _).trans (Checker.setType_cnm _ _ _ hmem))
      | kindList =>
        exact hop.trans (((Checker.addError_cnq _ _).cn _).trans (Checker.setType_cnm _ _ _ hmem))
      | kindType =>
        exact hop.trans (((Checker.addError_cnq _ _).cn _).trans (Checker.setType_cnm _ _ _ hmem))
      | kindTypeParam =>
        exact hop.trans (((Checker.addError_cnq _ _).cn _).trans (Checker.setType_cnm _ _ _ hmem))
      | kindFunction =>
        exact hop.trans (((Checker.addError_cnq _ _).cn _).trans (Checker.setType_cnm _ _ _ hmem))
      | kindWellKnown =>
        exact hop.trans (((Checker.addError_cnq _ _).cn _).trans (Checker.setType_cnm _ _ _ hmem))
      | kindUnknown =>
        exact hop.trans (((Checker.addError_cnq _ _).cn _).trans (Checker.setType_cnm _ _ _ hmem))

theorem mastercn_args (n : Nat) (ih : MasterCN n) :
    ∀ args : List Expr, 3 * sizeOf args + 2 ≤ n + 1 → ArgsCN args := by
  obtain ⟨ihCheck, ihSel, ihCall, ihCList, ihCStruct, ihCMap, ihCMsg, ihComp,
    ihArgs, ihElems, ihMapE, ihMsgE1, ihMsgE⟩ := ih
  intro args hm c
  match args with
  | [] => simp only [Checker.checkArgs]; exact CN.refl _ c
  | a :: rest =>
    simp only [Checker.checkArgs]
    have h1 : CN (Expr.idListL (a :: rest)) c (c.check a) :=
      CN.mono (by intro j hj; simp [Expr.idListL]; exact Or.inl hj)
        (ihCheck a (by simp_arith at hm ⊢; omega) c)
    have h2 : CN (Expr.idListL (a :: rest)) (c.check a) ((c.check a).checkArgs rest) :=
      CN.mono (by intro j hj; simp [Expr.idListL]; exact Or.inr hj)
        (ihArgs rest (by simp_arith at hm ⊢; omega) (c.check a))
    exact h1.trans h2

theorem mastercn_elems (n : Nat) (ih : MasterCN n) :
    ∀ es : List Expr, 3 * sizeOf es + 2 ≤ n + 1 → ElemsCN es := by
  obtain ⟨ihCheck, ihSel, ihCall, ihCList, ihCStruct, ihCMap, ihCMsg, ihComp,
    ihArgs, ihElems, ihMapE, ihMsgE1, ihMsgE⟩ := ih
  intro es hm c t
  match es with
  | [] => simp only [Checker.checkElements]; exact CN.refl _ c
  | el :: rest =>
    simp only [Checker.checkElements]
    have h1 : CN (Expr.idListL (el :: rest)) c (c.check el) :=
      CN.mono (by intro j hj; simp [Expr.idListL]; exact Or.inl hj)
        (ihCheck el (by simp_arith at hm ⊢; omega) c)
    have h2 := ((c.check el).joinTypes_cnq ((c.check el).location el) t
      ((c.check el).getType el)).cn (Expr.idListL (el :: rest))
    have h3 : CN (Expr.idListL (el :: rest)) _ _ :=
      CN.mono (by intro j hj; simp [Expr.idListL]; exact Or.inr hj)
        (ihElems rest (by simp_arith at hm ⊢; omega)
          ((c.check el).joinTypes ((c.check el).location el) t ((c.check el).getType el)).2
          ((c.check el).joinTypes ((c.check el).location el) t ((c.check el).getType el)).1)
    exact (h1.trans h2).trans h3

theorem mastercn_mapents (n : Nat) (ih : MasterCN n) :
    ∀ ents : List Entry, 3 * sizeOf ents + 2 ≤ n + 1 → MapEntsCN ents := by
  obtain ⟨ihCheck, ihSel, ihCall, ihCList, ihCStruct, ihCMap, ihCMsg, ihComp,
    ihArgs, ihElems, ihMapE, ihMsgE1, ihMsgE⟩ := ih
  intro ents hm c kT vT
  match ents with
  | [] => simp only [Checker.checkMapEntries]; exact CN.refl _ c
  | .fieldEntry eid fk v :: rest =>
    simp only [Checker.checkMapEntries]
    exact rfl
  | .mapEntry eid k v :: rest =>
    simp only [Checker.checkMapEntries]
    have hsubk : ∀ j, j ∈ Expr.idList k → j ∈ Entry.idListL (.mapEntry eid k v :: rest) := by
      intro j hj; simp [Entry.idListL]; tauto
    have hsubv : ∀ j, j ∈ Expr.idList v → j ∈ Entry.idListL (.mapEntry eid k v :: rest) := by
      intro j hj; simp [Entry.idListL]; tauto
    have hsubr : ∀ j, j ∈ Entry.idListL rest →
        j ∈ Entry.idListL (.mapEntry eid k v :: rest) := by
      intro j hj; simp [Entry.idListL]; tauto
    have h1 : CN (Entry.idListL (.mapEntry eid k v :: rest)) c (c.check k) :=
      CN.mono hsubk (ihCheck k (by simp_arith at hm ⊢; omega) c)
    have h2 := ((c.check k).joinTypes_cnq ((c.check k).location k) kT
      ((c.check k).getType k)).cn (Entry.idListL (.mapEntry eid k v :: rest))
    set c2 := ((c.check k).joinTypes ((c.check k).location k) kT ((c.check k).getType k)).2 with hc2
    have h3 : CN (Entry.idListL (.mapEntry eid k v :: rest)) c2 (c2.check v) :=
      CN.mono hsubv (ihCheck v (by simp_arith at hm ⊢; omega) c2)
    have h4 := ((c2.check v).joinTypes_cnq ((c2.check v).location v) vT
      ((c2.check v).getType v)).cn (Entry.idListL (.mapEntry eid k v :: rest))
    have h5 : CN (Entry.idListL (.mapEntry eid k v :: rest)) _ _ :=
      CN.mono hsubr (ihMapE rest (by simp_arith at hm ⊢; omega)
        ((c2.check v).joinTypes ((c2.check v).location v) vT ((c2.check v).getType v)).2
        ((c.check k).joinTypes ((c.check k).location k) kT ((c.check k).getType k)).1
        ((c2.check v).joinTypes ((c2.check v).location v) vT ((c2.check v).getType v)).1)
    exact (((h1.trans h2).trans h3).trans h4).trans h5

theorem mastercn_msgentry (n : Nat) (ih : MasterCN n) :
    ∀ v : Expr, 3 * sizeOf v + 3 ≤ n + 1 → MsgEntryCN v := by
  obtain ⟨ihCheck, ihSel, ihCall, ihCList, ihCStruct, ihCMap, ihCMsg, ihComp,
    ihArgs, ihElems, ihMapE, ihMsgE1, ihMsgE⟩ := ih
  intro v hm c entId field mt
  simp only [Checker.checkMessageEntry]
  have h1 : CN (Expr.idList v) c (c.check v) :=
    ihCheck v (by omega) c
  set c1 := c.check v with hc1
  have h2 := (c1.lookupFieldType_cnq (c1.locationById entId) mt field).cn (Expr.idList v)
  set c2 := (c1.lookupFieldType (c1.locationById entId) mt field).2 with hc2
  set ft := (match (c1.lookupFieldType (c1.locationById entId) mt field).1 with
    | some t => t.type
    | none => some Ty.error : TyP) with hft
  have h3 := (c2.isAssignable_cnq ft (c2.getType v)).cn (Expr.idList v)
  set c3 := (c2.isAssignable ft (c2.getType v)).2 with hc3
  by_cases hok : (c2.isAssignable ft (c2.getType v)).1 = true
  · simp only [hok, if_true]
    exact (h1.trans h2).trans h3
  · rw [Bool.not_eq_true] at hok
    simp only [hok, if_false]
    exact ((h1.trans h2).trans h3).trans ((c3.addError_cnq _).cn _)

theorem mastercn_msgents (n : Nat) (ih : MasterCN n) :
    ∀ ents : List Entry, 3 * sizeOf ents + 2 ≤ n + 1 → MsgEntsCN ents := by
  obtain ⟨ihCheck, ihSel, ihCall, ihCList, ihCStruct, ihCMap, ihCMsg, ihComp,
    ihArgs, ihElems, ihMapE, ihMsgE1, ihMsgE⟩ := ih
  intro ents hm c mt
  match ents with
  | [] => simp only [Checker.checkMessageEntries]; exact CN.refl _ c
  | .fieldEntry eid fk v :: rest =>
    simp only [Checker.checkMessageEntries]
    have h1 : CN (Entry.idListL (.fieldEntry eid fk v :: rest)) c
        (c.checkMessageEntry eid fk v mt) :=
      CN.mono (by intro j hj; simp [Entry.idListL]; tauto)
        (ihMsgE1 v (by simp_arith at hm ⊢; omega) c eid fk mt)
    have h2 : CN (Entry.idListL (.fieldEntry eid fk v :: rest)) _ _ :=
      CN.mono (by intro j hj; simp [Entry.idListL]; tauto)
        (ihMsgE rest (by simp_arith at hm ⊢; omega) (c.checkMessageEntry eid fk v mt) mt)
    exact h1.trans h2
  | .mapEntry eid mk v :: rest =>
    simp only [Checker.checkMessageEntries]
    have h1 : CN (Entry.idListL (.mapEntry eid mk v :: rest)) c
        (c.checkMessageEntry eid "" v mt) :=
      CN.mono (by intro j hj; simp [Entry.idListL]; tauto)
        (ihMsgE1 v (by simp_arith at hm ⊢; omega) c eid "" mt)
    have h2 : CN (Entry.idListL (.mapEntry eid mk v :: rest)) _ _ :=
      CN.mono (by intro j hj; simp [Entry.idListL]; tauto)
        (ihMsgE rest (by simp_arith at hm ⊢; omega) (c.checkMessageEntry eid "" v mt) mt)
    exact h1.trans h2

theorem mastercn_clist (n : Nat) (ih : MasterCN n) :
    ∀ e : Expr, 3 * sizeOf e + 1 ≤ n + 1 → CreateListCN e := by
  obtain ⟨ihCheck, ihSel, ihCall, ihCList, ihCStruct, ihCMap, ihCMsg, ihComp,
    ihArgs, ihElems, ihMapE, ihMsgE1, ihMsgE⟩ := ih
  intro e hm c
  match e with
  | .constE i con => simp only [Checker.checkCreateList]; exact CN.refl _ c
  | .identE i nm => simp only [Checker.checkCreateList]; exact CN.refl _ c
  | .callE i tgt f args => simp only [Checker.checkCreateList]; exact CN.refl _ c
  | .selectE i op f tb => simp only [Checker.checkCreateList]; exact CN.refl _ c
  | .structE i mn ents => simp only [Checker.checkCreateList]; exact CN.refl _ c
  | .comprehensionE i iv ir av ai lc ls r =>
    simp only [Checker.checkCreateList]; exact CN.refl _ c
  | .listE i es =>
    have hmem : Expr.exprId (.listE i es) ∈ Expr.idList (.listE i es) := by
      simp [Expr.idList, Expr.exprId]
    simp only [Checker.checkCreateList]
    have h1 : CN (Expr.idList (.listE i es)) c (c.checkElements es none).1 :=
      CN.mono (by intro j hj; simp [Expr.idList]; exact Or.inr hj)
        (ihElems es (by simp_arith at hm ⊢; omega) c none)
    cases ht : (c.checkElements es none).2 with
    | none =>
      exact h1.trans ((((c.checkElements es none).1.newTypeVar_cnq).cn _).trans
        (Checker.setType_cnm _ _ _ hmem))
    | some t0 =>
      exact h1.trans (Checker.setType_cnm _ _ _ hmem)

theorem mastercn_cmap (n : Nat) (ih : MasterCN n) :
    ∀ e : Expr, 3 * sizeOf e ≤ n + 1 → CreateMapCN e := by
  obtain ⟨ihCheck, ihSel, ihCall, ihCList, ihCStruct, ihCMap, ihCMsg, ihComp,
    ihArgs, ihElems, ihMapE, ihMsgE1, ihMsgE⟩ := ih
  intro e hm c
  match e with
  | .constE i con => simp only [Checker.checkCreateMap]; exact CN.refl _ c
  | .identE i nm => simp only [Checker.checkCreateMap]; exact CN.refl _ c
  | .callE i tgt f args => simp only [Checker.checkCreateMap]; exact CN.refl _ c
  | .selectE i op f tb => simp only [Checker.checkCreateMap]; exact CN.refl _ c
  | .listE i es => simp only [Checker.checkCreateMap]; exact CN.refl _ c
  | .comprehensionE i iv ir av ai lc ls r =>
    simp only [Checker.checkCreateMap]; exact CN.refl _ c
  | .structE i mn ents =>
    have hmem : Expr.exprId (.structE i mn ents) ∈ Expr.idList (.structE i mn ents) := by
      simp [Expr.idList, Expr.exprId]
    simp only [Checker.checkCreateMap]
    have h1 : CN (Expr.idList (.structE i mn ents)) c (c.checkMapEntries ents none none).1 :=
      CN.mono (by intro j hj; simp [Expr.idList]; exact Or.inr hj)
        (ihMapE ents (by simp_arith at hm ⊢; omega) c none none)
    cases ht : (c.checkMapEntries ents none none).2.1 with
    | none =>
      exact h1.trans (((((c.checkMapEntries ents none none).1.newTypeVar_cnq).trans
        ((c.checkMapEntries ents none none).1.newTypeVar.2.newTypeVar_cnq)).cn _).trans
        (Checker.setType_cnm _ _ _ hmem))
    | some kt =>
      exact h1.trans (Checker.setType_cnm _ _ _ hmem)

theorem mastercn_cmsg (n : Nat) (ih : MasterCN n) :
    ∀ e : Expr, 3 * sizeOf e ≤ n + 1 → CreateMessageCN e := by
  obtain ⟨ihCheck, ihSel, ihCall, ihCList, ihCStruct, ihCMap, ihCMsg, ihComp,
    ihArgs, ihElems, ihMapE, ihMsgE1, ihMsgE⟩ := ih
  intro e hm c
  match e with
  | .constE i con => simp only [Checker.checkCreateMessage]; exact CN.refl _ c
  | .identE i nm => simp only [Checker.checkCreateMessage]; exact CN.refl _ c
  | .callE i tgt f args => simp only [Checker.checkCreateMessage]; exact CN.refl _ c
  | .selectE i op f tb => simp only [Checker.checkCreateMessage]; exact CN.refl _ c
  | .listE i es => simp only [Checker.checkCreateMessage]; exact CN.refl _ c
  | .comprehensionE i iv ir av ai lc ls r =>
    simp only [Checker.checkCreateMessage]; exact CN.refl _ c
  | .structE i mn ents =>
    have hmem : Expr.exprId (.structE i mn ents) ∈ Expr.idList (.structE i mn ents) := by
      simp [Expr.idList, Expr.exprId]
    cases hd : lookupIdent c.env.scopes c.container mn with
    | none =>
      simp only [Checker.checkCreateMessage, hd]
      exact (c.addError_cnq _).cn _
    | some decl =>
      simp only [Checker.checkCreateMessage, hd]
      have h1 : CN (Expr.idList (.structE i mn ents)) c
          (c.setReference (.structE i mn ents) (newIdentReference decl.name none)) :=
        Checker.setReference_cnm _ _ _ hmem
      set c1 := c.setReference (.structE i mn ents) (newIdentReference decl.name none)
        with hc1
      have hq : ∀ c2 : Checker, CNQ c1 c2 →
          CN (Expr.idList (.structE i mn ents)) c
            (((c2.setType (.structE i mn ents)
              (some Ty.error)).checkMessageEntries ents (some Ty.error))) ∧
          CN (Expr.idList (.structE i mn ents)) c
            (Checker.checkMessageEntries
              (c2.setType (.structE i mn ents)
                (match decl.type with | some (.type inner) => some inner | _ => none))
              ents
              (match decl.type with | some (.type inner) => some inner | _ => none)) := by
        intro c2 hq2
        constructor
        · exact ((h1.trans (hq2.cn _)).trans (Checker.setType_cnm _ _ _ hmem)).trans
            (CN.mono (by intro j hj; simp [Expr.idList]; exact Or.inr hj)
              (ihMsgE ents (by simp_arith at hm ⊢; omega) _ _))
        · exact ((h1.trans (hq2.cn _)).trans (Checker.setType_cnm _ _ _ hmem)).trans
            (CN.mono (by intro j hj; simp [Expr.idList]; exact Or.inr hj)
              (ihMsgE ents (by simp_arith at hm ⊢; omega) _ _))
      by_cases hk1 : KindOfP decl.type ≠ Kind.kindError
      · rw [if_pos hk1]
        by_cases hk2 : KindOfP decl.type ≠ Kind.kindType
        · rw [if_pos hk2]
          exact (hq _ (c1.addError_cnq _)).1
        · rw [if_neg hk2]
          by_cases hk3 : KindOfP (match decl.type with
            | some (.type inner) => some inner
            | _ => none : TyP) ≠ Kind.kindObject
          · rw [if_pos hk3]
            exact (hq _ (c1.addError_cnq _)).1
          · rw [if_neg hk3]
            exact (hq _ (CNQ.refl c1)).2
      · rw [if_neg hk1]
        exact (hq _ (CNQ.refl c1)).1

theorem mastercn_cstruct (n : Nat) (ih : MasterCN n) :
    ∀ e : Expr, 3 * sizeOf e + 1 ≤ n + 1 → CreateStructCN e := by
  have ihCMap := ih.2.2.2.2.2.1
  have ihCMsg := ih.2.2.2.2.2.2.1
  intro e hm c
  match e with
  | .constE i con => simp only [Checker.checkCreateStruct]; exact CN.refl _ c
  | .identE i nm => simp only [Checker.checkCreateStruct]; exact CN.refl _ c
  | .callE i tgt f args => simp only [Checker.checkCreateStruct]; exact CN.refl _ c
  | .selectE i op f tb => simp only [Checker.checkCreateStruct]; exact CN.refl _ c
  | .listE i es => simp only [Checker.checkCreateStruct]; exact CN.refl _ c
  | .comprehensionE i iv ir av ai lc ls r =>
    simp only [Checker.checkCreateStruct]; exact CN.refl _ c
  | .structE i mn ents =>
    simp only [Checker.checkCreateStruct]
    by_cases hmn : mn ≠ ""
    · rw [if_pos hmn]
      exact ihCMsg (.structE i mn ents) (by omega) c
    · rw [if_neg hmn]
      exact ihCMap (.structE i mn ents) (by omega) c

theorem mastercn_call (n : Nat) (ih : MasterCN n) :
    ∀ e : Expr, 3 * sizeOf e + 1 ≤ n + 1 → CallCN e := by
  obtain ⟨ihCheck, ihSel, ihCall, ihCList, ihCStruct, ihCMap, ihCMsg, ihComp,
    ihArgs, ihElems, ihMapE, ihMsgE1, ihMsgE⟩ := ih
  intro e hm c
  match e with
  | .constE i con => simp only [Checker.checkCall]; exact CN.refl _ c
  | .identE i nm => simp only [Checker.checkCall]; exact CN.refl _ c
  | .selectE i op f tb => simp only [Checker.checkCall]; exact CN.refl _ c
  | .listE i es => simp only [Checker.checkCall]; exact CN.refl _ c
  | .structE i mn ents => simp only [Checker.checkCall]; exact CN.refl _ c
  | .comprehensionE i iv ir av ai lc ls r =>
    simp only [Checker.checkCall]; exact CN.refl _ c
  | .callE i tgt f args =>
    have hmem : Expr.exprId (.callE i tgt f args) ∈ Expr.idList (.callE i tgt f args) := by
      cases tgt <;> simp [Expr.idList, Expr.exprId]
    have hargs : CN (Expr.idList (.callE i tgt f args)) c (c.checkArgs args) := by
      refine CN.mono ?_ (ihArgs args (by simp_arith at hm ⊢; omega) c)
      intro j hj
      cases tgt <;> simp [Expr.idList] <;> tauto
    cases tgt with
    | none =>
      cases hlf : lookupFunction (c.checkArgs args).env.scopes
          (c.checkArgs args).container f with
      | some fn =>
        cases hro : (c.checkArgs args).resolveOverload
            ((c.checkArgs args).location (.callE i none f args)) fn none args with
        | mk res? c2 =>
          have hq : CNQ (c.checkArgs args) c2 := by
            have := (c.checkArgs args).resolveOverload_cnq
              ((c.checkArgs args).location (.callE i none f args)) fn none args
            rw [hro] at this
            exact this
          cases res? with
          | some res =>
            simp only [Checker.checkCall, hlf, hro]
            exact ((hargs.trans (hq.cn _)).trans
              (Checker.setType_cnm _ _ _ hmem)).trans (Checker.setReference_cnm _ _ _ hmem)
          | none =>
            simp only [Checker.checkCall, hlf, hro]
            exact (hargs.trans (hq.cn _)).trans (Checker.setType_cnm _ _ _ hmem)
      | none =>
        simp only [Checker.checkCall, hlf]
        exact (hargs.trans (((c.checkArgs args).addError_cnq _).cn _)).trans
          (Checker.setType_cnm _ _ _ hmem)
    | some tgt =>
      have hsubt : ∀ j, j ∈ Expr.idList tgt →
          j ∈ Expr.idList (.callE i (some tgt) f args) := by
        intro j hj
        simp [Expr.idList]
        tauto
      have htm : 3 * sizeOf tgt + 2 ≤ n := by simp_arith at hm ⊢; omega
      cases hqn : asQualifiedName tgt with
      | none =>
        have htgt : CN (Expr.idList (.callE i (some tgt) f args)) _
            ((c.checkArgs args).check tgt) :=
          CN.mono hsubt (ihCheck tgt htm (c.checkArgs args))
        cases hlf : lookupFunction ((c.checkArgs args).check tgt).env.scopes
            ((c.checkArgs args).check tgt).container f with
        | some fn =>
          cases hro : ((c.checkArgs args).check tgt).resolveOverload
              (((c.checkArgs args).check tgt).location (.callE i (some tgt) f args))
              fn (some tgt) args with
          | mk res? c3 =>
            have hq : CNQ ((c.checkArgs args).check tgt) c3 := by
              have := ((c.checkArgs args).check tgt).resolveOverload_cnq
                (((c.checkArgs args).check tgt).location (.callE i (some tgt) f args))
                fn (some tgt) args
              rw [hro] at this
              exact this
            cases res? with
            | some res =>
              simp only [Checker.checkCall, hqn, hlf, hro]
              exact (((hargs.trans htgt).trans (hq.cn _)).trans
                (Checker.setType_cnm _ _ _ hmem)).trans (Checker.setReference_cnm _ _ _ hmem)
            | none =>
              simp only [Checker.checkCall, hqn, hlf, hro]
              exact ((hargs.trans htgt).trans (hq.cn _)).trans (Checker.setType_cnm _ _ _ hmem)
        | none =>
          simp only [Checker.checkCall, hqn, hlf]
          exact ((hargs.trans htgt).trans
            ((Checker.addError_cnq _ _).cn _)).trans (Checker.setType_cnm _ _ _ hmem)
      | some q =>
        cases hlf1 : lookupFunction (c.checkArgs args).env.scopes
            (c.checkArgs args).container (q ++ "." ++ f) with
        | some fn =>
          cases hro1 : (c.checkArgs args).resolveOverload
              ((c.checkArgs args).location (.callE i (some tgt) f args)) fn none args with
          | mk res1? c2 =>
            have hq1 : CNQ (c.checkArgs args) c2 := by
              have := (c.checkArgs args).resolveOverload_cnq
                ((c.checkArgs args).location (.callE i (some tgt) f args)) fn none args
              rw [hro1] at this
              exact this
            cases res1? with
            | some res =>
              simp only [Checker.checkCall, hqn, hlf1, hro1]
              exact ((hargs.trans (hq1.cn _)).trans
                (Checker.setType_cnm _ _ _ hmem)).trans (Checker.setReference_cnm _ _ _ hmem)
            | none =>
              have htgt : CN (Expr.idList (.callE i (some tgt) f args)) _ (c2.check tgt) :=
                CN.mono hsubt (ihCheck tgt htm c2)
              cases hlf2 : lookupFunction (c2.check tgt).env.scopes
                  (c2.check tgt).container f with
              | some fn2 =>
                cases hro2 : (c2.check tgt).resolveOverload
                    ((c2.check tgt).location (.callE i (some tgt) f args))
                    fn2 (some tgt) args with
                | mk res2? c3 =>
                  have hq2 : CNQ (c2.check tgt) c3 := by
                    have := (c2.check tgt).resolveOverload_cnq
                      ((c2.check tgt).location (.callE i (some tgt) f args))
                      fn2 (some tgt) args
                    rw [hro2] at this
                    exact this
                  cases res2? with
                  | some res =>
                    simp only [Checker.checkCall, hqn, hlf1, hro1, hlf2, hro2]
                    exact ((((hargs.trans (hq1.cn _)).trans htgt).trans (hq2.cn _)).trans
                      (Checker.setType_cnm _ _ _ hmem)).trans
                      (Checker.setReference_cnm _ _ _ hmem)
                  | none =>
                    simp only [Checker.checkCall, hqn, hlf1, hro1, hlf2, hro2]
                    exact (((hargs.trans (hq1.cn _)).trans htgt).trans (hq2.cn _)).trans
                      (Checker.setType_cnm _ _ _ hmem)
              | none =>
                simp only [Checker.checkCall, hqn, hlf1, hro1, hlf2]
                exact (((hargs.trans (hq1.cn _)).trans htgt).trans
                  ((Checker.addError_cnq _ _).cn _)).trans (Checker.setType_cnm _ _ _ hmem)
        | none =>
          have htgt : CN (Expr.idList (.callE i (some tgt) f args)) _
              ((c.checkArgs args).check tgt) :=
            CN.mono hsubt (ihCheck tgt htm (c.checkArgs args))
          cases hlf2 : lookupFunction ((c.checkArgs args).check tgt).env.scopes
              ((c.checkArgs args).check tgt).container f with
          | some fn2 =>
            cases hro2 : ((c.checkArgs args).check tgt).resolveOverload
                (((c.checkArgs args).check tgt).location (.callE i (some tgt) f args))
                fn2 (some tgt) args with
            | mk res2? c3 =>
              have hq2 : CNQ ((c.checkArgs args).check tgt) c3 := by
                have := ((c.checkArgs args).check tgt).resolveOverload_cnq
                  (((c.checkArgs args).check tgt).location (.callE i (some tgt) f args))
                  fn2 (some tgt) args
                rw [hro2] at this
                exact this
              cases res2? with
              | some res =>
                simp only [Checker.checkCall, hqn, hlf1, hlf2, hro2]
                exact (((hargs.trans htgt).trans (hq2.cn _)).trans
                  (Checker.setType_cnm _ _ _ hmem)).trans (Checker.setReference_cnm _ _ _ hmem)
              | none =>
                simp only [Checker.checkCall, hqn, hlf1, hlf2, hro2]
                exact ((hargs.trans htgt).trans (hq2.cn _)).trans
                  (Checker.setType_cnm _ _ _ hmem)
          | none =>
            simp only [Checker.checkCall, hqn, hlf1, hlf2]
            exact ((hargs.trans htgt).trans
              ((Checker.addError_cnq _ _).cn _)).trans (Checker.setType_cnm _ _ _ hmem)

theorem mastercn_comp (n : Nat) (ih : MasterCN n) :
    ∀ e : Expr, 3 * sizeOf e + 1 ≤ n + 1 → ComprehensionCN e := by
  obtain ⟨ihCheck, ihSel, ihCall, ihCList, ihCStruct, ihCMap, ihCMsg, ihComp,
    ihArgs, ihElems, ihMapE, ihMsgE1, ihMsgE⟩ := ih
  intro e hm c
  match e with
  | .constE i con => simp only [Checker.checkComprehension]; exact CN.refl _ c
  | .identE i nm => simp only [Checker.checkComprehension]; exact CN.refl _ c
  | .selectE i op f tb => simp only [Checker.checkComprehension]; exact CN.refl _ c
  | .listE i es => simp only [Checker.checkComprehension]; exact CN.refl _ c
  | .structE i mn ents => simp only [Checker.checkComprehension]; exact CN.refl _ c
  | .callE i tgt f args => simp only [Checker.checkComprehension]; exact CN.refl _ c
  | .comprehensionE i iv ir av ai cond step res =>
    have hmain : ∀ (c2 : Checker) (vT : TyP),
        CNQ ((c.check ir).check ai) c2 →
        CN (Expr.idList (.comprehensionE i iv ir av ai cond step res)) c
          (Checker.setType
            (compBody c2 iv av (((c.check ir).check ai).getType ai) vT cond step res)
            (.comprehensionE i iv ir av ai cond step res)
            (Checker.getType
              (compBody c2 iv av (((c.check ir).check ai).getType ai) vT cond step res)
              res)) := by
      intro c2 vT hq2
      have hir : (Checker.check c ir).container = c.container :=
        ihCheck ir (by simp_arith at hm ⊢; omega) c
      have hai : (Checker.check (c.check ir) ai).container
          = (Checker.check c ir).container :=
        ihCheck ai (by simp_arith at hm ⊢; omega) (c.check ir)
      have hq2' : c2.container = ((c.check ir).check ai).container := hq2
      have hcb : (compBody c2 iv av (((c.check ir).check ai).getType ai) vT
          cond step res).container = c2.container :=
        compBody_container c2 iv av (((c.check ir).check ai).getType ai) vT cond step res
          (fun cx => ihCheck cond (by simp_arith at hm ⊢; omega) cx)
          (fun cx => ihCheck step (by simp_arith at hm ⊢; omega) cx)
          (fun cx => ihCheck res (by simp_arith at hm ⊢; omega) cx)
      exact (Checker.setType_container _ _ _).trans
        (hcb.trans (hq2'.trans (hai.trans hir)))
    cases hk : KindOfP (((c.check ir).check ai).getType ir) with
    | kindList =>
      simp only [Checker.checkComprehension, hk]
      exact hmain _ _ (CNQ.refl _)
    | kindMap =>
      simp only [Checker.checkComprehension, hk]
      exact hmain _ _ (CNQ.refl _)
    | kindDyn =>
      simp only [Checker.checkComprehension, hk]
      exact hmain _ _ (CNQ.refl _)
    | kindError =>
      simp only [Checker.checkComprehension, hk]
      exact hmain _ _ (CNQ.refl _)
    | kindNull =>
      simp only [Checker.checkComprehension, hk]
      exact hmain _ _ (Checker.addError_cnq _ _)
    | kindBool =>
      simp only [Checker.checkComprehension, hk]
      exact hmain _ _ (Checker.addError_cnq _ _)
    | kindInt64 =>
      simp only [Checker.checkComprehension, hk]
      exact hmain _ _ (Checker.addError_cnq _ _)
    | kindUint64 =>
      simp only [Checker.checkComprehension, hk]
      exact hmain _ _ (Checker.addError_cnq _ _)
    | kindDouble =>
      simp only [Checker.checkComprehension, hk]
      exact hmain _ _ (Checker.addError_cnq _ _)
    | kindString =>
      simp only [Checker.checkComprehension, hk]
      exact hmain _ _ (Checker.addError_cnq _ _)
    | kindBytes =>
      simp only [Checker.checkComprehension, hk]
      exact hmain _ _ (Checker.addError_cnq _ _)
    | kindObject =>
      simp only [Checker.checkComprehension, hk]
      exact hmain _ _ (Checker.addError_cnq _ _)
    | kindType =>
      simp only [Checker.checkComprehension, hk]
      exact hmain _ _ (Checker.addError_cnq _ _)
    | kindTypeParam =>
      simp only [Checker.checkComprehension, hk]
      exact hmain _ _ (Checker.addError_cnq _ _)
    | kindFunction =>
      simp only [Checker.checkComprehension, hk]
      exact hmain _ _ (Checker.addError_cnq _ _)
    | kindWellKnown =>
      simp only [Checker.checkComprehension, hk]
      exact hmain _ _ (Checker.addError_cnq _ _)
    | kindUnknown =>
      simp only [Checker.checkComprehension, hk]
      exact hmain _ _ (Checker.addError_cnq _ _)

theorem mastercn_succ (n : Nat) (ih : MasterCN n) : MasterCN (n + 1) :=
  ⟨mastercn_check n ih, mastercn_select n ih, mastercn_call n ih, mastercn_clist n ih,
   mastercn_cstruct n ih, mastercn_cmap n ih, mastercn_cmsg n ih, mastercn_comp n ih,
   mastercn_args n ih, mastercn_elems n ih, mastercn_mapents n ih, mastercn_msgentry n ih,
   mastercn_msgents n ih⟩

theorem masterCN (n : Nat) : MasterCN n := by
  induction n with
  | zero => exact mastercn_zero
  | succ n ih => exact mastercn_succ n ih

/-- The walker never changes the `container` field. -/
theorem check_container (e : Expr) (c : Checker) :
    (Checker.check c e).container = c.container :=
  (masterCN (3 * sizeOf e + 2)).1 e le_rfl c

/-! ## C5: no matching overload -/

theorem setType_references (c : Checker) (e : Expr) (t : TyP) :
    (c.setType e t).references = c.references := by
  rw [Checker.setType]
  cases h : findId c.types e.exprId with
  | some old => by_cases heq : old = t <;> simp [heq]
  | none => rfl

theorem mem_addError (c : Checker) (d : Diag) : d ∈ (c.addError d).env.errors := by
  rw [Checker.addError]
  exact List.mem_append_right _ (List.mem_singleton.mpr rfl)

theorem resolveOverload_none_static (c : Checker) (loc : Loc) (fn : FuncDecl)
    (args : List Expr)
    (h : (c.resolveOverload loc fn none args).1 = none) :
    (c.resolveOverload loc fn none args).2 =
      (Checker.overloadLoop (args.map (fun a => c.getType a)) false c none none
          fn.overloads).1.addError
        (.noMatchingOverload loc fn.name (args.map (fun a => c.getType a)) false) := by
  rw [Checker.resolveOverload.eq_def] at h ⊢
  dsimp only at h ⊢
  split at h
  · rfl
  · dsimp only at h
    cases h

theorem resolveOverload_none_instance (c : Checker) (loc : Loc) (fn : FuncDecl)
    (t : Expr) (args : List Expr)
    (h : (c.resolveOverload loc fn (some t) args).1 = none) :
    (c.resolveOverload loc fn (some t) args).2 =
      (Checker.overloadLoop ([c.getType t] ++ args.map (fun a => c.getType a)) true c
          none none fn.overloads).1.addError
        (.noMatchingOverload loc fn.name
          ([c.getType t] ++ args.map (fun a => c.getType a)) true) := by
  rw [Checker.resolveOverload.eq_def] at h ⊢
  dsimp only at h ⊢
  split at h
  · rfl
  · dsimp only at h
    cases h

theorem checkArgs_covers (args : List Expr) :
    ∀ (c : Checker) (a : Expr), a ∈ args →
    (∀ (j : Nat) (mn : String) (ents : List Entry), a = Expr.structE j mn ents →
      mn ≠ "" → lookupIdent c.env.scopes c.container mn ≠ none) →
    findId ((c.checkArgs args).types) a.exprId ≠ none := by
  induction args with
  | nil => intro c a ha; cases ha
  | cons b rest ih =>
    intro c a ha hns
    simp only [Checker.checkArgs]
    rcases List.mem_cons.mp ha with rfl | hmem
    · have h1 := check_covers_root a c
        (by rintro ⟨j, mn, ents, rfl, hmn, hlk⟩; exact hns j mn ents rfl hmn hlk)
      cases hv : findId ((c.check a).types) a.exprId with
      | none => exact absurd hv h1
      | some v =>
        have h2 := (checkArgs_stepOK rest (c.check a)).1 a.exprId v hv
        intro hC
        rw [h2] at hC
        cases hC
    · refine ih (c.check b) a hmem ?_
      intro j mn ents hEq hmn
      rw [check_scopes, check_container]
      exact hns j mn ents hEq hmn

/-- C5: whenever the function declaration is found but overload
resolution fails, the call node is typed `Error` on the post-resolution
state, a no-matching-overload diagnostic carrying the function name, the
checked argument types and the call style reaches the final error sink,
no reference is written at the call id, and the argument subtrees have
still been type-checked: every argument root keeps a `types` entry
except possibly a struct-literal argument whose message name does not
resolve.  The first conjunct is the receiver-less (static) case with
`isInstance = false`; the second is the instance call on a receiver with
no qualified-name form, whose diagnostic prepends the receiver's type to
the argument types and carries `isInstance = true`; the third
establishes the same typing and diagnostic for the shared instance tail
of `checkCall` from an arbitrary starting state, which by the
receiver-call decomposition also covers the instance calls entered after
a failed qualified lookup or after a failed static resolution. -/
theorem c5_no_matching_overload :
    (∀ (c : Checker) (i : Nat) (fnName : String) (args : List Expr) (fn : FuncDecl),
      lookupFunction (c.checkArgs args).env.scopes (c.checkArgs args).container
        fnName = some fn →
      ((c.checkArgs args).resolveOverload
        ((c.checkArgs args).location (.callE i none fnName args)) fn none args).1 = none →
      Checker.checkCall c (.callE i none fnName args) =
        Checker.setType
          ((c.checkArgs args).resolveOverload
            ((c.checkArgs args).location (.callE i none fnName args)) fn none args).2
          (.callE i none fnName args) (some .error) ∧
      Diag.noMatchingOverload ((c.checkArgs args).location (.callE i none fnName args))
          fn.name (args.map (fun a => (c.checkArgs args).getType a)) false ∈
        (Checker.checkCall c (.callE i none fnName args)).env.errors ∧
      (i ∉ Expr.idListL args →
        findId ((Checker.checkCall c (.callE i none fnName args)).references) i
          = findId c.references i) ∧
      (∀ a, a ∈ args →
        (∀ (j : Nat) (mn : String) (ents : List Entry), a = Expr.structE j mn ents →
          mn ≠ "" → lookupIdent c.env.scopes c.container mn ≠ none) →
        findId ((Checker.checkCall c (.callE i none fnName args)).types) a.exprId
          ≠ none)) ∧
    (∀ (c : Checker) (i : Nat) (tgt : Expr) (fnName : String) (args : List Expr)
        (fn : FuncDecl),
      asQualifiedName tgt = none →
      lookupFunction ((c.checkArgs args).check tgt).env.scopes
        ((c.checkArgs args).check tgt).container fnName = some fn →
      (((c.checkArgs args).check tgt).resolveOverload
        (((c.checkArgs args).check tgt).location (.callE i (some tgt) fnName args))
        fn (some tgt) args).1 = none →
      Checker.checkCall c (.callE i (some tgt) fnName args) =
        Checker.setType
          (((c.checkArgs args).check tgt).resolveOverload
            (((c.checkArgs args).check tgt).location (.callE i (some tgt) fnName args))
            fn (some tgt) args).2
          (.callE i (some tgt) fnName args) (some .error) ∧
      Diag.noMatchingOverload
          (((c.checkArgs args).check tgt).location (.callE i (some tgt) fnName args))
          fn.name
          ([((c.checkArgs args).check tgt).getType tgt]
            ++ args.map (fun a => ((c.checkArgs args).check tgt).getType a)) true ∈
        (Checker.checkCall c (.callE i (some tgt) fnName args)).env.errors ∧
      (i ∉ Expr.idListL args → i ∉ Expr.idList tgt →
        findId ((Checker.checkCall c (.callE i (some tgt) fnName args)).references) i
          = findId c.references i) ∧
      (∀ a, a ∈ args →
        (∀ (j : Nat) (mn : String) (ents : List Entry), a = Expr.structE j mn ents →
          mn ≠ "" → lookupIdent c.env.scopes c.container mn ≠ none) →
        findId ((Checker.checkCall c (.callE i (some tgt) fnName args)).types) a.exprId
          ≠ none)) ∧
    (∀ (c0 : Checker) (i : Nat) (tgt : Expr) (fnName : String) (args : List Expr)
        (fn : FuncDecl),
      lookupFunction (Checker.check c0 tgt).env.scopes (Checker.check c0 tgt).container
        fnName = some fn →
      ((Checker.check c0 tgt).resolveOverload
        ((Checker.check c0 tgt).location (.callE i (some tgt) fnName args))
        fn (some tgt) args).1 = none →
      instanceCallPath c0 (.callE i (some tgt) fnName args) tgt fnName args =
        Checker.setType
          ((Checker.check c0 tgt).resolveOverload
            ((Checker.check c0 tgt).location (.callE i (some tgt) fnName args))
            fn (some tgt) args).2
          (.callE i (some tgt) fnName args) (some .error) ∧
      Diag.noMatchingOverload
          ((Checker.check c0 tgt).location (.callE i (some tgt) fnName args)) fn.name
          ([(Checker.check c0 tgt).getType tgt]
            ++ args.map (fun a => (Checker.check c0 tgt).getType a)) true ∈
        (instanceCallPath c0 (.callE i (some tgt) fnName args) tgt
          fnName args).env.errors) := by
  refine ⟨?_, ?_, ?_⟩
  · intro c i fnName args fn hlf hres
    have heq : Checker.checkCall c (.callE i none fnName args) =
        Checker.setType
          ((c.checkArgs args).resolveOverload
            ((c.checkArgs args).location (.callE i none fnName args)) fn none args).2
          (.callE i none fnName args) (some .error) := by
      simp only [Checker.checkCall, hlf]
      cases hpair : (c.checkArgs args).resolveOverload
          ((c.checkArgs args).location (.callE i none fnName args)) fn none args with
      | mk o c2 =>
        rw [hpair] at hres
        dsimp only at hres
        subst hres
        rfl
    refine ⟨heq, ?_, ?_, ?_⟩
    · rw [heq, setType_errors,
        resolveOverload_none_static _ _ _ _ hres]
      exact mem_addError _ _
    · intro hi
      rw [heq, setType_references,
        ((c.checkArgs args).resolveOverload_quiet
          ((c.checkArgs args).location (.callE i none fnName args)) fn none args).2.1]
      have st := checkArgs_stepOK args c
      cases hv : findId c.references i with
      | some r => exact st.2.1 i r hv
      | none => exact st.2.2.2.1 i hi hv
    · intro a ha hns
      rw [heq]
      have h1 := checkArgs_covers args c a ha hns
      cases hv : findId ((c.checkArgs args).types) a.exprId with
      | none => exact absurd hv h1
      | some v =>
        have h2 : findId (((c.checkArgs args).resolveOverload
            ((c.checkArgs args).location (.callE i none fnName args)) fn none
            args).2.types) a.exprId = some v := by
          rw [((c.checkArgs args).resolveOverload_quiet
            ((c.checkArgs args).location (.callE i none fnName args)) fn none args).1]
          exact hv
        have h3 := (Checker.setType_stepOK _ (.callE i none fnName args)
          (some .error)).1.1 a.exprId v h2
        intro hC
        rw [h3] at hC
        cases hC
  · intro c i tgt fnName args fn hqn hlf hres
    have heq : Checker.checkCall c (.callE i (some tgt) fnName args) =
        Checker.setType
          (((c.checkArgs args).check tgt).resolveOverload
            (((c.checkArgs args).check tgt).location (.callE i (some tgt) fnName args))
            fn (some tgt) args).2
          (.callE i (some tgt) fnName args) (some .error) := by
      simp only [Checker.checkCall, hqn, hlf]
      cases hpair : ((c.checkArgs args).check tgt).resolveOverload
          (((c.checkArgs args).check tgt).location (.callE i (some tgt) fnName args))
          fn (some tgt) args with
      | mk o c3 =>
        rw [hpair] at hres
        dsimp only at hres
        subst hres
        rfl
    refine ⟨heq, ?_, ?_, ?_⟩
    · rw [heq, setType_errors,
        resolveOverload_none_instance _ _ _ _ _ hres]
      exact mem_addError _ _
    · intro hia hit
      rw [heq, setType_references,
        (((c.checkArgs args).check tgt).resolveOverload_quiet
          (((c.checkArgs args).check tgt).location (.callE i (some tgt) fnName args))
          fn (some tgt) args).2.1]
      have stA := checkArgs_stepOK args c
      have stT := check_stepOK tgt (c.checkArgs args)
      cases hv : findId c.references i with
      | some r => exact stT.2.1 i r (stA.2.1 i r hv)
      | none => exact stT.2.2.2.1 i hit (stA.2.2.2.1 i hia hv)
    · intro a ha hns
      rw [heq]
      have h1 := checkArgs_covers args c a ha hns
      cases hv : findId ((c.checkArgs args).types) a.exprId with
      | none => exact absurd hv h1
      | some v =>
        have h2 := (check_stepOK tgt (c.checkArgs args)).1 a.exprId v hv
        have h3 : findId ((((c.checkArgs args).check tgt).resolveOverload
            (((c.checkArgs args).check tgt).location (.callE i (some tgt) fnName args))
            fn (some tgt) args).2.types) a.exprId = some v := by
          rw [(((c.checkArgs args).check tgt).resolveOverload_quiet
            (((c.checkArgs args).check tgt).location (.callE i (some tgt) fnName args))
            fn (some tgt) args).1]
          exact h2
        have h4 := (Checker.setType_stepOK _ (.callE i (some tgt) fnName args)
          (some .error)).1.1 a.exprId v h3
        intro hC
        rw [h4] at hC
        cases hC
  · intro c0 i tgt fnName args fn hlf hres
    have heq : instanceCallPath c0 (.callE i (some tgt) fnName args) tgt fnName args =
        Checker.setType
          ((Checker.check c0 tgt).resolveOverload
            ((Checker.check c0 tgt).location (.callE i (some tgt) fnName args))
            fn (some tgt) args).2
          (.callE i (some tgt) fnName args) (some .error) := by
      simp only [instanceCallPath, hlf]
      cases hpair : (Checker.check c0 tgt).resolveOverload
          ((Checker.check c0 tgt).location (.callE i (some tgt) fnName args))
          fn (some tgt) args with
      | mk o c3 =>
        rw [hpair] at hres
        dsimp only at hres
        subst hres
        rfl
    refine ⟨heq, ?_⟩
    rw [heq, setType_errors,
      resolveOverload_none_instance _ _ _ _ _ hres]
    exact mem_addError _ _

/-! ## C6 and C10: test-only selection -/

theorem setType_fresh (c : Checker) (e : Expr) (t : TyP)
    (h : findId c.types e.exprId = none) :
    findId ((c.setType e t).types) e.exprId = some t := by
  rw [Checker.setType, h]
  simp [findId]

/-- C6: a test-only selection node (the has(x.f) form) whose id is fresh
and does not occur in the operand subtree ends up typed `Bool` in every
branch of `checkSelect`: both when the chain resolves as a qualified
identifier (alongside the expression-does-not-select-field diagnostic)
and after any operand-kind-based field resolution, `Bool` overrides the
computed field or value type as a final step. -/
theorem c6_testonly_bool (c : Checker) (i : Nat) (op : Expr) (f : String)
    (hfresh : findId c.types i = none) (hop : i ∉ Expr.idList op) :
    findId ((Checker.checkSelect c (.selectE i op f true)).types) i
      = some (some Ty.bool) := by
  simp only [Checker.checkSelect]
  cases hres : (match asQualifiedName (.selectE i op f true) with
    | some qname => lookupIdent c.env.scopes c.container qname
    | none => none : Option IdentDecl) with
  | some ident =>
    refine setType_fresh _ (.selectE i op f true) _ ?_
    rw [addError_types]
    exact hfresh
  | none =>
    have hfresh2 : findId ((c.check op).types) i = none :=
      (check_stepOK op c).2.2.1 i hop hfresh
    have hq := (Checker.lookupFieldType_quiet (c.check op)
      ((c.check op).location (.selectE i op f true)) ((c.check op).getType op) f).1
    refine setType_fresh _ (.selectE i op f true) _ ?_
    split
    · exact hfresh2
    · exact hfresh2
    · split
      · split
        · dsimp only
          rw [addError_types, hq]
          exact hfresh2
        · dsimp only
          rw [hq]
          exact hfresh2
      · dsimp only
        rw [hq]
        exact hfresh2
    · exact hfresh2
    · dsimp only
      rw [addError_types]
      exact hfresh2

/-- C10: a test-only selection that does not resolve as a qualified
identifier and whose operand types to a `Map` is typed `Bool` with no
diagnostic beyond those of the operand: the presence-support test only
guards the object-operand branch, never map operands. -/
theorem c10_testonly_map (c : Checker) (i : Nat) (op : Expr) (f : String) (k v : Ty)
    (hres : (match asQualifiedName (.selectE i op f true) with
      | some qname => lookupIdent c.env.scopes c.container qname
      | none => none : Option IdentDecl) = none)
    (hmap : (Checker.check c op).getType op = some (.map k v))
    (hfresh : findId c.types i = none) (hop : i ∉ Expr.idList op) :
    findId ((Checker.checkSelect c (.selectE i op f true)).types) i
      = some (some Ty.bool) ∧
    (Checker.checkSelect c (.selectE i op f true)).env.errors
      = (Checker.check c op).env.errors := by
  have hfresh2 : findId ((c.check op).types) i = none :=
    (check_stepOK op c).2.2.1 i hop hfresh
  constructor
  · simp only [Checker.checkSelect, hres, hmap, KindOfP, KindOf]
    exact setType_fresh _ (.selectE i op f true) _ hfresh2
  · simp only [Checker.checkSelect, hres, hmap, KindOfP, KindOf]
    exact setType_errors _ _ _

/-! ## C7: panic freedom on well-formed ASTs -/

mutual

/-- Structural well-formedness: a map-form struct literal (empty message
name) carries only map-keyed entries.  On a field-keyed entry the Go
checker dereferences the nil map key and crashes outside the guarded
abort branches, so such trees are excluded from the panic-freedom
statement. -/
def Expr.wf : Expr → Bool
  | .constE _ _ => true
  | .identE _ _ => true
  | .selectE _ op _ _ => Expr.wf op
  | .callE _ t _ args =>
    (match t with | some tgt => Expr.wf tgt | none => true) && Expr.wfL args
  | .listE _ es => Expr.wfL es
  | .structE _ mn ents =>
    (if mn = "" then Entry.allMapForm ents else true) && Entry.wfL ents
  | .comprehensionE _ _ ir _ ai cond step res =>
    Expr.wf ir && Expr.wf ai && Expr.wf cond && Expr.wf step && Expr.wf res

def Expr.wfL : List Expr → Bool
  | [] => true
  | e :: rest => Expr.wf e && Expr.wfL rest

def Entry.allMapForm : List Entry → Bool
  | [] => true
  | .fieldEntry _ _ _ :: _ => false
  | .mapEntry _ _ _ :: rest => Entry.allMapForm rest

def Entry.wfL : List Entry → Bool
  | [] => true
  | .fieldEntry _ _ v :: rest => Expr.wf v && Entry.wfL rest
  | .mapEntry _ k v :: rest => Expr.wf k && Expr.wf v && Entry.wfL rest

end

/-- No id of `ids` has a `types` or `references` entry yet. -/
def FreshIds (c : Checker) (ids : List Nat) : Prop :=
  ∀ j, j ∈ ids → findId c.types j = none ∧ findId c.references j = none

def FreshIds.mono {c : Checker} {ids ids' : List Nat}
    (hsub : ∀ j, j ∈ ids' → j ∈ ids) (h : FreshIds c ids) : FreshIds c ids' :=
  fun j hj => h j (hsub j hj)

theorem FreshIds.preserve {c c' : Checker} {ids ids' : List Nat}
    (st : StepOK ids' c c') (hdisj : ∀ j, j ∈ ids → j ∉ ids')
    (h : FreshIds c ids) : FreshIds c' ids :=
  fun j hj => ⟨st.2.2.1 j (hdisj j hj) (h j hj).1,
    st.2.2.2.1 j (hdisj j hj) (h j hj).2⟩

theorem FreshIds.quiet {c c' : Checker} {ids : List Nat}
    (hq : Quiet c c') (h : FreshIds c ids) : FreshIds c' ids :=
  h.preserve (hq.stepOK []) (fun _ _ hx => List.not_mem_nil _ hx)

theorem setType_panicked_fresh (c : Checker) (e : Expr) (t : TyP)
    (h : findId c.types e.exprId = none) :
    (c.setType e t).panicked = c.panicked := by
  rw [Checker.setType, h]

theorem setReference_panicked_fresh (c : Checker) (e : Expr) (r : Reference)
    (h : findId c.references e.exprId = none) :
    (c.setReference e r).panicked = c.panicked := by
  rw [Checker.setReference, h]

theorem addError_panicked (c : Checker) (d : Diag) :
    (c.addError d).panicked = c.panicked := rfl

theorem enterScope_panicked (c : Checker) : c.enterScope.panicked = c.panicked := rfl

theorem exitScope_panicked (c : Checker) : c.exitScope.panicked = c.panicked := rfl

theorem addIdent_panicked (c : Checker) (d : IdentDecl) :
    (c.addIdent d).panicked = c.panicked := rfl

theorem setType_types_fresh (c : Checker) (e : Expr) (t : TyP)
    (h : findId c.types e.exprId = none) :
    (c.setType e t).types = (e.exprId, t) :: c.types := by
  rw [Checker.setType, h]

theorem checkElements_stepOK (es : List Expr) (c : Checker) (t : TyP) :
    StepOK (Expr.idListL es) c (c.checkElements es t).1 :=
  ((masterP (3 * sizeOf es + 2)).2.2.2.2.2.2.2.2.2.1 es le_rfl c t).1

theorem checkMapEntries_stepOK (ents : List Entry) (c : Checker) (kT vT : TyP) :
    StepOK (Entry.idListL ents) c (c.checkMapEntries ents kT vT).1 :=
  ((masterP (3 * sizeOf ents + 2)).2.2.2.2.2.2.2.2.2.2.1 ents le_rfl c kT vT).1

theorem checkMessageEntry_stepOK (v : Expr) (c : Checker) (entId : Nat)
    (field : String) (mt : TyP) :
    StepOK v.idList c (c.checkMessageEntry entId field v mt) :=
  ((masterP (3 * sizeOf v + 3)).2.2.2.2.2.2.2.2.2.2.2.1 v le_rfl c entId field mt).1

def CheckNP (e : Expr) : Prop :=
  ∀ c : Checker, Expr.wf e = true → e.idList.Nodup → FreshIds c e.idList →
    (c.check e).panicked = c.panicked

def SelectNP (e : Expr) : Prop :=
  ∀ c : Checker, Expr.wf e = true → e.idList.Nodup → FreshIds c e.idList →
    (c.checkSelect e).panicked = c.panicked

def CallNP (e : Expr) : Prop :=
  ∀ c : Checker, Expr.wf e = true → e.idList.Nodup → FreshIds c e.idList →
    (c.checkCall e).panicked = c.panicked

def CreateListNP (e : Expr) : Prop :=
  ∀ c : Checker, Expr.wf e = true → e.idList.Nodup → FreshIds c e.idList →
    (c.checkCreateList e).panicked = c.panicked

def CreateStructNP (e : Expr) : Prop :=
  ∀ c : Checker, Expr.wf e = true → e.idList.Nodup → FreshIds c e.idList →
    (c.checkCreateStruct e).panicked = c.panicked

def CreateMapNP (e : Expr) : Prop :=
  ∀ c : Checker, Expr.wf e = true →
    (∀ (j : Nat) (mn : String) (ents : List Entry), e = .structE j mn ents →
      Entry.allMapForm ents = true) →
    e.idList.Nodup → FreshIds c e.idList →
    (c.checkCreateMap e).panicked = c.panicked

def CreateMessageNP (e : Expr) : Prop :=
  ∀ c : Checker, Expr.wf e = true → e.idList.Nodup → FreshIds c e.idList →
    (c.checkCreateMessage e).panicked = c.panicked

def ComprehensionNP (e : Expr) : Prop :=
  ∀ c : Checker, Expr.wf e = true → e.idList.Nodup → FreshIds c e.idList →
    (c.checkComprehension e).panicked = c.panicked

def ArgsNP (args : List Expr) : Prop :=
  ∀ c : Checker, Expr.wfL args = true → (Expr.idListL args).Nodup →
    FreshIds c (Expr.idListL args) →
    (c.checkArgs args).panicked = c.panicked

def ElemsNP (es : List Expr) : Prop :=
  ∀ (c : Checker) (t : TyP), Expr.wfL es = true → (Expr.idListL es).Nodup →
    FreshIds c (Expr.idListL es) →
    (c.checkElements es t).1.panicked = c.panicked

def MapEntsNP (ents : List Entry) : Prop :=
  ∀ (c : Checker) (kT vT : TyP), Entry.allMapForm ents = true →
    Entry.wfL ents = true → (Entry.idListL ents).Nodup →
    FreshIds c (Entry.idListL ents) →
    (c.checkMapEntries ents kT vT).1.panicked = c.panicked

def MsgEntryNP (v : Expr) : Prop :=
  ∀ (c : Checker) (entId : Nat) (field : String) (mt : TyP),
    Expr.wf v = true → v.idList.Nodup → FreshIds c v.idList →
    (c.checkMessageEntry entId field v mt).panicked = c.panicked

def MsgEntsNP (ents : List Entry) : Prop :=
  ∀ (c : Checker) (mt : TyP), Entry.wfL ents = true →
    (Entry.idListL ents).Nodup → FreshIds c (Entry.idListL ents) →
    (c.checkMessageEntries ents mt).panicked = c.panicked

/-- All the panic-freedom components, bounded by the checker's own
termination measure. -/
def MasterNP (n : Nat) : Prop :=
  (∀ e : Expr, 3 * sizeOf e + 2 ≤ n → CheckNP e) ∧
  (∀ e : Expr, 3 * sizeOf e + 1 ≤ n → SelectNP e) ∧
  (∀ e : Expr, 3 * sizeOf e + 1 ≤ n → CallNP e) ∧
  (∀ e : Expr, 3 * sizeOf e + 1 ≤ n → CreateListNP e) ∧
  (∀ e : Expr, 3 * sizeOf e + 1 ≤ n → CreateStructNP e) ∧
  (∀ e : Expr, 3 * sizeOf e ≤ n → CreateMapNP e) ∧
  (∀ e : Expr, 3 * sizeOf e ≤ n → CreateMessageNP e) ∧
  (∀ e : Expr, 3 * sizeOf e + 1 ≤ n → ComprehensionNP e) ∧
  (∀ args : List Expr, 3 * sizeOf args + 2 ≤ n → ArgsNP args) ∧
  (∀ es : List Expr, 3 * sizeOf es + 2 ≤ n → ElemsNP es) ∧
  (∀ ents : List Entry, 3 * sizeOf ents + 2 ≤ n → MapEntsNP ents) ∧
  (∀ v : Expr, 3 * sizeOf v + 3 ≤ n → MsgEntryNP v) ∧
  (∀ ents : List Entry, 3 * sizeOf ents + 2 ≤ n → MsgEntsNP ents)

theorem masterNP_zero : MasterNP 0 := by
  refine ⟨?_, ?_, ?_, ?_, ?_, ?_, ?_, ?_, ?_, ?_, ?_, ?_, ?_⟩ <;>
    (intro x h; exfalso; cases x <;> simp_arith at h)

theorem masterNP_check (n : Nat) (ih : MasterNP n) :
    ∀ e : Expr, 3 * sizeOf e + 2 ≤ n + 1 → CheckNP e := by
  obtain ⟨ihCheck, ihSel, ihCall, ihCList, ihCStruct, ihCMap, ihCMsg, ihComp,
    ihArgs, ihElems, ihMapE, ihMsgE1, ihMsgE⟩ := ih
  intro e hm c hwf hnd hfresh
  match e with
  | .constE i con =>
    have hf := hfresh i (by simp [Expr.idList])
    cases con <;>
      (simp only [Checker.check, Checker.checkBoolConstant, Checker.checkBytesConstant,
        Checker.checkDoubleConstant, Checker.checkInt64Constant, Checker.checkNullConstant,
        Checker.checkStringConstant, Checker.checkUint64Constant]
       exact setType_panicked_fresh _ _ _ hf.1)
  | .identE i name =>
    have hf := hfresh i (by simp [Expr.idList])
    simp only [Checker.check, Checker.checkIdent]
    cases hk : lookupIdent c.env.scopes c.container name with
    | some ident =>
      refine (setReference_panicked_fresh _ _ _ ?_).trans
        (setType_panicked_fresh _ _ _ hf.1)
      rw [setType_references]
      exact hf.2
    | none =>
      exact (addError_panicked _ _).trans (setType_panicked_fresh _ _ _ hf.1)
  | .selectE i op f tb =>
    simp only [Checker.check]
    exact ihSel (.selectE i op f tb) (by simp_arith at hm ⊢; omega) c hwf hnd hfresh
  | .callE i tgt f args =>
    simp only [Checker.check]
    exact ihCall (.callE i tgt f args) (by simp_arith at hm ⊢; omega) c hwf hnd hfresh
  | .listE i es =>
    simp only [Checker.check]
    exact ihCList (.listE i es) (by simp_arith at hm ⊢; omega) c hwf hnd hfresh
  | .structE i mn ents =>
    simp only [Checker.check]
    exact ihCStruct (.structE i mn ents) (by simp_arith at hm ⊢; omega) c hwf hnd hfresh
  | .comprehensionE i iv ir av ai lc ls r =>
    simp only [Checker.check]
    exact ihComp (.comprehensionE i iv ir av ai lc ls r) (by simp_arith at hm ⊢; omega)
      c hwf hnd hfresh

theorem masterNP_select (n : Nat) (ih : MasterNP n) :
    ∀ e : Expr, 3 * sizeOf e + 1 ≤ n + 1 → SelectNP e := by
  obtain ⟨ihCheck, ihSel, ihCall, ihCList, ihCStruct, ihCMap, ihCMsg, ihComp,
    ihArgs, ihElems, ihMapE, ihMsgE1, ihMsgE⟩ := ih
  intro e hm c hwf hnd hfresh
  match e with
  | .constE i con => simp only [Checker.checkSelect]
  | .identE i nm => simp only [Checker.checkSelect]
  | .callE i tgt f args => simp only [Checker.checkSelect]
  | .listE i es => simp only [Checker.checkSelect]
  | .structE i mn ents => simp only [Checker.checkSelect]
  | .comprehensionE i iv ir av ai lc ls r => simp only [Checker.checkSelect]
  | .selectE i op f tb =>
    have hf := hfresh i (by simp [Expr.idList])
    have hndc := List.nodup_cons.mp (by simpa [Expr.idList] using hnd)
    have hfop : FreshIds c (Expr.idList op) :=
      hfresh.mono (by intro j hj; simp [Expr.idList]; exact Or.inr hj)
    have hwfop : Expr.wf op = true := by simpa [Expr.wf] using hwf
    simp only [Checker.checkSelect]
    cases hres : (match asQualifiedName (.selectE i op f tb) with
      | some qname => lookupIdent c.env.scopes c.container qname
      | none => none : Option IdentDecl) with
    | some ident =>
      cases tb with
      | true =>
        exact (setType_panicked_fresh _ _ _
          (by rw [addError_types]; exact hf.1)).trans (addError_panicked _ _)
      | false =>
        refine (setReference_panicked_fresh _ _ _ ?_).trans
          (setType_panicked_fresh _ _ _ hf.1)
        rw [setType_references]
        exact hf.2
    | none =>
      have hpan1 : (c.check op).panicked = c.panicked :=
        ihCheck op (by simp_arith at hm ⊢; omega) c hwfop hndc.2 hfop
      have hfty : findId ((c.check op).types) i = none :=
        (check_stepOK op c).2.2.1 i hndc.1 hf.1
      cases hk : KindOfP ((c.check op).getType op) with
      | kindError => exact (setType_panicked_fresh _ _ _ hfty).trans hpan1
      | kindDyn => exact (setType_panicked_fresh _ _ _ hfty).trans hpan1
      | kindMap => exact (setType_panicked_fresh _ _ _ hfty).trans hpan1
      | kindObject =>
        cases hft : (c.check op).lookupFieldType
            ((c.check op).location (.selectE i op f tb)) ((c.check op).getType op) f with
        | mk ft? c2 =>
          have hq : Quiet (c.check op) c2 := by
            have := (c.check op).lookupFieldType_quiet
              ((c.check op).location (.selectE i op f tb)) ((c.check op).getType op) f
            rw [hft] at this
            exact this
          cases ft? with
          | some ft =>
            by_cases hp : (tb && !ft.supportsPresence) = true
            · simp only [hp, if_true]
              exact (setType_panicked_fresh _ _ _
                  (by rw [addError_types, hq.1]; exact hfty)).trans
                ((addError_panicked _ _).trans (hq.2.2.2.1.trans hpan1))
            · rw [Bool.not_eq_true] at hp
              simp only [hp, Bool.false_eq_true, if_false]
              exact (setType_panicked_fresh _ _ _ (by rw [hq.1]; exact hfty)).trans
                (hq.2.2.2.1.trans hpan1)
          | none =>
            exact (setType_panicked_fresh _ _ _ (by rw [hq.1]; exact hfty)).trans
              (hq.2.2.2.1.trans hpan1)
      | kindNull =>
        exact (setType_panicked_fresh _ _ _
          (by rw [addError_types]; exact hfty)).trans ((addError_panicked _ _).trans hpan1)
      | kindBool =>
        exact (setType_panicked_fresh _ _ _
          (by rw [addError_types]; exact hfty)).trans ((addError_panicked _ _).trans hpan1)
      | kindInt64 =>
        exact (setType_panicked_fresh _ _ _
          (by rw [addError_types]; exact hfty)).trans ((addError_panicked _ _).trans hpan1)
      | kindUint64 =>
        exact (setType_panicked_fresh _ _ _
          (by rw [addError_types]; exact hfty)).trans ((addError_panicked _ _).trans hpan1)
      | kindDouble =>
        exact (setType_panicked_fresh _ _ _
          (by rw [addError_types]; exact hfty)).trans ((addError_panicked _ _).trans hpan1)
      | kindString =>
        exact (setType_panicked_fresh _ _ _
          (by rw [addError_types]; exact hfty)).trans ((addError_panicked _ _).trans hpan1)
      | kindBytes =>
        exact (setType_panicked_fresh _ _ _
          (by rw [addError_types]; exact hfty)).trans ((addError_panicked _ _).trans hpan1)
      | kindList =>
        exact (setType_panicked_fresh _ _ _
          (by rw [addError_types]; exact hfty)).trans ((addError_panicked _ _).trans hpan1)
      | kindType =>
        exact (setType_panicked_fresh _ _ _
          (by rw [addError_types]; exact hfty)).trans ((addError_panicked _ _).trans hpan1)
      | kindTypeParam =>
        exact (setType_panicked_fresh _ _ _
          (by rw [addError_types]; exact hfty)).trans ((addError_panicked _ _).trans hpan1)
      | kindFunction =>
        exact (setType_panicked_fresh _ _ _
          (by rw [addError_types]; exact hfty)).trans ((addError_panicked _ _).trans hpan1)
      | kindWellKnown =>
        exact (setType_panicked_fresh _ _ _
          (by rw [addError_types]; exact hfty)).trans ((addError_panicked _ _).trans hpan1)
      | kindUnknown =>
        exact (setType_panicked_fresh _ _ _
          (by rw [addError_types]; exact hfty)).trans ((addError_panicked _ _).trans hpan1)

theorem masterNP_args (n : Nat) (ih : MasterNP n) :
    ∀ args : List Expr, 3 * sizeOf args + 2 ≤ n + 1 → ArgsNP args := by
  obtain ⟨ihCheck, ihSel, ihCall, ihCList, ihCStruct, ihCMap, ihCMsg, ihComp,
    ihArgs, ihElems, ihMapE, ihMsgE1, ihMsgE⟩ := ih
  intro args hm c hwf hnd hfresh
  match args with
  | [] => simp only [Checker.checkArgs]
  | a :: rest =>
    simp only [Expr.wfL, Bool.and_eq_true] at hwf
    simp only [Expr.idListL, List.nodup_append] at hnd
    obtain ⟨nd1, nd2, hdisj⟩ := hnd
    have fresh_a : FreshIds c a.idList :=
      hfresh.mono (by intro j hj; simp [Expr.idListL]; exact Or.inl hj)
    have fresh_rest : FreshIds c (Expr.idListL rest) :=
      hfresh.mono (by intro j hj; simp [Expr.idListL]; exact Or.inr hj)
    have hpan1 := ihCheck a (by simp_arith at hm ⊢; omega) c hwf.1 nd1 fresh_a
    have fresh_rest' : FreshIds (c.check a) (Expr.idListL rest) :=
      fresh_rest.preserve (check_stepOK a c) (fun j hj hja => hdisj hja hj)
    simp only [Checker.checkArgs]
    exact (ihArgs rest (by simp_arith at hm ⊢; omega) (c.check a) hwf.2 nd2
      fresh_rest').trans hpan1

theorem masterNP_elems (n : Nat) (ih : MasterNP n) :
    ∀ es : List Expr, 3 * sizeOf es + 2 ≤ n + 1 → ElemsNP es := by
  obtain ⟨ihCheck, ihSel, ihCall, ihCList, ihCStruct, ihCMap, ihCMsg, ihComp,
    ihArgs, ihElems, ihMapE, ihMsgE1, ihMsgE⟩ := ih
  intro es hm c t hwf hnd hfresh
  match es with
  | [] => simp only [Checker.checkElements]
  | el :: rest =>
    simp only [Expr.wfL, Bool.and_eq_true] at hwf
    simp only [Expr.idListL, List.nodup_append] at hnd
    obtain ⟨nd1, nd2, hdisj⟩ := hnd
    have fresh_a : FreshIds c el.idList :=
      hfresh.mono (by intro j hj; simp [Expr.idListL]; exact Or.inl hj)
    have fresh_rest : FreshIds c (Expr.idListL rest) :=
      hfresh.mono (by intro j hj; simp [Expr.idListL]; exact Or.inr hj)
    have hpan1 := ihCheck el (by simp_arith at hm ⊢; omega) c hwf.1 nd1 fresh_a
    have hq := (c.check el).joinTypes_quiet ((c.check el).location el) t
      ((c.check el).getType el)
    have fresh_rest' : FreshIds ((c.check el).joinTypes ((c.check el).location el) t
        ((c.check el).getType el)).2 (Expr.idListL rest) :=
      (fresh_rest.preserve (check_stepOK el c) (fun j hj hja => hdisj hja hj)).quiet hq
    simp only [Checker.checkElements]
    exact (ihElems rest (by simp_arith at hm ⊢; omega) _ _ hwf.2 nd2
      fresh_rest').trans (hq.2.2.2.1.trans hpan1)

theorem masterNP_mapents (n : Nat) (ih : MasterNP n) :
    ∀ ents : List Entry, 3 * sizeOf ents + 2 ≤ n + 1 → MapEntsNP ents := by
  obtain ⟨ihCheck, ihSel, ihCall, ihCList, ihCStruct, ihCMap, ihCMsg, ihComp,
    ihArgs, ihElems, ihMapE, ihMsgE1, ihMsgE⟩ := ih
  intro ents hm c kT vT hmf hwf hnd hfresh
  match ents with
  | [] => simp only [Checker.checkMapEntries]
  | .fieldEntry eid fk v :: rest => simp [Entry.allMapForm] at hmf
  | .mapEntry eid k v :: rest =>
    simp only [Entry.allMapForm] at hmf
    simp only [Entry.wfL, Bool.and_eq_true] at hwf
    obtain ⟨⟨hwk, hwv⟩, hwr⟩ := hwf
    simp only [Entry.idListL, List.nodup_append] at hnd
    obtain ⟨⟨ndA, ndB, disjAB⟩, ndC, disjABC⟩ := hnd
    have ndK := (List.nodup_cons.mp ndA).2
    have fresh_k : FreshIds c k.idList :=
      hfresh.mono (by intro j hj; simp [Entry.idListL]; right; left; exact hj)
    have fresh_v : FreshIds c v.idList :=
      hfresh.mono (by intro j hj; simp [Entry.idListL]; right; right; left; exact hj)
    have fresh_rest : FreshIds c (Entry.idListL rest) :=
      hfresh.mono (by intro j hj; simp [Entry.idListL]; right; right; right; exact hj)
    have hpanK := ihCheck k (by simp_arith at hm ⊢; omega) c hwk ndK fresh_k
    have hqK := (c.check k).joinTypes_quiet ((c.check k).location k) kT
      ((c.check k).getType k)
    have hdVK : ∀ j, j ∈ v.idList → j ∉ k.idList :=
      fun j hj hjk => disjAB (List.mem_cons_of_mem _ hjk) hj
    have hdRK : ∀ j, j ∈ Entry.idListL rest → j ∉ k.idList := by
      intro j hj hjk
      exact disjABC (List.mem_append_left _ (List.mem_cons_of_mem _ hjk)) hj
    have hdRV : ∀ j, j ∈ Entry.idListL rest → j ∉ v.idList :=
      fun j hj hjv => disjABC (List.mem_append_right _ hjv) hj
    have fresh_v' : FreshIds ((c.check k).joinTypes ((c.check k).location k) kT
        ((c.check k).getType k)).2 v.idList :=
      (fresh_v.preserve (check_stepOK k c) hdVK).quiet hqK
    have hpanV := ihCheck v (by simp_arith at hm ⊢; omega) _ hwv ndB fresh_v'
    set c2 := ((c.check k).joinTypes ((c.check k).location k) kT
      ((c.check k).getType k)).2 with hc2
    have hqV := (c2.check v).joinTypes_quiet ((c2.check v).location v) vT
      ((c2.check v).getType v)
    have fresh_rest' : FreshIds ((c2.check v).joinTypes ((c2.check v).location v) vT
        ((c2.check v).getType v)).2 (Entry.idListL rest) :=
      ((((fresh_rest.preserve (check_stepOK k c) hdRK).quiet hqK).preserve
        (check_stepOK v c2) hdRV).quiet hqV)
    simp only [Checker.checkMapEntries]
    exact (ihMapE rest (by simp_arith at hm ⊢; omega) _ _ _ hmf hwr ndC
      fresh_rest').trans (hqV.2.2.2.1.trans (hpanV.trans (hqK.2.2.2.1.trans hpanK)))

theorem masterNP_msgentry (n : Nat) (ih : MasterNP n) :
    ∀ v : Expr, 3 * sizeOf v + 3 ≤ n + 1 → MsgEntryNP v := by
  obtain ⟨ihCheck, ihSel, ihCall, ihCList, ihCStruct, ihCMap, ihCMsg, ihComp,
    ihArgs, ihElems, ihMapE, ihMsgE1, ihMsgE⟩ := ih
  intro v hm c entId field mt hwf hnd hfresh
  have hpan1 := ihCheck v (by simp_arith at hm ⊢; omega) c hwf hnd hfresh
  have hqF := (c.check v).lookupFieldType_quiet ((c.check v).locationById entId) mt field
  simp only [Checker.checkMessageEntry]
  split
  · exact ((Checker.isAssignable_quiet _ _ _).2.2.2.1).trans
      (hqF.2.2.2.1.trans hpan1)
  · exact (addError_panicked _ _).trans
      (((Checker.isAssignable_quiet _ _ _).2.2.2.1).trans (hqF.2.2.2.1.trans hpan1))

theorem masterNP_msgents (n : Nat) (ih : MasterNP n) :
    ∀ ents : List Entry, 3 * sizeOf ents + 2 ≤ n + 1 → MsgEntsNP ents := by
  obtain ⟨ihCheck, ihSel, ihCall, ihCList, ihCStruct, ihCMap, ihCMsg, ihComp,
    ihArgs, ihElems, ihMapE, ihMsgE1, ihMsgE⟩ := ih
  intro ents hm c mt hwf hnd hfresh
  match ents with
  | [] => simp only [Checker.checkMessageEntries]
  | .fieldEntry eid fk v :: rest =>
    simp only [Entry.wfL, Bool.and_eq_true] at hwf
    simp only [Entry.idListL, List.nodup_append] at hnd
    obtain ⟨ndA, ndC, disjAC⟩ := hnd
    have ndV := (List.nodup_cons.mp ndA).2
    have fresh_v : FreshIds c v.idList :=
      hfresh.mono (by intro j hj; simp [Entry.idListL]; right; left; exact hj)
    have fresh_rest : FreshIds c (Entry.idListL rest) :=
      hfresh.mono (by intro j hj; simp [Entry.idListL]; right; right; exact hj)
    have hpan1 := ihMsgE1 v (by simp_arith at hm ⊢; omega) c eid fk mt hwf.1 ndV fresh_v
    have fresh_rest' : FreshIds (c.checkMessageEntry eid fk v mt) (Entry.idListL rest) :=
      fresh_rest.preserve (checkMessageEntry_stepOK v c eid fk mt)
        (fun j hj hjv => disjAC (List.mem_cons_of_mem _ hjv) hj)
    simp only [Checker.checkMessageEntries]
    exact (ihMsgE rest (by simp_arith at hm ⊢; omega) _ mt hwf.2 ndC
      fresh_rest').trans hpan1
  | .mapEntry eid k v :: rest =>
    simp only [Entry.wfL, Bool.and_eq_true] at hwf
    obtain ⟨⟨hwk, hwv⟩, hwr⟩ := hwf
    simp only [Entry.idListL, List.nodup_append] at hnd
    obtain ⟨⟨ndA, ndB, disjAB⟩, ndC, disjABC⟩ := hnd
    have ndV := ndB
    have fresh_v : FreshIds c v.idList :=
      hfresh.mono (by intro j hj; simp [Entry.idListL]; right; right; left; exact hj)
    have fresh_rest : FreshIds c (Entry.idListL rest) :=
      hfresh.mono (by intro j hj; simp [Entry.idListL]; right; right; right; exact hj)
    have hpan1 := ihMsgE1 v (by simp_arith at hm ⊢; omega) c eid "" mt hwv ndV fresh_v
    have fresh_rest' : FreshIds (c.checkMessageEntry eid "" v mt) (Entry.idListL rest) :=
      fresh_rest.preserve (checkMessageEntry_stepOK v c eid "" mt)
        (fun j hj hjv => disjABC (List.mem_append_right _ hjv) hj)
    simp only [Checker.checkMessageEntries]
    exact (ihMsgE rest (by simp_arith at hm ⊢; omega) _ mt hwr ndC
      fresh_rest').trans hpan1

theorem masterNP_clist (n : Nat) (ih : MasterNP n) :
    ∀ e : Expr, 3 * sizeOf e + 1 ≤ n + 1 → CreateListNP e := by
  obtain ⟨ihCheck, ihSel, ihCall, ihCList, ihCStruct, ihCMap, ihCMsg, ihComp,
    ihArgs, ihElems, ihMapE, ihMsgE1, ihMsgE⟩ := ih
  intro e hm c hwf hnd hfresh
  match e with
  | .constE i con => simp only [Checker.checkCreateList]
  | .identE i nm => simp only [Checker.checkCreateList]
  | .callE i tgt f args => simp only [Checker.checkCreateList]
  | .selectE i op f tb => simp only [Checker.checkCreateList]
  | .structE i mn ents => simp only [Checker.checkCreateList]
  | .comprehensionE i iv ir av ai lc ls r => simp only [Checker.checkCreateList]
  | .listE i es =>
    have hf := hfresh i (by simp [Expr.idList])
    have hndc := List.nodup_cons.mp (by simpa [Expr.idList] using hnd)
    have hfes : FreshIds c (Expr.idListL es) :=
      hfresh.mono (by intro j hj; simp [Expr.idList]; exact Or.inr hj)
    have hwfes : Expr.wfL es = true := by simpa [Expr.wf] using hwf
    have hpan1 := ihElems es (by simp_arith at hm ⊢; omega) c none hwfes hndc.2 hfes
    have hfty : findId ((c.checkElements es none).1.types) i = none :=
      (checkElements_stepOK es c none).2.2.1 i hndc.1 hf.1
    simp only [Checker.checkCreateList]
    cases ht : (c.checkElements es none).2 with
    | none =>
      have hq := (c.checkElements es none).1.newTypeVar_quiet
      exact (setType_panicked_fresh _ _ _ (by rw [hq.1]; exact hfty)).trans
        (hq.2.2.2.1.trans hpan1)
    | some t0 =>
      exact (setType_panicked_fresh _ _ _ hfty).trans hpan1

theorem masterNP_cmap (n : Nat) (ih : MasterNP n) :
    ∀ e : Expr, 3 * sizeOf e ≤ n + 1 → CreateMapNP e := by
  obtain ⟨ihCheck, ihSel, ihCall, ihCList, ihCStruct, ihCMap, ihCMsg, ihComp,
    ihArgs, ihElems, ihMapE, ihMsgE1, ihMsgE⟩ := ih
  intro e hm c hwf hAll hnd hfresh
  match e with
  | .constE i con => simp only [Checker.checkCreateMap]
  | .identE i nm => simp only [Checker.checkCreateMap]
  | .callE i tgt f args => simp only [Checker.checkCreateMap]
  | .selectE i op f tb => simp only [Checker.checkCreateMap]
  | .listE i es => simp only [Checker.checkCreateMap]
  | .comprehensionE i iv ir av ai lc ls r => simp only [Checker.checkCreateMap]
  | .structE i mn ents =>
    have hf := hfresh i (by simp [Expr.idList])
    have hndc := List.nodup_cons.mp (by simpa [Expr.idList] using hnd)
    have hfents : FreshIds c (Entry.idListL ents) :=
      hfresh.mono (by intro j hj; simp [Expr.idList]; exact Or.inr hj)
    have hwfents : Entry.wfL ents = true := by
      simp only [Expr.wf, Bool.and_eq_true] at hwf
      exact hwf.2
    have hall := hAll i mn ents rfl
    have hpan1 := ihMapE ents (by simp_arith at hm ⊢; omega) c none none hall
      hwfents hndc.2 hfents
    have hfty : findId ((c.checkMapEntries ents none none).1.types) i = none :=
      (checkMapEntries_stepOK ents c none none).2.2.1 i hndc.1 hf.1
    simp only [Checker.checkCreateMap]
    cases ht : (c.checkMapEntries ents none none).2.1 with
    | none =>
      have hq1 := (c.checkMapEntries ents none none).1.newTypeVar_quiet
      have hq2 := (c.checkMapEntries ents none none).1.newTypeVar.2.newTypeVar_quiet
      exact (setType_panicked_fresh _ _ _ (by rw [hq2.1, hq1.1]; exact hfty)).trans
        (hq2.2.2.2.1.trans (hq1.2.2.2.1.trans hpan1))
    | some kt =>
      exact (setType_panicked_fresh _ _ _ hfty).trans hpan1

theorem masterNP_cmsg (n : Nat) (ih : MasterNP n) :
    ∀ e : Expr, 3 * sizeOf e ≤ n + 1 → CreateMessageNP e := by
  obtain ⟨ihCheck, ihSel, ihCall, ihCList, ihCStruct, ihCMap, ihCMsg, ihComp,
    ihArgs, ihElems, ihMapE, ihMsgE1, ihMsgE⟩ := ih
  intro e hm c hwf hnd hfresh
  match e with
  | .constE i con => simp only [Checker.checkCreateMessage]
  | .identE i nm => simp only [Checker.checkCreateMessage]
  | .callE i tgt f args => simp only [Checker.checkCreateMessage]
  | .selectE i op f tb => simp only [Checker.checkCreateMessage]
  | .listE i es => simp only [Checker.checkCreateMessage]
  | .comprehensionE i iv ir av ai lc ls r => simp only [Checker.checkCreateMessage]
  | .structE i mn ents =>
    have hf := hfresh i (by simp [Expr.idList])
    have hndc := List.nodup_cons.mp (by simpa [Expr.idList] using hnd)
    have hfents : FreshIds c (Entry.idListL ents) :=
      hfresh.mono (by intro j hj; simp [Expr.idList]; exact Or.inr hj)
    have hwfents : Entry.wfL ents = true := by
      simp only [Expr.wf, Bool.and_eq_true] at hwf
      exact hwf.2
    cases hd : lookupIdent c.env.scopes c.container mn with
    | none =>
      simp only [Checker.checkCreateMessage, hd]
      exact addError_panicked _ _
    | some decl =>
      simp only [Checker.checkCreateMessage, hd]
      set c1 := c.setReference (.structE i mn ents) (newIdentReference decl.name none)
        with hc1
      have hpanRef : c1.panicked = c.panicked :=
        setReference_panicked_fresh _ _ _ hf.2
      have hstRef := (Checker.setReference_stepOK c (.structE i mn ents)
        (newIdentReference decl.name none)).1
      have hdisjE : ∀ j, j ∈ Entry.idListL ents →
          j ∉ [Expr.exprId (.structE i mn ents)] := by
        intro j hj hji
        rw [List.mem_singleton] at hji
        have hji' : j = i := hji
        rw [hji'] at hj
        exact hndc.1 hj
      have key : ∀ c2 : Checker, Quiet c1 c2 → ∀ mt : TyP,
          ((c2.setType (.structE i mn ents) mt).checkMessageEntries ents mt).panicked
            = c.panicked := by
        intro c2 hq2 mt
        have hfty2 : findId c2.types i = none := by
          rw [hq2.1, hc1, setReference_types]
          exact hf.1
        have hfents2 : FreshIds (c2.setType (.structE i mn ents) mt)
            (Entry.idListL ents) :=
          (((hfents.preserve hstRef hdisjE).quiet hq2).preserve
            (Checker.setType_stepOK c2 (.structE i mn ents) mt).1 hdisjE)
        exact (ihMsgE ents (by simp_arith at hm ⊢; omega) _ mt hwfents hndc.2
          hfents2).trans ((setType_panicked_fresh _ _ _ hfty2).trans
            (hq2.2.2.2.1.trans hpanRef))
      by_cases hk1 : KindOfP decl.type ≠ Kind.kindError
      · rw [if_pos hk1]
        by_cases hk2 : KindOfP decl.type ≠ Kind.kindType
        · rw [if_pos hk2]
          exact key _ (c1.addError_quiet _) (some Ty.error)
        · rw [if_neg hk2]
          by_cases hk3 : KindOfP (match decl.type with
            | some (.type inner) => some inner
            | _ => none : TyP) ≠ Kind.kindObject
          · rw [if_pos hk3]
            exact key _ (c1.addError_quiet _) (some Ty.error)
          · rw [if_neg hk3]
            exact key _ (Quiet.refl c1) _
      · rw [if_neg hk1]
        exact key _ (Quiet.refl c1) (some Ty.error)

theorem masterNP_cstruct (n : Nat) (ih : MasterNP n) :
    ∀ e : Expr, 3 * sizeOf e + 1 ≤ n + 1 → CreateStructNP e := by
  have ihCMap := ih.2.2.2.2.2.1
  have ihCMsg := ih.2.2.2.2.2.2.1
  intro e hm c hwf hnd hfresh
  match e with
  | .constE i con => simp only [Checker.checkCreateStruct]
  | .identE i nm => simp only [Checker.checkCreateStruct]
  | .callE i tgt f args => simp only [Checker.checkCreateStruct]
  | .selectE i op f tb => simp only [Checker.checkCreateStruct]
  | .listE i es => simp only [Checker.checkCreateStruct]
  | .comprehensionE i iv ir av ai lc ls r => simp only [Checker.checkCreateStruct]
  | .structE i mn ents =>
    simp only [Checker.checkCreateStruct]
    by_cases hmn : mn ≠ ""
    · rw [if_pos hmn]
      exact ihCMsg (.structE i mn ents) (by omega) c hwf hnd hfresh
    · rw [if_neg hmn]
      rw [not_not] at hmn
      have hall : Entry.allMapForm ents = true := by
        simp only [Expr.wf, Bool.and_eq_true] at hwf
        have := hwf.1
        rw [hmn] at this
        simpa using this
      exact ihCMap (.structE i mn ents) (by omega) c hwf
        (fun j mn' ents' hEq => by cases hEq; exact hall) hnd hfresh

theorem masterNP_call (n : Nat) (ih : MasterNP n) :
    ∀ e : Expr, 3 * sizeOf e + 1 ≤ n + 1 → CallNP e := by
  obtain ⟨ihCheck, ihSel, ihCall, ihCList, ihCStruct, ihCMap, ihCMsg, ihComp,
    ihArgs, ihElems, ihMapE, ihMsgE1, ihMsgE⟩ := ih
  intro e hm c hwf hnd hfresh
  match e with
  | .constE i con => simp only [Checker.checkCall]
  | .identE i nm => simp only [Checker.checkCall]
  | .selectE i op f tb => simp only [Checker.checkCall]
  | .listE i es => simp only [Checker.checkCall]
  | .structE i mn ents => simp only [Checker.checkCall]
  | .comprehensionE i iv ir av ai lc ls r => simp only [Checker.checkCall]
  | .callE i tgt f args =>
    cases tgt with
    | none =>
      have hfI := hfresh i (by simp [Expr.idList])
      have hnd2 : (i :: Expr.idListL args).Nodup := by
        simpa [Expr.idList] using hnd
      obtain ⟨hiargs, ndArgs⟩ := List.nodup_cons.mp hnd2
      have hfargs : FreshIds c (Expr.idListL args) :=
        hfresh.mono (by intro j hj; simp [Expr.idList]; exact Or.inr hj)
      have hwfargs : Expr.wfL args = true := by
        simpa [Expr.wf] using hwf
      have hpanArgs := ihArgs args (by simp_arith at hm ⊢; omega) c hwfargs ndArgs hfargs
      have stA := checkArgs_stepOK args c
      have h1 : findId ((c.checkArgs args).types) i = none :=
        stA.2.2.1 i hiargs hfI.1
      have h2 : findId ((c.checkArgs args).references) i = none :=
        stA.2.2.2.1 i hiargs hfI.2
      cases hlf : lookupFunction (c.checkArgs args).env.scopes
          (c.checkArgs args).container f with
      | some fn =>
        cases hro : (c.checkArgs args).resolveOverload
            ((c.checkArgs args).location (.callE i none f args)) fn none args with
        | mk res? c2 =>
          have hq : Quiet (c.checkArgs args) c2 := by
            have := (c.checkArgs args).resolveOverload_quiet
              ((c.checkArgs args).location (.callE i none f args)) fn none args
            rw [hro] at this
            exact this
          cases res? with
          | some res =>
            simp only [Checker.checkCall, hlf, hro]
            refine (setReference_panicked_fresh _ _ _ ?_).trans
              ((setType_panicked_fresh _ _ _ (by rw [hq.1]; exact h1)).trans
                (hq.2.2.2.1.trans hpanArgs))
            rw [setType_references, hq.2.1]
            exact h2
          | none =>
            simp only [Checker.checkCall, hlf, hro]
            exact (setType_panicked_fresh _ _ _ (by rw [hq.1]; exact h1)).trans
              (hq.2.2.2.1.trans hpanArgs)
      | none =>
        simp only [Checker.checkCall, hlf]
        exact (setType_panicked_fresh _ _ _ (by rw [addError_types]; exact h1)).trans
          ((addError_panicked _ _).trans hpanArgs)
    | some tgt =>
      have hfI := hfresh i (by simp [Expr.idList])
      have hnd2 : (i :: (Expr.idList tgt ++ Expr.idListL args)).Nodup := by
        simpa [Expr.idList] using hnd
      obtain ⟨hiTA, ndTA⟩ := List.nodup_cons.mp hnd2
      obtain ⟨ndT, ndArgs, disjTA⟩ := List.nodup_append.mp ndTA
      have hiargs : i ∉ Expr.idListL args :=
        fun h => hiTA (List.mem_append_right _ h)
      have hitgt : i ∉ Expr.idList tgt :=
        fun h => hiTA (List.mem_append_left _ h)
      have hfargs : FreshIds c (Expr.idListL args) :=
        hfresh.mono (by intro j hj; simp [Expr.idList]; exact Or.inr (Or.inr hj))
      have hftgt : FreshIds c (Expr.idList tgt) :=
        hfresh.mono (by intro j hj; simp [Expr.idList]; exact Or.inr (Or.inl hj))
      simp only [Expr.wf, Bool.and_eq_true] at hwf
      obtain ⟨hwtgt, hwfargs⟩ := hwf
      have hpanArgs := ihArgs args (by simp_arith at hm ⊢; omega) c hwfargs ndArgs hfargs
      have stA := checkArgs_stepOK args c
      have h1 : findId ((c.checkArgs args).types) i = none :=
        stA.2.2.1 i hiargs hfI.1
      have h2 : findId ((c.checkArgs args).references) i = none :=
        stA.2.2.2.1 i hiargs hfI.2
      have hftgtA : FreshIds (c.checkArgs args) (Expr.idList tgt) :=
        hftgt.preserve stA (fun j hj hja => disjTA hj hja)
      have htm : 3 * sizeOf tgt + 2 ≤ n := by simp_arith at hm ⊢; omega
      cases hqn : asQualifiedName tgt with
      | none =>
        have hpanT := ihCheck tgt htm (c.checkArgs args) hwtgt ndT hftgtA
        have stT := check_stepOK tgt (c.checkArgs args)
        have h1' : findId (((c.checkArgs args).check tgt).types) i = none :=
          stT.2.2.1 i hitgt h1
        have h2' : findId (((c.checkArgs args).check tgt).references) i = none :=
          stT.2.2.2.1 i hitgt h2
        cases hlf : lookupFunction ((c.checkArgs args).check tgt).env.scopes
            ((c.checkArgs args).check tgt).container f with
        | some fn =>
          cases hro : ((c.checkArgs args).check tgt).resolveOverload
              (((c.checkArgs args).check tgt).location (.callE i (some tgt) f args))
              fn (some tgt) args with
          | mk res? c3 =>
            have hq : Quiet ((c.checkArgs args).check tgt) c3 := by
              have := ((c.checkArgs args).check tgt).resolveOverload_quiet
                (((c.checkArgs args).check tgt).location (.callE i (some tgt) f args))
                fn (some tgt) args
              rw [hro] at this
              exact this
            cases res? with
            | some res =>
              simp only [Checker.checkCall, hqn, hlf, hro]
              refine (setReference_panicked_fresh _ _ _ ?_).trans
                ((setType_panicked_fresh _ _ _ (by rw [hq.1]; exact h1')).trans
                  (hq.2.2.2.1.trans (hpanT.trans hpanArgs)))
              rw [setType_references, hq.2.1]
              exact h2'
            | none =>
              simp only [Checker.checkCall, hqn, hlf, hro]
              exact (setType_panicked_fresh _ _ _ (by rw [hq.1]; exact h1')).trans
                (hq.2.2.2.1.trans (hpanT.trans hpanArgs))
        | none =>
          simp only [Checker.checkCall, hqn, hlf]
          exact (setType_panicked_fresh _ _ _
            (by rw [addError_types]; exact h1')).trans
            ((addError_panicked _ _).trans (hpanT.trans hpanArgs))
      | some q =>
        cases hlf1 : lookupFunction (c.checkArgs args).env.scopes
            (c.checkArgs args).container (q ++ "." ++ f) with
        | some fn =>
          cases hro1 : (c.checkArgs args).resolveOverload
              ((c.checkArgs args).location (.callE i (some tgt) f args)) fn none args with
          | mk res1? c2 =>
            have hq1 : Quiet (c.checkArgs args) c2 := by
              have := (c.checkArgs args).resolveOverload_quiet
                ((c.checkArgs args).location (.callE i (some tgt) f args)) fn none args
              rw [hro1] at this
              exact this
            cases res1? with
            | some res =>
              simp only [Checker.checkCall, hqn, hlf1, hro1]
              refine (setReference_panicked_fresh _ _ _ ?_).trans
                ((setType_panicked_fresh _ _ _ (by rw [hq1.1]; exact h1)).trans
                  (hq1.2.2.2.1.trans hpanArgs))
              rw [setType_references, hq1.2.1]
              exact h2
            | none =>
              have hftgt2 : FreshIds c2 (Expr.idList tgt) := hftgtA.quiet hq1
              have hpanT := ihCheck tgt htm c2 hwtgt ndT hftgt2
              have stT := check_stepOK tgt c2
              have h1' : findId ((c2.check tgt).types) i = none := by
                refine stT.2.2.1 i hitgt ?_
                rw [hq1.1]
                exact h1
              have h2' : findId ((c2.check tgt).references) i = none := by
                refine stT.2.2.2.1 i hitgt ?_
                rw [hq1.2.1]
                exact h2
              cases hlf2 : lookupFunction (c2.check tgt).env.scopes
                  (c2.check tgt).container f with
              | some fn2 =>
                cases hro2 : (c2.check tgt).resolveOverload
                    ((c2.check tgt).location (.callE i (some tgt) f args))
                    fn2 (some tgt) args with
                | mk res2? c3 =>
                  have hq2 : Quiet (c2.check tgt) c3 := by
                    have := (c2.check tgt).resolveOverload_quiet
                      ((c2.check tgt).location (.callE i (some tgt) f args))
                      fn2 (some tgt) args
                    rw [hro2] at this
                    exact this
                  cases res2? with
                  | some res =>
                    simp only [Checker.checkCall, hqn, hlf1, hro1, hlf2, hro2]
                    refine (setReference_panicked_fresh _ _ _ ?_).trans
                      ((setType_panicked_fresh _ _ _ (by rw [hq2.1]; exact h1')).trans
                        (hq2.2.2.2.1.trans (hpanT.trans
                          (hq1.2.2.2.1.trans hpanArgs))))
                    rw [setType_references, hq2.2.1]
                    exact h2'
                  | none =>
                    simp only [Checker.checkCall, hqn, hlf1, hro1, hlf2, hro2]
                    exact (setType_panicked_fresh _ _ _
                      (by rw [hq2.1]; exact h1')).trans
                      (hq2.2.2.2.1.trans (hpanT.trans (hq1.2.2.2.1.trans hpanArgs)))
              | none =>
                simp only [Checker.checkCall, hqn, hlf1, hro1, hlf2]
                exact (setType_panicked_fresh _ _ _
                  (by rw [addError_types]; exact h1')).trans
                  ((addError_panicked _ _).trans (hpanT.trans
                    (hq1.2.2.2.1.trans hpanArgs)))
        | none =>
          have hpanT := ihCheck tgt htm (c.checkArgs args) hwtgt ndT hftgtA
          have stT := check_stepOK tgt (c.checkArgs args)
          have h1' : findId (((c.checkArgs args).check tgt).types) i = none :=
            stT.2.2.1 i hitgt h1
          have h2' : findId (((c.checkArgs args).check tgt).references) i = none :=
            stT.2.2.2.1 i hitgt h2
          cases hlf2 : lookupFunction ((c.checkArgs args).check tgt).env.scopes
              ((c.checkArgs args).check tgt).container f with
          | some fn2 =>
            cases hro2 : ((c.checkArgs args).check tgt).resolveOverload
                (((c.checkArgs args).check tgt).location (.callE i (some tgt) f args))
                fn2 (some tgt) args with
            | mk res2? c3 =>
              have hq2 : Quiet ((c.checkArgs args).check tgt) c3 := by
                have := ((c.checkArgs args).check tgt).resolveOverload_quiet
                  (((c.checkArgs args).check tgt).location (.callE i (some tgt) f args))
                  fn2 (some tgt) args
                rw [hro2] at this
                exact this
              cases res2? with
              | some res =>
                simp only [Checker.checkCall, hqn, hlf1, hlf2, hro2]
                refine (setReference_panicked_fresh _ _ _ ?_).trans
                  ((setType_panicked_fresh _ _ _ (by rw [hq2.1]; exact h1')).trans
                    (hq2.2.2.2.1.trans (hpanT.trans hpanArgs)))
                rw [setType_references, hq2.2.1]
                exact h2'
              | none =>
                simp only [Checker.checkCall, hqn, hlf1, hlf2, hro2]
                exact (setType_panicked_fresh _ _ _ (by rw [hq2.1]; exact h1')).trans
                  (hq2.2.2.2.1.trans (hpanT.trans hpanArgs))
          | none =>
            simp only [Checker.checkCall, hqn, hlf1, hlf2]
            exact (setType_panicked_fresh _ _ _
              (by rw [addError_types]; exact h1')).trans
              ((addError_panicked _ _).trans (hpanT.trans hpanArgs))

theorem FreshIds.stepOK_nil {c c' : Checker} (st : StepOK [] c c') {ids : List Nat}
    (h : FreshIds c ids) : FreshIds c' ids :=
  h.preserve st (fun j _ hj => List.not_mem_nil j hj)

theorem FreshIds.single {c : Checker} {i : Nat} (h1 : findId c.types i = none)
    (h2 : findId c.references i = none) : FreshIds c [i] := by
  intro j hj
  rw [List.mem_singleton] at hj
  subst hj
  exact ⟨h1, h2⟩

theorem FreshIds.preserve_single {c c' : Checker} {i : Nat} {ids' : List Nat}
    (st : StepOK ids' c c') (hni : i ∉ ids') (h : FreshIds c [i]) :
    FreshIds c' [i] :=
  h.preserve st (fun j hj => by rw [List.mem_singleton] at hj; subst hj; exact hni)

theorem FreshIds.types_none {c : Checker} {i : Nat} (h : FreshIds c [i]) :
    findId c.types i = none :=
  (h i (List.mem_singleton.mpr rfl)).1

theorem masterNP_comp (n : Nat) (ih : MasterNP n) :
    ∀ e : Expr, 3 * sizeOf e + 1 ≤ n + 1 → ComprehensionNP e := by
  obtain ⟨ihCheck, ihSel, ihCall, ihCList, ihCStruct, ihCMap, ihCMsg, ihComp,
    ihArgs, ihElems, ihMapE, ihMsgE1, ihMsgE⟩ := ih
  intro e hm c hwf hnd hfresh
  match e with
  | .constE i con => simp only [Checker.checkComprehension]
  | .identE i nm => simp only [Checker.checkComprehension]
  | .selectE i op f tb => simp only [Checker.checkComprehension]
  | .listE i es => simp only [Checker.checkComprehension]
  | .structE i mn ents => simp only [Checker.checkComprehension]
  | .callE i tgt f args => simp only [Checker.checkComprehension]
  | .comprehensionE i iv ir av ai cond step res =>
    have hfI := hfresh i (by simp [Expr.idList])
    have hnd2 : (i :: (Expr.idList ir ++ (Expr.idList ai ++ (Expr.idList cond ++
        (Expr.idList step ++ Expr.idList res))))).Nodup := by
      simpa [Expr.idList, List.append_assoc] using hnd
    obtain ⟨hiA, ndA⟩ := List.nodup_cons.mp hnd2
    obtain ⟨ndIr, ndRest1, disj1⟩ := List.nodup_append.mp ndA
    obtain ⟨ndAi, ndRest2, disj2⟩ := List.nodup_append.mp ndRest1
    obtain ⟨ndCond, ndRest3, disj3⟩ := List.nodup_append.mp ndRest2
    obtain ⟨ndStep, ndRes, disj4⟩ := List.nodup_append.mp ndRest3
    simp only [Expr.wf, Bool.and_eq_true] at hwf
    obtain ⟨⟨⟨⟨hwir, hwai⟩, hwc⟩, hws⟩, hwr⟩ := hwf
    have hfir : FreshIds c (Expr.idList ir) :=
      hfresh.mono (by intro j hj; simp [Expr.idList]; tauto)
    have hfai : FreshIds c (Expr.idList ai) :=
      hfresh.mono (by intro j hj; simp [Expr.idList]; tauto)
    have hfcond : FreshIds c (Expr.idList cond) :=
      hfresh.mono (by intro j hj; simp [Expr.idList]; tauto)
    have hfstep : FreshIds c (Expr.idList step) :=
      hfresh.mono (by intro j hj; simp [Expr.idList]; tauto)
    have hfres : FreshIds c (Expr.idList res) :=
      hfresh.mono (by intro j hj; simp [Expr.idList]; tauto)
    have hpanIR := ihCheck ir (by simp_arith at hm ⊢; omega) c hwir ndIr hfir
    have stIR := check_stepOK ir c
    have dAiIr : ∀ j, j ∈ Expr.idList ai → j ∉ Expr.idList ir :=
      fun j hj hjk => disj1 hjk (List.mem_append_left _ hj)
    have dCondIr : ∀ j, j ∈ Expr.idList cond → j ∉ Expr.idList ir :=
      fun j hj hjk => disj1 hjk (List.mem_append_right _ (List.mem_append_left _ hj))
    have dStepIr : ∀ j, j ∈ Expr.idList step → j ∉ Expr.idList ir :=
      fun j hj hjk => disj1 hjk (List.mem_append_right _ (List.mem_append_right _
        (List.mem_append_left _ hj)))
    have dResIr : ∀ j, j ∈ Expr.idList res → j ∉ Expr.idList ir :=
      fun j hj hjk => disj1 hjk (List.mem_append_right _ (List.mem_append_right _
        (List.mem_append_right _ hj)))
    have dCondAi : ∀ j, j ∈ Expr.idList cond → j ∉ Expr.idList ai :=
      fun j hj hjk => disj2 hjk (List.mem_append_left _ hj)
    have dStepAi : ∀ j, j ∈ Expr.idList step → j ∉ Expr.idList ai :=
      fun j hj hjk => disj2 hjk (List.mem_append_right _ (List.mem_append_left _ hj))
    have dResAi : ∀ j, j ∈ Expr.idList res → j ∉ Expr.idList ai :=
      fun j hj hjk => disj2 hjk (List.mem_append_right _ (List.mem_append_right _ hj))
    have dStepCond : ∀ j, j ∈ Expr.idList step → j ∉ Expr.idList cond :=
      fun j hj hjk => disj3 hjk (List.mem_append_left _ hj)
    have dResCond : ∀ j, j ∈ Expr.idList res → j ∉ Expr.idList cond :=
      fun j hj hjk => disj3 hjk (List.mem_append_right _ hj)
    have dResStep : ∀ j, j ∈ Expr.idList res → j ∉ Expr.idList step :=
      fun j hj hjk => disj4 hjk hj
    have hiIr : i ∉ Expr.idList ir := fun h => hiA (List.mem_append_left _ h)
    have hiAi : i ∉ Expr.idList ai :=
      fun h => hiA (List.mem_append_right _ (List.mem_append_left _ h))
    have hiCond : i ∉ Expr.idList cond :=
      fun h => hiA (List.mem_append_right _ (List.mem_append_right _
        (List.mem_append_left _ h)))
    have hiStep : i ∉ Expr.idList step :=
      fun h => hiA (List.mem_append_right _ (List.mem_append_right _
        (List.mem_append_right _ (List.mem_append_left _ h))))
    have hiRes : i ∉ Expr.idList res :=
      fun h => hiA (List.mem_append_right _ (List.mem_append_right _
        (List.mem_append_right _ (List.mem_append_right _ h))))
    have hpanAI := ihCheck ai (by simp_arith at hm ⊢; omega) (c.check ir) hwai ndAi
      (hfai.preserve stIR dAiIr)
    have stAI := check_stepOK ai (c.check ir)
    have hmain : ∀ c2 : Checker, Quiet ((c.check ir).check ai) c2 → ∀ vT : TyP,
        (Checker.setType
          (compBody c2 iv av (((c.check ir).check ai).getType ai) vT cond step res)
          (.comprehensionE i iv ir av ai cond step res)
          (Checker.getType
            (compBody c2 iv av (((c.check ir).check ai).getType ai) vT cond step res)
            res)).panicked = c.panicked := by
      intro c2 hq2 vT
      have fCond2 : FreshIds c2 (Expr.idList cond) :=
        ((hfcond.preserve stIR dCondIr).preserve stAI dCondAi).quiet hq2
      have fStep2 : FreshIds c2 (Expr.idList step) :=
        ((hfstep.preserve stIR dStepIr).preserve stAI dStepAi).quiet hq2
      have fRes2 : FreshIds c2 (Expr.idList res) :=
        ((hfres.preserve stIR dResIr).preserve stAI dResAi).quiet hq2
      have fI2 : FreshIds c2 [i] :=
        (((FreshIds.single hfI.1 hfI.2).preserve_single stIR hiIr).preserve_single
          stAI hiAi).quiet hq2
      simp only [compBody]
      set A : IdentDecl :=
        { name := av, type := ((c.check ir).check ai).getType ai, value := none } with hA
      set B : IdentDecl := { name := iv, type := vT, value := none } with hB
      set c7 := ((c2.enterScope.addIdent A).enterScope.addIdent B) with hc7
      have scopeSt : StepOK [] c2 c7 := by
        rw [hc7]
        exact ((((c2.enterScope_stepOK _).trans
          (Checker.addIdent_stepOK _ A _)).trans
          (Checker.enterScope_stepOK _ _)).trans
          (Checker.addIdent_stepOK _ B _))
      have hpan7 : c7.panicked = c2.panicked := by rw [hc7]; rfl
      have fCond7 : FreshIds c7 (Expr.idList cond) := fCond2.stepOK_nil scopeSt
      have fStep7 : FreshIds c7 (Expr.idList step) := fStep2.stepOK_nil scopeSt
      have fRes7 : FreshIds c7 (Expr.idList res) := fRes2.stepOK_nil scopeSt
      have fI7 : FreshIds c7 [i] := fI2.stepOK_nil scopeSt
      have hpanC := ihCheck cond (by simp_arith at hm ⊢; omega) c7 hwc ndCond fCond7
      have stC := check_stepOK cond c7
      set c8 := c7.check cond with hc8
      have hqas1 := Checker.assertType_quiet c8 cond (some Ty.bool)
      set c9 := c8.assertType cond (some Ty.bool) with hc9
      have hpanS := ihCheck step (by simp_arith at hm ⊢; omega) c9 hws ndStep
        (((fStep7.preserve stC dStepCond).quiet hqas1))
      have stS := check_stepOK step c9
      set c10 := c9.check step with hc10
      have hqas2 := Checker.assertType_quiet c10 step
        (((c.check ir).check ai).getType ai)
      set c11 := c10.assertType step (((c.check ir).check ai).getType ai) with hc11
      set c12 := c11.exitScope with hc12
      have exSt : StepOK [] c11 c12 := by rw [hc12]; exact c11.exitScope_stepOK _
      have fRes12 : FreshIds c12 (Expr.idList res) :=
        (((((fRes7.preserve stC dResCond).quiet hqas1).preserve stS
          dResStep).quiet hqas2)).stepOK_nil exSt
      have fI12 : FreshIds c12 [i] :=
        ((((fI7.preserve_single stC hiCond).quiet hqas1).preserve_single stS
          hiStep).quiet hqas2).stepOK_nil exSt
      have hpanR := ihCheck res (by simp_arith at hm ⊢; omega) c12 hwr ndRes fRes12
      have stR := check_stepOK res c12
      set c13 := c12.check res with hc13
      set c14 := c13.exitScope with hc14
      have exSt2 : StepOK [] c13 c14 := by rw [hc14]; exact c13.exitScope_stepOK _
      have fI14 : FreshIds c14 [i] :=
        ((fI12.preserve_single stR hiRes)).stepOK_nil exSt2
      have hfinal : findId c14.types i = none := fI14.types_none
      refine (setType_panicked_fresh _ _ _ hfinal).trans ?_
      show c14.panicked = c.panicked
      have e14 : c14.panicked = c13.panicked := by rw [hc14]; rfl
      have e12 : c12.panicked = c11.panicked := by rw [hc12]; rfl
      rw [e14, hc13, hpanR, e12, hc11, hqas2.2.2.2.1, hc10, hpanS, hc9,
        hqas1.2.2.2.1, hc8, hpanC, hpan7, hq2.2.2.2.1, hpanAI, hpanIR]
    cases hk : KindOfP (((c.check ir).check ai).getType ir) with
    | kindList =>
      simp only [Checker.checkComprehension, hk]
      exact hmain _ (Quiet.refl _) _
    | kindMap =>
      simp only [Checker.checkComprehension, hk]
      exact hmain _ (Quiet.refl _) _
    | kindDyn =>
      simp only [Checker.checkComprehension, hk]
      exact hmain _ (Quiet.refl _) _
    | kindError =>
      simp only [Checker.checkComprehension, hk]
      exact hmain _ (Quiet.refl _) _
    | kindNull =>
      simp only [Checker.checkComprehension, hk]
      exact hmain _ (Checker.addError_quiet _ _) _
    | kindBool =>
      simp only [Checker.checkComprehension, hk]
      exact hmain _ (Checker.addError_quiet _ _) _
    | kindInt64 =>
      simp only [Checker.checkComprehension, hk]
      exact hmain _ (Checker.addError_quiet _ _) _
    | kindUint64 =>
      simp only [Checker.checkComprehension, hk]
      exact hmain _ (Checker.addError_quiet _ _) _
    | kindDouble =>
      simp only [Checker.checkComprehension, hk]
      exact hmain _ (Checker.addError_quiet _ _) _
    | kindString =>
      simp only [Checker.checkComprehension, hk]
      exact hmain _ (Checker.addError_quiet _ _) _
    | kindBytes =>
      simp only [Checker.checkComprehension, hk]
      exact hmain _ (Checker.addError_quiet _ _) _
    | kindObject =>
      simp only [Checker.checkComprehension, hk]
      exact hmain _ (Checker.addError_quiet _ _) _
    | kindType =>
      simp only [Checker.checkComprehension, hk]
      exact hmain _ (Checker.addError_quiet _ _) _
    | kindTypeParam =>
      simp only [Checker.checkComprehension, hk]
      exact hmain _ (Checker.addError_quiet _ _) _
    | kindFunction =>
      simp only [Checker.checkComprehension, hk]
      exact hmain _ (Checker.addError_quiet _ _) _
    | kindWellKnown =>
      simp only [Checker.checkComprehension, hk]
      exact hmain _ (Checker.addError_quiet _ _) _
    | kindUnknown =>
      simp only [Checker.checkComprehension, hk]
      exact hmain _ (Checker.addError_quiet _ _) _

theorem masterNP_succ (n : Nat) (ih : MasterNP n) : MasterNP (n + 1) :=
  ⟨masterNP_check n ih, masterNP_select n ih, masterNP_call n ih, masterNP_clist n ih,
   masterNP_cstruct n ih, masterNP_cmap n ih, masterNP_cmsg n ih, masterNP_comp n ih,
   masterNP_args n ih, masterNP_elems n ih, masterNP_mapents n ih, masterNP_msgentry n ih,
   masterNP_msgents n ih⟩

theorem masterNP (n : Nat) : MasterNP n := by
  induction n with
  | zero => exact masterNP_zero
  | succ k ihk => exact masterNP_succ k ihk

theorem check_panicked (e : Expr) (c : Checker) (hwf : Expr.wf e = true)
    (hnd : e.idList.Nodup) (hfresh : FreshIds c e.idList) :
    (c.check e).panicked = c.panicked :=
  (masterNP (3 * sizeOf e + 2)).1 e le_rfl c hwf hnd hfresh

/-- C7: on a well-formed AST — unique node ids, and map-form struct
literals carrying only map-keyed entries (on a field-keyed entry the Go
code dereferences a nil pointer before reaching any guarded write) — a
`Check` run never trips the internal-error abort: the panic flag stays
`false`, because every `types`/`references` write is the first at its
id.  Conversely, rewriting an existing entry to a structurally
different value raises the abort signal in `setType` and
`setReference`. -/
theorem c7_write_conflicts :
    (∀ (p : ParsedExpr) (env : Env) (container : String) (e : Expr),
      p.expr = some e → Expr.wf e = true → e.idList.Nodup →
      (Check p env container).2.panicked = false) ∧
    (∀ (c : Checker) (e : Expr) (t old : TyP),
      findId c.types e.exprId = some old → old ≠ t →
      (c.setType e t).panicked = true) ∧
    (∀ (c : Checker) (e : Expr) (r old : Reference),
      findId c.references e.exprId = some old → old ≠ r →
      (c.setReference e r).panicked = true) := by
  refine ⟨?_, ?_, ?_⟩
  · intro p env container e hp hwf hnd
    rw [Check.eq_def]
    dsimp only
    rw [hp]
    exact check_panicked e _ hwf hnd (fun j hj => ⟨rfl, rfl⟩)
  · intro c e t old h hne
    rw [Checker.setType, h]
    dsimp only
    rw [if_neg hne]
  · intro c e r old h hne
    rw [Checker.setReference, h]
    dsimp only
    rw [if_neg hne]

theorem c8_amended_witness :
    c8SortedChecker.locationById 1 =
      .location
        (1 + c8SortedChecker.sourceInfo.lineOffsets.countP (fun lo => decide (lo < 12)))
        (((c8SortedChecker.sourceInfo.lineOffsets.filter
          (fun lo => decide (lo < 12))).getLast?).elim 12 (fun lo => 12 - lo)) ∧
    c8SortedChecker.locationById 9 = .noLocation :=
  ⟨(c8_amended c8SortedChecker 1 12 (by decide)).1 (by decide),
   (c8_amended c8SortedChecker 9 12 (by decide)).2 (by decide)⟩

/-! ## Concrete runs of the checker -/

/-- A type provider that resolves nothing. -/
def tpW : TypeProvider := { lookupType := fun _ => false, lookupFieldType := fun _ _ => none }

/-- An environment with no declarations. -/
def envW0 : Env := { typeProvider := tpW, scopes := [] }

/-- A fresh checker state over an environment, as built by `Check`. -/
def freshChecker (env : Env) : Checker :=
  { env := env, container := "", mappings := [], freeTypeVarCounter := 0,
    sourceInfo := {}, types := [], references := [] }

def pW1 : ParsedExpr := { expr := some (.constE 1 (.int64Value 0)), sourceInfo := {} }

def pC1 : ParsedExpr :=
  { expr := some (.structE 1 "M" [.fieldEntry 2 "x" (.constE 3 (.int64Value 0))]),
    sourceInfo := {} }

def cW2 : Checker := freshChecker envW0

def irW2 : Expr := .constE 2 (.int64Value 3)

def aiW2 : Expr := .constE 3 (.int64Value 0)

def condW2 : Expr := .constE 4 (.boolValue true)

def stepW2 : Expr := .constE 5 (.int64Value 1)

def resW2 : Expr := .identE 6 "a"

def eW2 : Expr := .comprehensionE 1 "x" irW2 "a" aiW2 condW2 stepW2 resW2

def fnW3 : FuncDecl :=
  { name := "add",
    overloads :=
      [{ overloadId := "add_int", typeParams := [], params := [.int64, .int64],
         resultType := .int64, isInstanceFunction := false },
       { overloadId := "add_poly", typeParams := ["T"],
         params := [.typeParam "T", .typeParam "T"],
         resultType := .typeParam "T", isInstanceFunction := false }] }

def cW3 : Checker :=
  { env := envW0, container := "", mappings := [], freeTypeVarCounter := 0,
    sourceInfo := {}, types := [(2, some .int64), (3, some .int64)], references := [] }

def argsW3 : List Expr := [.constE 2 (.int64Value 1), .constE 3 (.int64Value 2)]

def resW3 : OverloadResolution :=
  { reference := { name := "", overloadId := ["add_int", "add_poly"], value := none },
    type := some Ty.dyn }

def envC4 : Env :=
  { typeProvider := tpW,
    scopes := [{ idents := [{ name := "a", type := some .int64, value := none }],
                 functions := [{ name := "a.g", overloads := [] }] }] }

def cC4 : Checker := freshChecker envC4

def eC4 : Expr := .callE 1 (some (.identE 2 "a")) "g" []

def fnW4 : FuncDecl :=
  { name := "a.h",
    overloads := [{ overloadId := "h0", typeParams := [], params := [],
                    resultType := .int64, isInstanceFunction := false }] }

def envW4 : Env := { typeProvider := tpW, scopes := [{ idents := [], functions := [fnW4] }] }

def cW4 : Checker := freshChecker envW4

def resW4 : OverloadResolution :=
  { reference := { name := "", overloadId := ["h0"], value := none },
    type := some Ty.int64 }

def fnW5 : FuncDecl :=
  { name := "f",
    overloads := [{ overloadId := "f0", typeParams := [], params := [],
                    resultType := .int64, isInstanceFunction := false }] }

def envW5 : Env := { typeProvider := tpW, scopes := [{ idents := [], functions := [fnW5] }] }

def cW5 : Checker := freshChecker envW5

def argW5 : Expr := .constE 2 (.int64Value 7)

def fnW5b : FuncDecl :=
  { name := "m",
    overloads := [{ overloadId := "m0", typeParams := [], params := [.string],
                    resultType := .int64, isInstanceFunction := true }] }

def envW5b : Env := { typeProvider := tpW, scopes := [{ idents := [], functions := [fnW5b] }] }

def cW5b : Checker := freshChecker envW5b

def tgtW5 : Expr := .constE 3 (.int64Value 9)

def cW6 : Checker := freshChecker envW0

def opW6 : Expr := .constE 2 (.int64Value 0)

def cW10 : Checker := freshChecker envW0

def opW10 : Expr :=
  .structE 2 "" [.mapEntry 3 (.constE 4 (.stringValue "k")) (.constE 5 (.int64Value 1))]

def pW7 : ParsedExpr := { expr := some (.constE 1 (.int64Value 0)), sourceInfo := {} }

def cW7 : Checker :=
  { env := envW0, container := "", mappings := [], freeTypeVarCounter := 0,
    sourceInfo := {}, types := [(1, some Ty.int64)], references := [] }

unseal Checker.check Checker.checkSelect Checker.checkCall Checker.checkCreateList
  Checker.checkCreateStruct Checker.checkCreateMap Checker.checkCreateMessage
  Checker.checkComprehension Checker.checkArgs Checker.checkElements
  Checker.checkMapEntries Checker.checkMessageEntry Checker.checkMessageEntries
  Substitute SubstituteL internalIsAssignable internalIsAssignableList

set_option maxRecDepth 100000

set_option maxHeartbeats 2000000

/-- C1 counterexample: a struct literal whose message name does not
resolve gets **no** type entry, neither at the root nor at its field
initializer's value, although both nodes are reachable from the root:
the spec's blanket coverage statement fails. -/
theorem c1_counterexample :
    pC1.expr = some (.structE 1 "M" [.fieldEntry 2 "x" (.constE 3 (.int64Value 0))]) ∧
    findId (Check pC1 envW0 "").1.typeMap 1 = none ∧
    findId (Check pC1 envW0 "").1.typeMap 3 = none := by
  refine ⟨rfl, ?_, ?_⟩ <;> decide

theorem c1_amended_witness :
    findId (Check pW1 envW0 "").1.typeMap 1 = some (some Ty.int64) ∧
    hasTypeParam Ty.int64 = false ∧
    findId (Check pW1 envW0 "").1.typeMap
      (Expr.exprId (.constE 1 (.int64Value 0))) ≠ none :=
  ⟨by decide,
   (c1_amended pW1 envW0 "").1 1 (some Ty.int64) Ty.int64 (by decide) rfl,
   (c1_amended pW1 envW0 "").2 (.constE 1 (.int64Value 0)) rfl
     (by rintro ⟨j, mn, ents, heq, _, _⟩; cases heq)⟩

/-- C2 counterexample: a comprehension ranging over an `int64` constant
emits not-a-comprehension-range, yet the scopes are entered and the
loop-condition, loop-step and result are all type-checked: the condition
and result nodes receive type entries and the result resolves the
accumulator variable installed by the supposedly skipped scope entry. -/
theorem c2_counterexample :
    findId ((cW2.check eW2).types) 4 = some (some Ty.bool) ∧
    findId ((cW2.check eW2).types) 6 = some (some Ty.int64) ∧
    (cW2.check eW2).env.errors =
      [.notAComprehensionRange .noLocation (some Ty.int64)] := by
  have hd : cW2.check eW2 =
      cW2.checkComprehension (.comprehensionE 1 "x" irW2 "a" aiW2 condW2 stepW2 resW2) := by
    show cW2.check (.comprehensionE 1 "x" irW2 "a" aiW2 condW2 stepW2 resW2) = _
    simp only [Checker.check]
  have hmain := checkComprehension_range_error cW2 1 "x" "a" irW2 aiW2 condW2 stepW2 resW2
    (by decide) (by decide) (by decide) (by decide)
  rw [hd, hmain]
  refine ⟨?_, ?_, ?_⟩ <;> decide

theorem c2_amended_witness :
    KindOfP (((cW2.check irW2).check aiW2).getType irW2) ≠ Kind.kindList ∧
    KindOfP (((cW2.check irW2).check aiW2).getType irW2) ≠ Kind.kindMap ∧
    KindOfP (((cW2.check irW2).check aiW2).getType irW2) ≠ Kind.kindDyn ∧
    KindOfP (((cW2.check irW2).check aiW2).getType irW2) ≠ Kind.kindError ∧
    (cW2.checkComprehension (.comprehensionE 1 "x" irW2 "a" aiW2 condW2 stepW2 resW2) =
      Checker.setType
        (compBody
          (((cW2.check irW2).check aiW2).addError
            (.notAComprehensionRange
              (((cW2.check irW2).check aiW2).locationById irW2.exprId)
              (((cW2.check irW2).check aiW2).getType irW2)))
          "x" "a" (((cW2.check irW2).check aiW2).getType aiW2) none condW2 stepW2 resW2)
        (.comprehensionE 1 "x" irW2 "a" aiW2 condW2 stepW2 resW2)
        (Checker.getType
          (compBody
            (((cW2.check irW2).check aiW2).addError
              (.notAComprehensionRange
                (((cW2.check irW2).check aiW2).locationById irW2.exprId)
                (((cW2.check irW2).check aiW2).getType irW2)))
            "x" "a" (((cW2.check irW2).check aiW2).getType aiW2) none condW2 stepW2 resW2)
          resW2) ∧
      Diag.notAComprehensionRange (((cW2.check irW2).check aiW2).locationById irW2.exprId)
          (((cW2.check irW2).check aiW2).getType irW2)
        ∈ (cW2.checkComprehension
            (.comprehensionE 1 "x" irW2 "a" aiW2 condW2 stepW2 resW2)).env.errors) :=
  ⟨by decide, by decide, by decide, by decide,
   c2_amended cW2 1 "x" "a" irW2 aiW2 condW2 stepW2 resW2
     (by decide) (by decide) (by decide) (by decide)⟩

theorem c3_overload_resolution_witness :
    (cW3.resolveOverload Loc.noLocation fnW3 none argsW3).1 = some resW3 ∧
    (resW3.reference.name = "" ∧ resW3.reference.value = none ∧
     resW3.reference.overloadId ≠ [] ∧
     List.Sublist resW3.reference.overloadId
       (fnW3.overloads.map (fun o => o.overloadId)) ∧
     (2 ≤ resW3.reference.overloadId.length → resW3.type = some Ty.dyn)) :=
  ⟨by decide,
   c3_overload_resolution.1 cW3 Loc.noLocation fnW3 none argsW3 resW3 (by decide)⟩

/-- C4 counterexample: the receiver of `a.g()` reads as the qualified
name `a` and `a.g` **is** in the function table, yet the receiver
subtree is still type-checked (its ident node gets a type entry),
because the resolution against `a.g`'s empty overload list failed and
the checker fell through to the instance path. -/
theorem c4_counterexample :
    asQualifiedName (.identE 2 "a") = some "a" ∧
    lookupFunction cC4.env.scopes cC4.container "a.g" ≠ none ∧
    findId ((cC4.check eC4).types) 2 = some (some Ty.int64) := by
  refine ⟨rfl, ?_, ?_⟩ <;> decide

theorem c4_amended_witness :
    asQualifiedName (.identE 2 "a") = some "a" ∧
    lookupFunction (cW4.checkArgs []).env.scopes (cW4.checkArgs []).container
      ("a" ++ "." ++ "h") = some fnW4 ∧
    ((cW4.checkArgs []).resolveOverload
      ((cW4.checkArgs []).location (.callE 1 (some (.identE 2 "a")) "h" [])) fnW4
      none []).1 = some resW4 ∧
    Checker.checkCall cW4 (.callE 1 (some (.identE 2 "a")) "h" []) =
      (Checker.setType
        ((cW4.checkArgs []).resolveOverload
          ((cW4.checkArgs []).location (.callE 1 (some (.identE 2 "a")) "h" [])) fnW4
          none []).2
        (.callE 1 (some (.identE 2 "a")) "h" []) resW4.type).setReference
        (.callE 1 (some (.identE 2 "a")) "h" []) resW4.reference :=
  ⟨rfl, by decide, by decide,
   c4_amended.1 cW4 1 (.identE 2 "a") "h" [] "a" fnW4 resW4
     rfl (by decide) (by decide)⟩

theorem c5_no_matching_overload_witness :
    (lookupFunction (cW5.checkArgs [argW5]).env.scopes
      (cW5.checkArgs [argW5]).container "f" = some fnW5 ∧
    ((cW5.checkArgs [argW5]).resolveOverload
      ((cW5.checkArgs [argW5]).location (.callE 1 none "f" [argW5])) fnW5 none
      [argW5]).1 = none ∧
    (Checker.checkCall cW5 (.callE 1 none "f" [argW5]) =
      Checker.setType
        ((cW5.checkArgs [argW5]).resolveOverload
          ((cW5.checkArgs [argW5]).location (.callE 1 none "f" [argW5])) fnW5 none
          [argW5]).2
        (.callE 1 none "f" [argW5]) (some .error) ∧
    Diag.noMatchingOverload ((cW5.checkArgs [argW5]).location (.callE 1 none "f" [argW5]))
        fnW5.name ([argW5].map (fun a => (cW5.checkArgs [argW5]).getType a)) false ∈
      (Checker.checkCall cW5 (.callE 1 none "f" [argW5])).env.errors ∧
    (1 ∉ Expr.idListL [argW5] →
      findId ((Checker.checkCall cW5 (.callE 1 none "f" [argW5])).references) 1
        = findId cW5.references 1) ∧
    (∀ a, a ∈ [argW5] →
      (∀ (j : Nat) (mn : String) (ents : List Entry), a = Expr.structE j mn ents →
        mn ≠ "" → lookupIdent cW5.env.scopes cW5.container mn ≠ none) →
      findId ((Checker.checkCall cW5 (.callE 1 none "f" [argW5])).types) a.exprId
        ≠ none))) ∧
    (asQualifiedName tgtW5 = none ∧
    lookupFunction ((cW5b.checkArgs []).check tgtW5).env.scopes
      ((cW5b.checkArgs []).check tgtW5).container "m" = some fnW5b ∧
    (((cW5b.checkArgs []).check tgtW5).resolveOverload
      (((cW5b.checkArgs []).check tgtW5).location (.callE 1 (some tgtW5) "m" []))
      fnW5b (some tgtW5) []).1 = none ∧
    (Checker.checkCall cW5b (.callE 1 (some tgtW5) "m" []) =
      Checker.setType
        (((cW5b.checkArgs []).check tgtW5).resolveOverload
          (((cW5b.checkArgs []).check tgtW5).location (.callE 1 (some tgtW5) "m" []))
          fnW5b (some tgtW5) []).2
        (.callE 1 (some tgtW5) "m" []) (some .error) ∧
    Diag.noMatchingOverload
        (((cW5b.checkArgs []).check tgtW5).location (.callE 1 (some tgtW5) "m" []))
        fnW5b.name
        ([((cW5b.checkArgs []).check tgtW5).getType tgtW5]
          ++ ([] : List Expr).map (fun a => ((cW5b.checkArgs []).check tgtW5).getType a))
        true ∈
      (Checker.checkCall cW5b (.callE 1 (some tgtW5) "m" [])).env.errors ∧
    (1 ∉ Expr.idListL [] → 1 ∉ Expr.idList tgtW5 →
      findId ((Checker.checkCall cW5b (.callE 1 (some tgtW5) "m" [])).references) 1
        = findId cW5b.references 1) ∧
    (∀ a, a ∈ ([] : List Expr) →
      (∀ (j : Nat) (mn : String) (ents : List Entry), a = Expr.structE j mn ents →
        mn ≠ "" → lookupIdent cW5b.env.scopes cW5b.container mn ≠ none) →
      findId ((Checker.checkCall cW5b (.callE 1 (some tgtW5) "m" [])).types) a.exprId
        ≠ none))) :=
  ⟨⟨by decide, by decide,
    c5_no_matching_overload.1 cW5 1 "f" [argW5] fnW5 (by decide) (by decide)⟩,
   ⟨rfl, by decide, by decide,
    c5_no_matching_overload.2.1 cW5b 1 tgtW5 "m" [] fnW5b rfl (by decide) (by decide)⟩⟩

theorem c6_testonly_bool_witness :
    findId cW6.types 1 = none ∧ (1 ∉ Expr.idList opW6) ∧
    findId ((Checker.checkSelect cW6 (.selectE 1 opW6 "f" true)).types) 1
      = some (some Ty.bool) :=
  ⟨rfl, by decide, c6_testonly_bool cW6 1 opW6 "f" rfl (by decide)⟩

theorem c7_write_conflicts_witness :
    pW7.expr = some (.constE 1 (.int64Value 0)) ∧
    Expr.wf (.constE 1 (.int64Value 0)) = true ∧
    (Expr.idList (.constE 1 (.int64Value 0))).Nodup ∧
    (Check pW7 envW0 "").2.panicked = false ∧
    findId cW7.types (Expr.exprId (.constE 1 (.int64Value 0))) = some (some Ty.int64) ∧
    (cW7.setType (.constE 1 (.int64Value 0)) (some Ty.bool)).panicked = true :=
  ⟨rfl, by decide, by decide,
   c7_write_conflicts.1 pW7 envW0 "" (.constE 1 (.int64Value 0)) rfl
     (by decide) (by decide),
   rfl,
   c7_write_conflicts.2.1 cW7 (.constE 1 (.int64Value 0)) (some Ty.bool)
     (some Ty.int64) rfl (by decide)⟩

theorem c10_testonly_map_witness :
    (match asQualifiedName (.selectE 1 opW10 "f" true) with
      | some qname => lookupIdent cW10.env.scopes cW10.container qname
      | none => none : Option IdentDecl) = none ∧
    (Checker.check cW10 opW10).getType opW10 = some (.map .string .int64) ∧
    findId cW10.types 1 = none ∧ (1 ∉ Expr.idList opW10) ∧
    (findId ((Checker.checkSelect cW10 (.selectE 1 opW10 "f" true)).types) 1
      = some (some Ty.bool) ∧
    (Checker.checkSelect cW10 (.selectE 1 opW10 "f" true)).env.errors
      = (Checker.check cW10 opW10).env.errors) :=
  ⟨rfl, by decide, rfl, by decide,
   c10_testonly_map cW10 1 opW10 "f" .string .int64 rfl (by decide) rfl (by decide)⟩

end cel
